import Mathlib

/-!
# Verification of the PatitasBigotes sales backend core

A shallow embedding of the order / stock-reservation / payment /
webhook core of the repository (files under `backend/source/services`
and `backend/source/routes`), together with proofs and refutations of
the frozen claims about it.

Conventions of the embedding:
* SQLAlchemy rows become Lean structures; the database session becomes an
  explicit `DB` value threaded through the functions; a transaction that
  raises becomes `Except.error` (the transactional session rolls back, so
  an error carries no state).
* Python `float` money amounts become `ℚ`; `datetime` values become `ℤ`
  (minutes); `timedelta(hours=h)` becomes `h * 60`.
* Python `None` becomes `Option.none`; status strings stay strings, as in
  the source.
* The opaque `provider_payload` JSON blob is not modelled field-by-field:
  the only part of it the services ever read back is the checkout
  `preference_id`, kept here as `Payment.checkoutPreferenceId`.
-/

namespace PatitasBigotes

/-- Row of `product_variants` (`source/db/models.py`, `ProductVariant`). -/
structure Variant where
  id : ℕ
  productId : ℕ
  price : ℚ
  stock : ℤ
  isActive : Bool
  deriving Repr, DecidableEq

/-- The product dictionary produced by `products_s.get_product_by_id`
(only the fields the discount engine reads: `id` and `category`). -/
structure Product where
  id : ℕ
  category : Option String
  deriving Repr, DecidableEq

/-- Row of `orders` (`source/db/models.py`, `Order`). -/
structure Order where
  id : ℕ
  userId : ℕ
  status : String
  currency : String
  subtotal : ℚ
  discountTotal : ℚ
  totalAmount : ℚ
  pricingFrozen : Bool
  pricingFrozenAt : Option ℤ
  submittedAt : Option ℤ
  paidAt : Option ℤ
  cancelledAt : Option ℤ
  deriving Repr, DecidableEq

/-- Row of `order_items` (`source/db/models.py`, `OrderItem`). -/
structure OrderItem where
  id : ℕ
  orderId : ℕ
  productId : ℕ
  variantId : ℕ
  quantity : ℤ
  unitPrice : ℚ
  discountId : Option ℕ
  discountAmount : ℚ
  finalUnitPrice : ℚ
  lineTotal : ℚ
  deriving Repr, DecidableEq

/-- Row of `stock_reservations` (`source/db/models.py`, `StockReservation`). -/
structure StockReservation where
  id : ℕ
  orderId : ℕ
  orderItemId : ℕ
  variantId : ℕ
  quantity : ℤ
  status : String
  reactivationCount : ℕ
  expiresAt : ℤ
  consumedAt : Option ℤ
  releasedAt : Option ℤ
  reason : Option String
  deriving Repr, DecidableEq

/-- Row of `payments` (`source/db/models.py`, `Payment`); the opaque
`provider_payload` JSON string is represented only by the checkout
`preference_id` that `payment_s._get_checkout_preference_id` extracts
from it. -/
structure Payment where
  id : ℕ
  orderId : ℕ
  method : String
  status : String
  amount : ℚ
  currency : String
  idempotencyKey : String
  externalRef : Option String
  providerStatus : Option String
  checkoutPreferenceId : Option String
  expiresAt : Option ℤ
  paidAt : Option ℤ
  createdAt : ℤ
  updatedAt : Option ℤ
  deriving Repr, DecidableEq

/-- Row of `webhook_events` (`source/db/models.py`, `WebhookEvent`). -/
structure WebhookEvent where
  provider : String
  eventKey : String
  status : String
  deriving Repr, DecidableEq

/-- The `DiscountDTO` dictionary of `source/services/discount_s.py`. -/
structure Discount where
  id : ℕ
  dtype : String
  value : ℚ
  scope : String
  scopeValue : Option String
  isActive : Bool
  startsAt : Option ℤ
  endsAt : Option ℤ
  productIds : List ℕ
  deriving Repr, DecidableEq

/-- The relational state the embedded services read and write. -/
structure DB where
  variants : List Variant
  products : List Product
  orders : List Order
  items : List OrderItem
  reservations : List StockReservation
  payments : List Payment
  webhookEvents : List WebhookEvent
  discounts : List Discount
  nextReservationId : ℕ
  nextPaymentId : ℕ
  nextOrderId : ℕ
  nextItemId : ℕ
  deriving Repr, DecidableEq

/-! ## Discount engine (`source/services/discount_s.py`, pure core) -/

/-- `discount_s.is_discount_currently_valid`: active, and `now` inside the
optional `[starts_at, ends_at]` window. -/
def is_discount_currently_valid (d : Discount) (now : ℤ) : Bool :=
  if !d.isActive then false
  else if (match d.startsAt with | some s => decide (now < s) | none => false) then
    false
  else if (match d.endsAt with | some e => decide (e < now) | none => false) then
    false
  else true

/-- `discount_s.calculate_line_discount`: percent is
`unit_price * value / 100`, fixed is `value`, clamped to `[0, unit_price]`;
unknown types and non-positive inputs yield `0`. -/
def calculate_line_discount (unit_price : ℚ) (d : Discount) : ℚ :=
  if unit_price ≤ 0 ∨ d.value ≤ 0 then 0
  else if d.dtype = "percent" then
    max 0 (min (unit_price * (d.value / 100)) unit_price)
  else if d.dtype = "fixed" then
    max 0 (min d.value unit_price)
  else 0

/-- The loop body of `discount_s.select_best_discount`: running best and
best amount, updated when a strictly larger amount appears. -/
def select_best_go (unit_price : ℚ) :
    List Discount → Option Discount → ℚ → Option Discount
  | [], best, _ => best
  | d :: ds, best, bestAmount =>
      let amount := calculate_line_discount unit_price d
      if bestAmount < amount then select_best_go unit_price ds (some d) amount
      else select_best_go unit_price ds best bestAmount

/-- `discount_s.select_best_discount`. -/
def select_best_discount (discounts : List Discount) (unit_price : ℚ) :
    Option Discount :=
  select_best_go unit_price discounts none 0

/-- Result dictionary of `discount_s.calculate_line_pricing`. -/
structure LinePricing where
  unitPrice : ℚ
  quantity : ℤ
  discountId : Option ℕ
  discountAmount : ℚ
  finalUnitPrice : ℚ
  lineTotal : ℚ
  deriving Repr, DecidableEq

/-- `discount_s.calculate_line_pricing` (raises on `quantity ≤ 0`). -/
def calculate_line_pricing (unit_price : ℚ) (quantity : ℤ)
    (discount : Option Discount) : Except String LinePricing :=
  if quantity ≤ 0 then .error "quantity must be greater than 0"
  else
    let discount_amount :=
      match discount with
      | none => 0
      | some d => calculate_line_discount unit_price d
    let discount_id := discount.map (·.id)
    let final_unit_price := max 0 (unit_price - discount_amount)
    .ok
      { unitPrice := unit_price
        quantity := quantity
        discountId := discount_id
        discountAmount := discount_amount
        finalUnitPrice := final_unit_price
        lineTotal := final_unit_price * (quantity : ℚ) }

/-- `discount_s.get_applicable_discounts_for_product`; Python's
`str(scope_value) == str(category)` compares the `str()` images, with
`str(None) = "None"`. -/
def str_of_opt : Option String → String
  | none => "None"
  | some s => s

/-- `discount_s.get_applicable_discounts_for_product`. -/
def get_applicable_discounts_for_product (p : Product)
    (discounts : List Discount) (now : ℤ) : List Discount :=
  discounts.filter fun d =>
    is_discount_currently_valid d now &&
      (d.scope = "all"
        || (d.scope = "category" && str_of_opt d.scopeValue = str_of_opt p.category)
        || (d.scope = "product" && str_of_opt d.scopeValue = toString p.id)
        || (d.scope = "product_list"
              && (d.productIds.map fun pid => toString pid).contains (toString p.id)))

/-- One step of the loop of `discount_s.reprice_order_items`: items whose
product is missing are left untouched, the rest get the best applicable
discount re-applied at their stored `unit_price`. -/
def reprice_item (discounts : List Discount) (products : List Product)
    (now : ℤ) (item : OrderItem) : Except String OrderItem :=
  match products.find? (fun p => p.id = item.productId) with
  | none => .ok item
  | some product => do
      let applicable := get_applicable_discounts_for_product product discounts now
      let best := select_best_discount applicable item.unitPrice
      let pricing ← calculate_line_pricing item.unitPrice item.quantity best
      .ok { item with
              discountId := pricing.discountId
              discountAmount := pricing.discountAmount
              finalUnitPrice := pricing.finalUnitPrice
              lineTotal := pricing.lineTotal }

/-- Totals produced by `discount_s.recalculate_order_totals`. -/
structure OrderTotals where
  subtotal : ℚ
  discountTotal : ℚ
  totalAmount : ℚ
  deriving Repr, DecidableEq

/-- `discount_s.recalculate_order_totals` on the item list. -/
def recalculate_order_totals (items : List OrderItem) : OrderTotals :=
  { subtotal := (items.map fun i => i.unitPrice * (i.quantity : ℚ)).sum
    discountTotal := (items.map fun i => i.discountAmount * (i.quantity : ℚ)).sum
    totalAmount := (items.map fun i => i.lineTotal).sum }

/-- `discount_s.reprice_order_items`: reprice every line, then recompute
the totals. -/
def reprice_order_items (items : List OrderItem) (discounts : List Discount)
    (products : List Product) (now : ℤ) :
    Except String (List OrderItem × OrderTotals) := do
  let repriced ← items.mapM (reprice_item discounts products now)
  .ok (repriced, recalculate_order_totals repriced)

/-- `discount_s.validate_order_pricing_before_submit`. -/
def validate_order_pricing_before_submit (items : List OrderItem)
    (totalAmount : ℚ) : Except String Unit :=
  if items.isEmpty then .error "cannot submit an empty order"
  else if totalAmount < 0 then .error "order total cannot be negative"
  else .ok ()

/-! ## Stock reservation manager (`source/services/stock_reservations_s.py`) -/

/-- `RESERVATION_TTL_HOURS = 42`, in minutes. -/
def RESERVATION_TTL_MINUTES : ℤ := 42 * 60

/-- `RESERVATION_REACTIVATION_TTL_HOURS = 12`, in minutes. -/
def RESERVATION_REACTIVATION_TTL_MINUTES : ℤ := 12 * 60

/-- `MAX_RESERVATION_REACTIVATIONS = 1`. -/
def MAX_RESERVATION_REACTIVATIONS : ℕ := 1

/-- `ORDER BY order_id ASC, id ASC` on reservations. -/
def res_order (a b : StockReservation) : Prop :=
  a.orderId < b.orderId ∨ (a.orderId = b.orderId ∧ a.id ≤ b.id)

instance : DecidableRel res_order := fun a b => by
  unfold res_order; infer_instance

/-- `ORDER BY id ASC` on reservations. -/
def res_id_order (a b : StockReservation) : Prop := a.id ≤ b.id

instance : DecidableRel res_id_order := fun a b => by
  unfold res_id_order; infer_instance

/-- `ORDER BY id ASC` on order items. -/
def item_order (a b : OrderItem) : Prop := a.id ≤ b.id

instance : DecidableRel item_order := fun a b => by
  unfold item_order; infer_instance

/-- The items of one order. -/
def items_of (db : DB) (oid : ℕ) : List OrderItem :=
  db.items.filter fun i => i.orderId = oid

/-- `stock_reservations_s._lock_order_items_for_order`: the order row plus
its items sorted by id; errors when the order is missing or has no items. -/
def lock_order_items_for_order (oid : ℕ) (db : DB) :
    Except String (Order × List OrderItem) :=
  match db.orders.find? (fun o => o.id = oid) with
  | none => .error "order not found"
  | some o =>
      let items := (items_of db oid).insertionSort item_order
      if items.isEmpty then .error "order has no items" else .ok (o, items)

/-- `stock_reservations_s._get_active_reservation_by_item`. -/
def get_active_reservation_by_item (itemId : ℕ) (db : DB) :
    Option StockReservation :=
  db.reservations.find? fun r => r.orderItemId = itemId ∧ r.status = "active"

/-- The `SUM(quantity)` of active, non-expired reservations of a variant
(the aggregate inside `_available_stock_for_variant`). -/
def reserved_quantity (rs : List StockReservation) (vid : ℕ) (now : ℤ) : ℤ :=
  ((rs.filter fun r =>
      r.variantId = vid ∧ r.status = "active" ∧ now < r.expiresAt).map
    fun r => r.quantity).sum

/-- `stock_reservations_s._available_stock_for_variant`: the active variant
row plus `max 0 (stock - reserved)`. -/
def available_stock_for_variant (vid : ℕ) (now : ℤ) (db : DB) :
    Except String (Variant × ℤ) :=
  match db.variants.find? (fun v => v.id = vid ∧ v.isActive) with
  | none => .error ("variant " ++ toString vid ++ " not found")
  | some v => .ok (v, max 0 (v.stock - reserved_quantity db.reservations vid now))

/-- `stock_reservations_s._cancel_pending_payments_for_order`. -/
def cancel_pending_payments_for_order (oid : ℕ) (now : ℤ)
    (ps : List Payment) : List Payment :=
  ps.map fun p =>
    if p.orderId = oid ∧ p.status = "pending" then
      { p with
          status := "cancelled"
          providerStatus := some "order_cancelled_reservation_expired"
          updatedAt := some now }
    else p

/-- The first loop of `expire_active_reservations`: mark the listed
reservation rows expired. -/
def mark_reservations_expired (ids : List ℕ) (now : ℤ)
    (rs : List StockReservation) : List StockReservation :=
  rs.map fun r =>
    if ids.contains r.id then
      { r with
          status := "expired"
          releasedAt := some now
          reason := some "reservation_expired" }
    else r

/-- The reactivation loop of `expire_active_reservations`: revert the listed
rows to active, bump `reactivation_count`, renew the expiry and clear the
release/consumption marks. -/
def reactivate_reservations (ids : List ℕ) (newExpiry : ℤ)
    (rs : List StockReservation) : List StockReservation :=
  rs.map fun r =>
    if ids.contains r.id then
      { r with
          status := "active"
          reactivationCount := r.reactivationCount + 1
          expiresAt := newExpiry
          releasedAt := none
          consumedAt := none
          reason := none }
    else r

/-- The cancel-cascade on the order row: set status cancelled and stamp
`cancelled_at` when still null. -/
def cancel_order_row (oid : ℕ) (now : ℤ) (os : List Order) : List Order :=
  os.map fun o =>
    if o.id = oid then
      { o with
          status := "cancelled"
          cancelledAt := match o.cancelledAt with
            | none => some now
            | some t => some t }
    else o

/-- The per-item availability loop of the reactivation attempt, with the
source's early exit at the first item that does not fit. -/
def check_all_items_fit (now : ℤ) (db : DB) :
    List OrderItem → Except String Bool
  | [] => .ok true
  | i :: rest => do
      let (_, available) ← available_stock_for_variant i.variantId now db
      if available < i.quantity then .ok false
      else check_all_items_fit now db rest

/-- The body of the per-order loop of
`stock_reservations_s.expire_active_reservations`: mark the group expired,
then keep it expired (non-submitted order), reactivate it, or cascade to
cancel, returning the new state and the number counted as expired.
The availability check of the reactivation attempt runs its SQL
aggregate against `snap`, the state of the database rows when the sweep
started: the session has `autoflush=False` and `expire_active_reservations`
flushes only once after the whole loop, so the in-memory markings and the
reactivations of earlier groups in the same sweep are invisible to the
`SUM` (and the marked rows were excluded by the `expires_at > now` filter
anyway). -/
def process_order_group (now : ℤ) (oid : ℕ) (group : List StockReservation)
    (snap db : DB) : Except String (DB × ℕ) := do
  let (order, items) ← lock_order_items_for_order oid db
  let db1 : DB :=
    { db with
        reservations :=
          mark_reservations_expired (group.map (·.id)) now db.reservations }
  if order.status ≠ "submitted" then
    .ok (db1, group.length)
  else if ¬ (group.all fun r =>
      r.reactivationCount < MAX_RESERVATION_REACTIVATIONS) then
    .ok ({ db1 with
            orders := cancel_order_row oid now db1.orders
            payments := cancel_pending_payments_for_order oid now db1.payments },
         group.length)
  else do
    let fits ← check_all_items_fit now snap items
    if fits then
      .ok ({ db1 with
              reservations :=
                reactivate_reservations (group.map (·.id))
                  (now + RESERVATION_REACTIVATION_TTL_MINUTES)
                  db1.reservations },
           0)
    else
      .ok ({ db1 with
              orders := cancel_order_row oid now db1.orders
              payments := cancel_pending_payments_for_order oid now db1.payments },
           group.length)

/-- The fold over the per-order groups of `expire_active_reservations`;
`snap` is the unflushed database state every availability aggregate of
this sweep reads. -/
def expire_go (now : ℤ) (snap : DB) (expiring : List StockReservation) :
    List ℕ → DB → ℕ → Except String (DB × ℕ)
  | [], db, acc => .ok (db, acc)
  | oid :: rest, db, acc => do
      let group := expiring.filter fun r => r.orderId = oid
      let (db', added) ← process_order_group now oid group snap db
      expire_go now snap expiring rest db' (acc + added)

/-- Fuelled recursion for `first_occurrences` (the fuel keeps the
definition structural, so that it evaluates inside the kernel). -/
def first_occurrences_fuel : ℕ → List ℕ → List ℕ
  | 0, _ => []
  | _, [] => []
  | fuel + 1, a :: l => a :: first_occurrences_fuel fuel (l.filter fun x => x ≠ a)

/-- Distinct values in order of first occurrence (the key order of the
`reservations_by_order` dict built by insertion). -/
def first_occurrences (l : List ℕ) : List ℕ :=
  first_occurrences_fuel l.length l

/-- `stock_reservations_s.expire_active_reservations`: snapshot the expiring
active reservations, group them by order and settle each group; returns the
new state and the count of reservations that ended up expired. -/
def expire_active_reservations (now : ℤ) (db : DB) :
    Except String (DB × ℕ) :=
  let expiring :=
    (db.reservations.filter fun r =>
        r.status = "active" ∧ r.expiresAt ≤ now).insertionSort res_order
  if expiring.isEmpty then .ok (db, 0)
  else
    expire_go now db expiring (first_occurrences (expiring.map (·.orderId)))
      db 0

/-- The validation pass of `reserve_stock_for_submitted_order`: the items
without an active reservation, each checked against available stock. -/
def collect_missing_items (now : ℤ) (db : DB) :
    List OrderItem → Except String (List OrderItem)
  | [] => .ok []
  | i :: rest =>
      match get_active_reservation_by_item i.id db with
      | some _ => collect_missing_items now db rest
      | none => do
          let (_, available) ← available_stock_for_variant i.variantId now db
          if available < i.quantity then
            .error ("insufficient stock for variant " ++ toString i.variantId)
          else do
            let more ← collect_missing_items now db rest
            .ok (i :: more)

/-- The insertion pass of `reserve_stock_for_submitted_order`: one fresh
active reservation row per missing item. -/
def insert_reservations (oid : ℕ) (expiresAt : ℤ) (missing : List OrderItem)
    (db : DB) : DB :=
  missing.foldl
    (fun db i =>
      { db with
          reservations := db.reservations ++
            [{ id := db.nextReservationId
               orderId := oid
               orderItemId := i.id
               variantId := i.variantId
               quantity := i.quantity
               status := "active"
               reactivationCount := 0
               expiresAt := expiresAt
               consumedAt := none
               releasedAt := none
               reason := none }]
          nextReservationId := db.nextReservationId + 1 })
    db

/-- `stock_reservations_s.reserve_stock_for_submitted_order`. -/
def reserve_stock_for_submitted_order (oid : ℕ) (now : ℤ) (db : DB) :
    Except String (DB × List StockReservation) := do
  let (db, _) ← expire_active_reservations now db
  let (order, items) ← lock_order_items_for_order oid db
  if order.status ≠ "draft" ∧ order.status ≠ "submitted" then
    .error "stock can only be reserved for draft/submitted orders"
  else
    let existing :=
      (db.reservations.filter fun r =>
          r.orderId = oid ∧ r.status = "active").insertionSort res_id_order
    if ¬ existing.isEmpty ∧ existing.length = items.length then
      .ok (db, existing)
    else do
      let missing ← collect_missing_items now db items
      let db' := insert_reservations oid (now + RESERVATION_TTL_MINUTES) missing db
      .ok (db',
        (db'.reservations.filter fun r =>
            r.orderId = oid ∧ r.status = "active").insertionSort res_id_order)

/-- The guarded-update loop of `consume_reservations_for_paid_order`:
`UPDATE product_variants SET stock = stock - qty WHERE id = ... AND
stock >= qty`, failing unless exactly one row matches, then marking the
reservation consumed. -/
def consume_reservations_go (now : ℤ) :
    List StockReservation → DB → Except String DB
  | [], db => .ok db
  | r :: rest, db =>
      let matched :=
        db.variants.filter fun v => v.id = r.variantId ∧ r.quantity ≤ v.stock
      if matched.length ≠ 1 then
        .error ("insufficient stock for variant " ++ toString r.variantId)
      else
        consume_reservations_go now rest
          { db with
              variants := db.variants.map fun v =>
                if v.id = r.variantId ∧ r.quantity ≤ v.stock then
                  { v with stock := v.stock - r.quantity }
                else v
              reservations := db.reservations.map fun x =>
                if x.id = r.id then
                  { x with
                      status := "consumed"
                      consumedAt := some now
                      reason := some "order_paid" }
                else x }

/-- `stock_reservations_s.consume_reservations_for_paid_order`. -/
def consume_reservations_for_paid_order (oid : ℕ) (now : ℤ) (db : DB) :
    Except String (DB × List StockReservation) := do
  let (db, _) ← expire_active_reservations now db
  let (order, _) ← lock_order_items_for_order oid db
  if order.status ≠ "submitted" ∧ order.status ≠ "paid" then
    .error "order can only be paid from submitted status"
  else
    let actives :=
      (db.reservations.filter fun r =>
          r.orderId = oid ∧ r.status = "active").insertionSort res_id_order
    if actives.isEmpty then
      let consumed :=
        (db.reservations.filter fun r =>
            r.orderId = oid ∧ r.status = "consumed").insertionSort res_id_order
      if ¬ consumed.isEmpty ∧ order.status = "paid" then .ok (db, consumed)
      else .error "no active reservations for order"
    else do
      let db' ← consume_reservations_go now actives db
      .ok (db',
        db'.reservations.filter fun x => (actives.map (·.id)).contains x.id)

/-- `stock_reservations_s.release_reservations_for_cancelled_order`. -/
def release_reservations_for_cancelled_order (oid : ℕ) (reason : String)
    (now : ℤ) (db : DB) : Except String (DB × ℕ) := do
  let (db, _) ← expire_active_reservations now db
  let _ ← lock_order_items_for_order oid db
  let actives :=
    db.reservations.filter fun r => r.orderId = oid ∧ r.status = "active"
  .ok ({ db with
          reservations := db.reservations.map fun r =>
            if r.orderId = oid ∧ r.status = "active" then
              { r with
                  status := "released"
                  releasedAt := some now
                  reason := some reason }
            else r },
       actives.length)

/-- `stock_reservations_s.list_active_reservations_for_order`. -/
def list_active_reservations_for_order (oid : ℕ) (now : ℤ) (db : DB) :
    Except String (DB × List StockReservation) := do
  let (db, _) ← expire_active_reservations now db
  .ok (db,
    (db.reservations.filter fun r =>
        r.orderId = oid ∧ r.status = "active").insertionSort res_id_order)

/-! ## Payment lifecycle (`source/services/payment_s.py`) -/

/-- Python string fallback `a or b` (empty strings are falsy). -/
def py_or (a b : String) : String := if a = "" then b else a

/-- Round to two decimals. Python's `round` uses banker's rounding at exact
half-cent ties; those ties occur nowhere in the proofs below. -/
def round2 (q : ℚ) : ℚ := ((round (q * 100) : ℤ) : ℚ) / 100

/-- `payment_s._normalize_optional_str`. -/
def normalize_optional_str : Option String → Option String
  | none => none
  | some v => let t := v.trim; if t = "" then none else some t

/-- `payment_s.ALLOWED_PAYMENT_METHODS`. -/
def ALLOWED_PAYMENT_METHODS : List String := ["bank_transfer", "mercadopago"]

/-- `payment_s.MERCADOPAGO_PROVIDER_TO_INTERNAL_STATUS`. -/
def MERCADOPAGO_PROVIDER_TO_INTERNAL_STATUS : List (String × String) :=
  [("approved", "paid"), ("accredited", "paid"), ("pending", "pending"),
   ("in_process", "pending"), ("in_mediation", "pending"),
   ("authorized", "pending"), ("rejected", "cancelled"),
   ("cancelled", "cancelled"), ("canceled", "cancelled"),
   ("expired", "expired")]

/-- `payment_s.ALLOWED_PAYMENT_TRANSITIONS`. -/
def ALLOWED_PAYMENT_TRANSITIONS : List (String × List String) :=
  [("pending", ["pending", "paid", "cancelled", "expired"]),
   ("paid", ["paid"]), ("cancelled", ["cancelled"]), ("expired", ["expired"])]

/-- `ALLOWED_PAYMENT_TRANSITIONS.get(current, {current})`. -/
def allowed_payment_transitions (current : String) : List String :=
  match (ALLOWED_PAYMENT_TRANSITIONS.find? fun kv => kv.1 = current).map (·.2) with
  | none => [current]
  | some l => l

/-- `payment_s._assert_valid_payment_transition`. -/
def assert_valid_payment_transition (current next : String) :
    Except String Unit :=
  if next ∈ allowed_payment_transitions current then .ok ()
  else .error "invalid payment status transition"

/-- `payment_s._normalize_webhook_key_part`. -/
def normalize_webhook_key_part (s : String) : Option String :=
  let t := s.trim
  if t = "" then none else some t

/-- `payment_s.acquire_webhook_event`: insert a `processing` event row in a
savepoint; on a key conflict, revive a `failed` row to `processing`
(returning true, retry allowed), otherwise report the duplicate by
returning false. The `payload`/timestamp columns, which no service reads
back, are not modelled. -/
def acquire_webhook_event (provider eventKey : String) (db : DB) :
    Except String (DB × Bool) :=
  match normalize_webhook_key_part provider, normalize_webhook_key_part eventKey with
  | none, _ => .error "provider is required"
  | _, none => .error "event_key is required"
  | some p, some k =>
      match db.webhookEvents.find? (fun e => e.provider = p ∧ e.eventKey = k) with
      | none =>
          .ok ({ db with
                  webhookEvents := db.webhookEvents ++
                    [{ provider := p, eventKey := k, status := "processing" }] },
               true)
      | some e =>
          if e.status = "failed" then
            .ok ({ db with
                    webhookEvents := db.webhookEvents.map fun x =>
                      if x.provider = p ∧ x.eventKey = k then
                        { x with status := "processing" }
                      else x },
                 true)
          else .ok (db, false)

/-- The authoritative MercadoPago payment object fetched from the provider,
restricted to the fields `normalize_mp_payment_state` reads into the
state the reconciler acts on. -/
structure MpPayment where
  id : String
  status : String
  externalReference : String
  amount : Option ℚ
  currency : Option String
  deriving Repr, DecidableEq

/-- Result of `payment_s.normalize_mp_payment_state` (the fields the
reconciler acts on; payer/metadata fields are only archived into the
unmodelled payload blob). -/
structure NormalizedState where
  providerPaymentId : String
  providerStatus : String
  internalStatus : String
  externalReference : String
  amount : Option ℚ
  currency : Option String
  deriving Repr, DecidableEq

/-- `payment_s._require_normalized_str`. -/
def require_normalized_str (v : String) (field : String) (lower : Bool) :
    Except String String :=
  let normalized := v.trim
  if normalized = "" then .error ("missing mercadopago " ++ field)
  else if lower then .ok normalized.toLower
  else .ok normalized

/-- `payment_s._map_mercadopago_provider_status`. -/
def map_mercadopago_provider_status (s : String) : Except String String :=
  let normalized := s.trim.toLower
  if normalized = "" then .error "provider_status is required"
  else
    match (MERCADOPAGO_PROVIDER_TO_INTERNAL_STATUS.find? fun kv =>
        kv.1 = normalized).map (·.2) with
    | none => .error "unsupported mercadopago provider_status"
    | some v => .ok v

/-- `payment_s.normalize_mp_payment_state`. -/
def normalize_mp_payment_state (mp : MpPayment) :
    Except String NormalizedState := do
  let provider_payment_id ← require_normalized_str mp.id "id" false
  let provider_status ← require_normalized_str mp.status "status" true
  let external_reference ←
    require_normalized_str mp.externalReference "external_reference" false
  let internal_status ← map_mercadopago_provider_status provider_status
  let currency :=
    match mp.currency with
    | none => none
    | some c => let u := c.trim.toUpper; if u = "" then none else some u
  .ok { providerPaymentId := provider_payment_id
        providerStatus := provider_status
        internalStatus := internal_status
        externalReference := external_reference
        amount := mp.amount
        currency := currency }

/-- `ORDER BY created_at DESC, id DESC LIMIT 1`. -/
def pick_latest : List Payment → Option Payment :=
  List.foldl
    (fun acc p =>
      match acc with
      | none => some p
      | some q =>
          if q.createdAt < p.createdAt ∨ (q.createdAt = p.createdAt ∧ q.id < p.id)
          then some p else some q)
    none

/-- `payment_s._find_active_pending_payment`. -/
def find_active_pending_payment (db : DB) (oid : ℕ) (method : String)
    (now : ℤ) : Option Payment :=
  pick_latest (db.payments.filter fun p =>
    decide (p.orderId = oid) && decide (p.method = method) &&
      decide (p.status = "pending") &&
      (match p.expiresAt with
       | none => true
       | some e => decide (now < e)))

/-- `payment_s._validate_active_pending_compatibility`. -/
def validate_active_pending_compatibility (p : Payment) (amount : ℚ)
    (currency : String) : Except String Unit :=
  if round2 p.amount ≠ round2 amount then
    .error "there is already an active pending payment with a different amount"
  else if p.currency ≠ currency then
    .error "there is already an active pending payment with a different currency"
  else .ok ()

/-- `payment_s.find_payment_for_mercadopago_event`, specialised to the
`preference_id=None` form in which the webhook route invokes it (the
preference-id scan is skipped when that argument is `None`). -/
def find_payment_for_mercadopago_event (externalRef : Option String)
    (db : DB) : Except String (Option Payment) :=
  match normalize_optional_str externalRef with
  | none => .error "preference_id or external_ref is required"
  | some ref =>
      .ok (pick_latest (db.payments.filter fun p =>
        p.method = "mercadopago" ∧ p.externalRef = some ref))

/-- `payment_s.apply_mercadopago_normalized_state`: expire reservations,
validate the normalized state against the stored payment, enforce the
payment transition table, then propagate `paid`/`cancelled` to the order,
consuming or releasing its reservations. -/
def apply_mercadopago_normalized_state (paymentId : ℕ)
    (st : NormalizedState) (now : ℤ) (db : DB) :
    Except String (DB × Payment) := do
  let (db, _) ← expire_active_reservations now db
  match normalize_optional_str (some st.providerStatus) with
  | none => .error "normalized_state.provider_status is required"
  | some provider_status =>
  match normalize_optional_str (some st.internalStatus) with
  | none => .error "normalized_state.internal_status is required"
  | some internal_status =>
  match normalize_optional_str (some st.externalReference) with
  | none => .error "normalized_state.external_reference is required"
  | some external_reference =>
  let normalized_amount := st.amount
  let normalized_currency := (normalize_optional_str st.currency).map String.toUpper
  match db.payments.find? (fun p => p.id = paymentId ∧ p.method = "mercadopago") with
  | none => .error "payment not found"
  | some payment =>
  match db.orders.find? (fun o => o.id = payment.orderId) with
  | none => .error "order not found"
  | some order =>
  if normalize_optional_str payment.externalRef ≠ some external_reference then
    .error "external_reference does not match payment"
  else if (match normalized_amount with
           | some a => decide ((1 : ℚ)/100 < |payment.amount - a|)
           | none => false) then
    .error "payment amount mismatch"
  else if (match normalized_currency with
           | some c => decide (payment.currency.trim.toUpper ≠ c)
           | none => false) then
    .error "payment currency mismatch"
  else do
    let _ ← assert_valid_payment_transition payment.status internal_status
    let payment' :=
      let p0 := { payment with providerStatus := some provider_status }
      if p0.status ≠ internal_status then
        let p1 := { p0 with status := internal_status }
        if internal_status = "paid" ∧ p1.paidAt = none then
          { p1 with paidAt := some now }
        else p1
      else p0
    let db1 : DB :=
      { db with
          payments := db.payments.map fun p =>
            if p.id = payment.id then payment' else p }
    let dbFinal ←
      if internal_status = "paid" then
        if order.status ≠ "submitted" ∧ order.status ≠ "paid" then
          .error "order can only be paid from submitted status"
        else do
          let db2 ←
            if order.status = "submitted" then do
              let (d, _) ← consume_reservations_for_paid_order order.id now db1
              pure d
            else pure db1
          pure { db2 with
                  orders := db2.orders.map fun o =>
                    if o.id = order.id then
                      { o with
                          status := "paid"
                          paidAt := match o.paidAt with
                            | none => some now
                            | some t => some t }
                    else o }
      else if internal_status = "cancelled" ∧ order.status ≠ "paid" then do
        let (db2, _) ←
          release_reservations_for_cancelled_order order.id "order_cancelled" now db1
        pure { db2 with
                orders := db2.orders.map fun o =>
                  if o.id = order.id then
                    { o with
                        status := "cancelled"
                        cancelledAt := match o.cancelledAt with
                          | none => some now
                          | some t => some t }
                  else o }
      else pure db1
    match dbFinal.payments.find? (fun p => p.id = paymentId) with
    | none => .error "payment not found"
    | some p => .ok (dbFinal, p)

/-- `payment_s.create_payment_for_order`. The MercadoPago provider call is
passed in as `providerPreference` (the preference id the provider returns,
or its failure); in a sequential run the `IntegrityError` retry branches of
the source are unreachable and the insert proceeds directly. The partial
unique index on `(order_id, method) WHERE status = 'pending'` that the
database would enforce on the fresh insert is not modelled: it can only
reject inserts the idempotency-key lookup above already intercepts when
the key is reused, and concurrent sessions are out of scope. -/
def create_payment_for_order (orderId : ℕ) (method : String)
    (userId : Option ℕ) (idempotencyKey : String) (currency : Option String)
    (expiresInMinutes : ℤ) (providerPreference : Except String String)
    (now : ℤ) (db : DB) : Except String (DB × Payment) := do
  let (db, _) ← expire_active_reservations now db
  if method ∉ ALLOWED_PAYMENT_METHODS then .error "invalid payment method"
  else if expiresInMinutes ≤ 0 then
    .error "expires_in_minutes must be greater than 0"
  else
    let normalized_key := idempotencyKey.trim
    if normalized_key = "" then .error "idempotency_key is required"
    else
      match db.payments.find? (fun p => p.idempotencyKey = normalized_key) with
      | some existing_payment =>
          if existing_payment.orderId ≠ orderId then
            .error "idempotency key already used for a different order"
          else if existing_payment.method ≠ method then
            .error "idempotency key already used for a different payment method"
          else
            match db.orders.find? (fun o => o.id = existing_payment.orderId) with
            | none => .error "order not found"
            | some o =>
                if (match userId with
                    | some u => decide (o.userId ≠ u)
                    | none => false) then
                  .error "order not found"
                else .ok (db, existing_payment)
      | none =>
          match db.orders.find? (fun o => o.id = orderId) with
          | none => .error "order not found"
          | some order =>
              if (match userId with
                  | some u => decide (order.userId ≠ u)
                  | none => false) then
                .error "order not found"
              else if order.status = "cancelled" then
                .error "cannot create payment for a cancelled order"
              else if order.status ≠ "submitted" then
                .error "payment can only be created for submitted orders"
              else if (items_of db orderId).isEmpty then
                .error "cannot create payment for an empty order"
              else do
                let (db, actives) ←
                  list_active_reservations_for_order orderId now db
                if actives.isEmpty then
                  .error "order has no active stock reservations"
                else
                  let amount := round2 order.totalAmount
                  if amount ≤ 0 then
                    .error "order total must be greater than 0"
                  else
                    let payment_currency :=
                      py_or (currency.getD "") (py_or order.currency "ARS")
                    match find_active_pending_payment db orderId method now with
                    | some active_pending => do
                        let _ ← validate_active_pending_compatibility
                          active_pending amount payment_currency
                        .ok (db, active_pending)
                    | none =>
                        let expires_at := now + expiresInMinutes
                        let base : Payment :=
                          { id := db.nextPaymentId
                            orderId := order.id
                            method := method
                            status := "pending"
                            amount := amount
                            currency := payment_currency
                            idempotencyKey := normalized_key
                            externalRef := none
                            providerStatus := none
                            checkoutPreferenceId := none
                            expiresAt := some expires_at
                            paidAt := none
                            createdAt := now
                            updatedAt := none }
                        let dbIns : DB :=
                          { db with
                              payments := db.payments ++ [base]
                              nextPaymentId := db.nextPaymentId + 1 }
                        if method = "bank_transfer" then
                          -- the synthesized instructions live only in the
                          -- unmodelled payload blob
                          .ok (dbIns, base)
                        else do
                          -- a fresh row has no checkout preference, so the
                          -- provider is called and its result stored
                          let prefId ← providerPreference
                          let ext := "mp-order-" ++ toString order.id ++
                            "-pay-" ++ toString base.id
                          let paid :=
                            { base with
                                externalRef := some ext
                                providerStatus := some "preference_created"
                                checkoutPreferenceId := some prefId }
                          .ok ({ dbIns with
                                  payments := dbIns.payments.map fun p =>
                                    if p.id = base.id then paid else p },
                               paid)

/-- `payment_s._build_manual_payment_idempotency_key`; the 16-hex-character
SHA-256 digest of the reference is modelled by the reference itself (an
injective stand-in for the hash). -/
def build_manual_payment_idempotency_key (oid : ℕ) (ref : String) : String :=
  "manual-order-" ++ toString oid ++ "-" ++ ref

/-- `payment_s.confirm_manual_payment_for_order`. -/
def confirm_manual_payment_for_order (orderId userId : ℕ)
    (paymentRef : String) (paidAmount : ℚ) (now : ℤ) (db : DB) :
    Except String (DB × Payment) := do
  let (db, _) ← expire_active_reservations now db
  let normalized_ref := paymentRef.trim
  if normalized_ref = "" then .error "payment_ref is required"
  else if paidAmount ≤ 0 then .error "paid_amount must be greater than 0"
  else
    match db.orders.find? (fun o => o.id = orderId) with
    | none => .error "order not found"
    | some order =>
        if order.userId ≠ userId then .error "order not found"
        else if order.status = "cancelled" then
          .error "cannot pay a cancelled order"
        else if order.status ≠ "submitted" ∧ order.status ≠ "paid" then
          .error "order can only be paid from submitted status"
        else if (items_of db orderId).isEmpty then
          .error "cannot pay an empty order"
        else
          let expected_total := round2 order.totalAmount
          let received_total := round2 paidAmount
          if expected_total ≠ received_total then
            .error "paid_amount does not match order total"
          else
            let existing_paid_by_ref :=
              pick_latest (db.payments.filter fun p =>
                p.orderId = orderId ∧ p.status = "paid" ∧
                  p.externalRef = some normalized_ref)
            if order.status = "paid" then
              match existing_paid_by_ref with
              | some p =>
                  if round2 p.amount = received_total then .ok (db, p)
                  else .error "order already paid with a different payment_ref"
              | none => .error "order already paid with a different payment_ref"
            else do
              let (db, _) ← consume_reservations_for_paid_order orderId now db
              let markPaid : List Order → List Order := fun os =>
                os.map fun o =>
                  if o.id = orderId then
                    { o with
                        status := "paid"
                        paidAt := match o.paidAt with
                          | none => some now
                          | some t => some t }
                  else o
              match existing_paid_by_ref with
              | none =>
                  let payment : Payment :=
                    { id := db.nextPaymentId
                      orderId := orderId
                      method := "bank_transfer"
                      status := "paid"
                      amount := received_total
                      currency := py_or order.currency "ARS"
                      idempotencyKey :=
                        build_manual_payment_idempotency_key orderId normalized_ref
                      externalRef := some normalized_ref
                      providerStatus := some "manual_confirmed"
                      checkoutPreferenceId := none
                      expiresAt := none
                      paidAt := some now
                      createdAt := now
                      updatedAt := none }
                  .ok ({ db with
                          payments := db.payments ++ [payment]
                          nextPaymentId := db.nextPaymentId + 1
                          orders := markPaid db.orders },
                       payment)
              | some p0 =>
                  let p1 :=
                    { p0 with
                        method := py_or p0.method "bank_transfer"
                        status := "paid"
                        amount := received_total
                        currency := py_or order.currency (py_or p0.currency "ARS")
                        externalRef := some normalized_ref
                        providerStatus := some "manual_confirmed"
                        paidAt := some now }
                  .ok ({ db with
                          payments := db.payments.map fun q =>
                            if q.id = p0.id then p1 else q
                          orders := markPaid db.orders },
                       p1)

/-! ## Order aggregate (`source/services/orders_s.py`) -/

/-- `orders_s.ALLOWED_ORDER_STATUS`. -/
def ALLOWED_ORDER_STATUS : List String := ["draft", "submitted", "paid", "cancelled"]

/-- `orders_s._recalculate_order_total`: reprice every line of the order at
its stored `unit_price` through the discount engine and write back the four
discount fields and the order totals. -/
def recalculate_order_total (order : Order) (force : Bool) (now : ℤ)
    (db : DB) : Except String (DB × Order) :=
  if order.pricingFrozen ∧ ¬ force then .error "cannot recalculate a frozen order"
  else do
    let items := items_of db order.id
    let (repriced, totals) ← reprice_order_items items db.discounts db.products now
    let order' :=
      { order with
          subtotal := totals.subtotal
          discountTotal := totals.discountTotal
          totalAmount := totals.totalAmount }
    .ok ({ db with
            items := db.items.map fun i =>
              if i.orderId = order.id then
                match repriced.find? (fun j => j.id = i.id) with
                | some j =>
                    { i with
                        discountId := j.discountId
                        discountAmount := j.discountAmount
                        finalUnitPrice := j.finalUnitPrice
                        lineTotal := j.lineTotal }
                | none => i
              else i
            orders := db.orders.map fun o =>
              if o.id = order.id then order' else o },
          order')

/-- `orders_s._get_or_create_draft_order_model`. The source picks the most
recently created draft; with at most one draft per user (the invariant the
create path maintains) this is the unique match. -/
def get_or_create_draft_order_model (userId : ℕ) (db : DB) :
    DB × Order × Bool :=
  match db.orders.find? (fun o => o.userId = userId ∧ o.status = "draft") with
  | some o => (db, o, false)
  | none =>
      let o : Order :=
        { id := db.nextOrderId
          userId := userId
          status := "draft"
          currency := "ARS"
          subtotal := 0
          discountTotal := 0
          totalAmount := 0
          pricingFrozen := false
          pricingFrozenAt := none
          submittedAt := none
          paidAt := none
          cancelledAt := none }
      ({ db with orders := db.orders ++ [o], nextOrderId := db.nextOrderId + 1 },
       o, true)

/-- `orders_s.add_item_to_draft_order`: an existing item for the same
variant only has its quantity incremented (its `unit_price` snapshot is
kept); otherwise a new item is inserted at the variant's current price;
then the whole order is re-priced. -/
def add_item_to_draft_order (userId variantId : ℕ) (quantity : ℤ)
    (now : ℤ) (db : DB) : Except String (DB × Order) :=
  if quantity ≤ 0 then .error "quantity must be greater than 0"
  else
    match db.variants.find? (fun v => v.id = variantId ∧ v.isActive) with
    | none => .error "variant not found"
    | some variant =>
        let (db, order, _) := get_or_create_draft_order_model userId db
        if order.status ≠ "draft" then
          .error "items can only be edited in draft status"
        else
          let db1 : DB :=
            match db.items.find? (fun i =>
                i.orderId = order.id ∧ i.variantId = variantId) with
            | some existing =>
                { db with
                    items := db.items.map fun i =>
                      if i.id = existing.id then
                        { i with quantity := i.quantity + quantity }
                      else i }
            | none =>
                { db with
                    items := db.items ++
                      [{ id := db.nextItemId
                         orderId := order.id
                         productId := variant.productId
                         variantId := variant.id
                         quantity := quantity
                         unitPrice := variant.price
                         discountId := none
                         discountAmount := 0
                         finalUnitPrice := variant.price
                         lineTotal := variant.price * (quantity : ℚ) }]
                    nextItemId := db.nextItemId + 1 }
          recalculate_order_total order false now db1

/-- `orders_s.change_order_status`. -/
def change_order_status (userId orderId : ℕ) (newStatus : String)
    (isAdmin : Bool) (paymentRef : Option String) (paidAmount : Option ℚ)
    (now : ℤ) (db : DB) : Except String (DB × Order) :=
  if newStatus ∉ ALLOWED_ORDER_STATUS then .error "invalid status"
  else if newStatus ≠ "paid" ∧ (paymentRef ≠ none ∨ paidAmount ≠ none) then
    .error "payment_ref and paid_amount are only valid when status is paid"
  else
    match db.orders.find? (fun o =>
        o.id = orderId ∧ ((isAdmin ∧ newStatus = "paid") ∨ o.userId = userId)) with
    | none => .error "order not found"
    | some order =>
        if order.status ≠ "draft" ∧ newStatus = "draft" then
          .error "cannot move non-draft order back to draft"
        else if order.status = "draft" ∧ newStatus ≠ "draft" ∧
            (items_of db orderId).isEmpty then
          .error "cannot leave draft with an empty order"
        else if newStatus = "paid" then
          if ¬ isAdmin then .error "only admins can set status paid manually"
          else
            match paymentRef with
            | none => .error "payment_ref is required when status is paid"
            | some ref =>
                if ref.trim = "" then
                  .error "payment_ref is required when status is paid"
                else
                  match paidAmount with
                  | none => .error "paid_amount must be greater than 0 when status is paid"
                  | some amt =>
                      if amt ≤ 0 then
                        .error "paid_amount must be greater than 0 when status is paid"
                      else do
                        let (db, _) ← confirm_manual_payment_for_order
                          order.id order.userId ref amt now db
                        match db.orders.find? (fun o => o.id = orderId) with
                        | none => .error "order not found"
                        | some o => .ok (db, o)
        else if order.status = newStatus then .ok (db, order)
        else do
          let (db1, order1) ←
            if order.status = "draft" ∧ newStatus = "submitted" then do
              let (dbR, orderR) ← recalculate_order_total order true now db
              let _ ← validate_order_pricing_before_submit
                (items_of dbR orderR.id) orderR.totalAmount
              let o2 :=
                { orderR with
                    pricingFrozen := true
                    pricingFrozenAt := match orderR.pricingFrozenAt with
                      | none => some now
                      | some t => some t
                    submittedAt := match orderR.submittedAt with
                      | none => some now
                      | some t => some t }
              pure (({ dbR with
                        orders := dbR.orders.map fun o =>
                          if o.id = orderId then o2 else o } : DB),
                    o2)
            else pure (db, order)
          let order2 :=
            if newStatus = "cancelled" ∧ order1.cancelledAt = none then
              { order1 with cancelledAt := some now }
            else order1
          let order3 := { order2 with status := newStatus }
          .ok ({ db1 with
                  orders := db1.orders.map fun o =>
                    if o.id = orderId then order3 else o },
               order3)

/-! ## MercadoPago webhook route
(`source/routes/mercadopago_r.py`, `mercadopago_webhook`) -/

/-- What the route replies with: a hard 401, or a 200 body
`{"processed": ..., "reason": ...}`. -/
inductive WebhookOutcome where
  | unauthorized
  | reply (processed : Bool) (reason : Option String)
  deriving Repr, DecidableEq

/-- The `POST /payments/webhook/mercadopago` handler of
`source/routes/mercadopago_r.py`: extractions of `data.id`, the signature
check and the provider fetch are passed in as inputs (`dataId`,
`sigValid`, `providerResult`); every caught exception turns into a
`processed=false` reply that leaves the state uncommitted. -/
def mercadopago_webhook (dataId : Option String) (sigValid : Bool)
    (providerResult : Except String MpPayment) (now : ℤ) (db : DB) :
    DB × WebhookOutcome :=
  match dataId with
  | none => (db, .reply false (some "missing data.id"))
  | some _ =>
      if ¬ sigValid then (db, .unauthorized)
      else
        match providerResult with
        | .error _ => (db, .reply false (some "payment lookup failed"))
        | .ok mp_payment =>
            match normalize_mp_payment_state mp_payment with
            | .error _ =>
                (db, .reply false (some "invalid mercadopago payment payload"))
            | .ok normalized_state =>
                match find_payment_for_mercadopago_event
                    (some normalized_state.externalReference) db with
                | .error _ => (db, .reply false (some "reconciliation failed"))
                | .ok none => (db, .reply false (some "payment not found"))
                | .ok (some payment) =>
                    match apply_mercadopago_normalized_state payment.id
                        normalized_state now db with
                    | .error e => (db, .reply false (some e))
                    | .ok (db', _) => (db', .reply true none)

/-! ## Concrete scenario fixtures -/

/-- A paid order (id 10, user 1) with no items or reservations in play. -/
def C1_db : DB :=
  { variants := [{ id := 1, productId := 1, price := 100, stock := 10, isActive := true }]
    products := [{ id := 1, category := some "toys" }]
    orders := [{ id := 10, userId := 1, status := "paid", currency := "ARS",
                 subtotal := 100, discountTotal := 0, totalAmount := 100,
                 pricingFrozen := true, pricingFrozenAt := some 0,
                 submittedAt := some 0, paidAt := some 0, cancelledAt := none }]
    items := []
    reservations := []
    payments := []
    webhookEvents := []
    discounts := []
    nextReservationId := 100, nextPaymentId := 100
    nextOrderId := 100, nextItemId := 100 }

/-- C1: the order state machine of the claim is not enforced by
`change_order_status`: an order in the terminal status `paid`, asked by its
owner to move to `submitted`, is moved there successfully instead of
failing with an invalid-status-transition error and staying unchanged. -/
theorem C1_paid_order_moved_back_to_submitted :
    C1_db.orders.map Order.status = ["paid"] ∧
      (change_order_status 1 10 "submitted" false none none 0 C1_db).map
          (fun x => (x.2.status, x.1.orders.map Order.status)) =
        .ok ("submitted", ["submitted"]) := by
  constructor
  · rfl
  · with_unfolding_all rfl

/-- A draft order (id 10, user 1) holding one item of two units of variant 1
(price 100, stock 10), with no stock reservations anywhere. -/
def C2_db : DB :=
  { variants := [{ id := 1, productId := 1, price := 100, stock := 10, isActive := true }]
    products := [{ id := 1, category := some "toys" }]
    orders := [{ id := 10, userId := 1, status := "draft", currency := "ARS",
                 subtotal := 0, discountTotal := 0, totalAmount := 0,
                 pricingFrozen := false, pricingFrozenAt := none,
                 submittedAt := none, paidAt := none, cancelledAt := none }]
    items := [{ id := 5, orderId := 10, productId := 1, variantId := 1,
                quantity := 2, unitPrice := 100, discountId := none,
                discountAmount := 0, finalUnitPrice := 100, lineTotal := 200 }]
    reservations := []
    payments := []
    webhookEvents := []
    discounts := []
    nextReservationId := 100, nextPaymentId := 100
    nextOrderId := 100, nextItemId := 100 }

/-- C2: a successful `draft→submitted` transition through
`change_order_status` reserves no stock at all: on a draft order with one
item (ample variant stock), the call succeeds, freezes pricing and stamps
`submitted_at`, yet the reservations table stays empty — so no order item
ends up with an active reservation, and the only function that would
insert one (`reserve_stock_for_submitted_order`) is never invoked by any
caller in the codebase. -/
theorem C2_submission_creates_no_reservation :
    C2_db.reservations = [] ∧ C2_db.items.length = 1 ∧
      (change_order_status 1 10 "submitted" false none none 0 C2_db).map
          (fun x =>
            (x.2.status, x.2.pricingFrozen, x.2.submittedAt,
             x.1.reservations.length)) =
        .ok ("submitted", true, some 0, 0) := by
  refine ⟨rfl, rfl, ?_⟩
  with_unfolding_all rfl

/-- A submitted order (id 20, user 1) with one item of two units of
variant 1 (stock 5), a fresh active reservation and a pending MercadoPago
payment carrying external reference `mp-order-20-pay-7`. -/
def C3_db : DB :=
  { variants := [{ id := 1, productId := 1, price := 100, stock := 5, isActive := true }]
    products := [{ id := 1, category := some "toys" }]
    orders := [{ id := 20, userId := 1, status := "submitted", currency := "ARS",
                 subtotal := 200, discountTotal := 0, totalAmount := 200,
                 pricingFrozen := true, pricingFrozenAt := some 0,
                 submittedAt := some 0, paidAt := none, cancelledAt := none }]
    items := [{ id := 5, orderId := 20, productId := 1, variantId := 1,
                quantity := 2, unitPrice := 100, discountId := none,
                discountAmount := 0, finalUnitPrice := 100, lineTotal := 200 }]
    reservations := [{ id := 7, orderId := 20, orderItemId := 5, variantId := 1,
                       quantity := 2, status := "active", reactivationCount := 0,
                       expiresAt := 2520, consumedAt := none, releasedAt := none,
                       reason := none }]
    payments := [{ id := 7, orderId := 20, method := "mercadopago",
                   status := "pending", amount := 200, currency := "ARS",
                   idempotencyKey := "k1", externalRef := some "mp-order-20-pay-7",
                   providerStatus := some "preference_created",
                   checkoutPreferenceId := some "pref-1", expiresAt := some 60,
                   paidAt := none, createdAt := 0, updatedAt := none }]
    webhookEvents := []
    discounts := []
    nextReservationId := 100, nextPaymentId := 100
    nextOrderId := 100, nextItemId := 100 }

/-- The authoritative provider payment both identical notifications for
`data.id = 555` resolve to: approved, for external reference
`mp-order-20-pay-7`, amount 200 ARS. -/
def C3_mp : MpPayment :=
  { id := "555", status := "approved", externalReference := "mp-order-20-pay-7",
    amount := some 200, currency := some "ARS" }

/-- The first delivery of the correctly-signed notification. -/
def C3_first : DB × WebhookOutcome :=
  mercadopago_webhook (some "555") true (.ok C3_mp) 0 C3_db

/-- The second, identical delivery. -/
def C3_second : DB × WebhookOutcome :=
  mercadopago_webhook (some "555") true (.ok C3_mp) 0 C3_first.1

/-- C3: the webhook route performs no deduplication through the
WebhookEvent log. The first correctly-signed delivery is processed (the
payment and order go to `paid`); the identical second delivery is
reprocessed down the same pipeline and answered with `processed = true`
rather than `processed = false` with reason "duplicate webhook event", and
across both deliveries no `WebhookEvent` row is ever written (the
acquisition primitive `acquire_webhook_event` exists but the route never
calls it). -/
theorem C3_duplicate_webhook_not_deduplicated :
    C3_first.2 = .reply true none ∧
      (C3_first.1.orders.map Order.status, C3_first.1.payments.map Payment.status) =
        (["paid"], ["paid"]) ∧
      C3_second.2 = .reply true none ∧
      (WebhookOutcome.reply true none ≠
        .reply false (some "duplicate webhook event")) ∧
      C3_first.1.webhookEvents = [] ∧ C3_second.1.webhookEvents = [] ∧
      C3_second.1 = C3_first.1 := by
  set_option maxRecDepth 2000 in
  exact ⟨by with_unfolding_all rfl, by with_unfolding_all rfl,
    by with_unfolding_all rfl, by decide, by with_unfolding_all rfl,
    by with_unfolding_all rfl, by with_unfolding_all rfl⟩

/-! ## C9: line discounts and best-discount selection -/

/-- Every line discount is non-negative. -/
lemma calculate_line_discount_nonneg (up : ℚ) (d : Discount) :
    0 ≤ calculate_line_discount up d := by
  unfold calculate_line_discount
  split
  · exact le_refl 0
  · split
    · exact le_max_left 0 _
    · split
      · exact le_max_left 0 _
      · exact le_refl 0

/-- A percent discount always equals the clamped `unit_price * value/100`. -/
lemma calculate_line_discount_percent (up : ℚ) (d : Discount)
    (h : d.dtype = "percent") :
    calculate_line_discount up d = max 0 (min (up * (d.value / 100)) up) := by
  unfold calculate_line_discount
  by_cases h0 : up ≤ 0 ∨ d.value ≤ 0
  · rw [if_pos h0]
    rcases h0 with hup | hval
    · exact (max_eq_left (le_trans (min_le_right _ _) hup)).symm
    · by_cases hup : up ≤ 0
      · exact (max_eq_left (le_trans (min_le_right _ _) hup)).symm
      · have hup' : 0 ≤ up := le_of_not_le hup
        have hv : d.value / 100 ≤ 0 := by
          apply div_nonpos_of_nonpos_of_nonneg hval
          norm_num
        exact (max_eq_left (le_trans (min_le_left _ _)
          (mul_nonpos_of_nonneg_of_nonpos hup' hv))).symm
  · rw [if_neg h0, if_pos h]

/-- A fixed discount always equals the clamped `value`. -/
lemma calculate_line_discount_fixed (up : ℚ) (d : Discount)
    (h : d.dtype = "fixed") :
    calculate_line_discount up d = max 0 (min d.value up) := by
  unfold calculate_line_discount
  have hne : ¬ d.dtype = "percent" := by simp [h]
  by_cases h0 : up ≤ 0 ∨ d.value ≤ 0
  · rw [if_pos h0]
    rcases h0 with hup | hval
    · exact (max_eq_left (le_trans (min_le_right _ _) hup)).symm
    · exact (max_eq_left (le_trans (min_le_left _ _) hval)).symm
  · rw [if_neg h0, if_neg hne, if_pos h]

/-- Invariant of `select_best_go`: starting from a running best that is
either empty (amount 0) or a strict-positive maximum of the processed
prefix with the smallest id among its ties, the loop ends in the same
shape over the whole list. -/
lemma select_best_go_spec (up : ℚ) :
    ∀ (l processed : List Discount) (best : Option Discount) (bestAmt : ℚ),
      (processed ++ l).Pairwise (fun a b => a.id < b.id) →
      (match best with
       | none => bestAmt = 0 ∧ ∀ d ∈ processed, calculate_line_discount up d ≤ 0
       | some b => b ∈ processed ∧ calculate_line_discount up b = bestAmt ∧
           0 < bestAmt ∧
           (∀ d ∈ processed, calculate_line_discount up d ≤ bestAmt) ∧
           (∀ d ∈ processed, calculate_line_discount up d = bestAmt → b.id ≤ d.id)) →
      (match select_best_go up l best bestAmt with
       | none => ∀ d ∈ processed ++ l, calculate_line_discount up d ≤ 0
       | some b => b ∈ processed ++ l ∧ 0 < calculate_line_discount up b ∧
           (∀ d ∈ processed ++ l,
             calculate_line_discount up d ≤ calculate_line_discount up b) ∧
           (∀ d ∈ processed ++ l,
             calculate_line_discount up d = calculate_line_discount up b →
               b.id ≤ d.id)) := by
  intro l
  induction l with
  | nil =>
      intro processed best bestAmt _hsort hinv
      match best with
      | none =>
          simpa [select_best_go] using hinv.2
      | some b =>
          obtain ⟨hmem, hamt, hpos, hbound, hties⟩ := hinv
          simp only [select_best_go, List.append_nil]
          exact ⟨hmem, hamt ▸ hpos, fun d hd => hamt ▸ hbound d hd,
            fun d hd hde => hties d hd (hamt ▸ hde)⟩
  | cons d ds ih =>
      intro processed best bestAmt hsort hinv
      have hsort' : ((processed ++ [d]) ++ ds).Pairwise
          (fun a b => a.id < b.id) := by
        rwa [List.append_cons] at hsort
      have hshape : processed ++ d :: ds = (processed ++ [d]) ++ ds := by
        rw [← List.append_cons]
      have hamt_nonneg : 0 ≤ bestAmt := by
        match best, hinv with
        | none, ⟨hz, _⟩ => exact hz.ge
        | some b, ⟨_, _, hpos, _, _⟩ => exact le_of_lt hpos
      rw [hshape]
      show (match select_best_go up (d :: ds) best bestAmt with
            | none => _
            | some b => _)
      rw [select_best_go]
      by_cases hlt : bestAmt < calculate_line_discount up d
      · rw [if_pos hlt]
        apply ih (processed ++ [d]) (some d) (calculate_line_discount up d) hsort'
        refine ⟨List.mem_append_right _ (List.mem_singleton_self d), rfl,
          lt_of_le_of_lt hamt_nonneg hlt, ?_, ?_⟩
        · intro x hx
          rcases List.mem_append.1 hx with hx | hx
          · match best, hinv with
            | none, ⟨hz, hb⟩ => exact le_trans (hb x hx) (le_of_lt (hz ▸ hlt))
            | some b, ⟨_, _, _, hbound, _⟩ =>
                exact le_trans (hbound x hx) (le_of_lt hlt)
          · rw [List.mem_singleton.1 hx]
        · intro x hx hxe
          rcases List.mem_append.1 hx with hx | hx
          · exfalso
            have hle : calculate_line_discount up x ≤ bestAmt := by
              match best, hinv with
              | none, ⟨hz, hb⟩ => exact le_trans (hb x hx) hz.ge
              | some b, ⟨_, _, _, hbound, _⟩ => exact hbound x hx
            rw [hxe] at hle
            exact absurd hlt (not_lt_of_le hle)
          · rw [List.mem_singleton.1 hx]
      · rw [if_neg hlt]
        have hdle : calculate_line_discount up d ≤ bestAmt := le_of_not_lt hlt
        apply ih (processed ++ [d]) best bestAmt hsort'
        match best, hinv with
        | none, ⟨hz, hb⟩ =>
            refine ⟨hz, fun x hx => ?_⟩
            rcases List.mem_append.1 hx with hx | hx
            · exact hb x hx
            · rw [List.mem_singleton.1 hx]
              exact hz ▸ hdle
        | some b, ⟨hmem, hamt, hpos, hbound, hties⟩ =>
            refine ⟨List.mem_append_left _ hmem, hamt, hpos, ?_, ?_⟩
            · intro x hx
              rcases List.mem_append.1 hx with hx | hx
              · exact hbound x hx
              · rw [List.mem_singleton.1 hx]; exact hdle
            · intro x hx hxe
              rcases List.mem_append.1 hx with hx | hx
              · exact hties x hx hxe
              · rw [List.mem_singleton.1 hx] at hxe ⊢
                have : b.id < d.id := by
                  have h3 := (List.pairwise_append.1 hsort).2.2
                  exact h3 b hmem d (List.mem_cons_self d ds)
                exact le_of_lt this

/-- C9: a percent line discount is `unit_price * value/100` and a fixed one
is `value`, both clamped to `[0, unit_price]`, and all line discounts are
non-negative; over any collection ordered by ascending id (the order in
which the repository's `list_discounts` always supplies them), the best
discount returned is one producing the largest amount, that amount is
strictly positive, ties are broken towards the lowest id, and `none` is
returned exactly when every discount yields amount 0. -/
theorem C9_line_discount_and_best_selection :
    ∀ (up : ℚ) (d : Discount) (l : List Discount),
      (d.dtype = "percent" →
        calculate_line_discount up d = max 0 (min (up * (d.value / 100)) up)) ∧
      (d.dtype = "fixed" →
        calculate_line_discount up d = max 0 (min d.value up)) ∧
      0 ≤ calculate_line_discount up d ∧
      (l.Pairwise (fun a b => a.id < b.id) →
        (∀ b, select_best_discount l up = some b →
          b ∈ l ∧ 0 < calculate_line_discount up b ∧
          (∀ d' ∈ l,
            calculate_line_discount up d' ≤ calculate_line_discount up b) ∧
          (∀ d' ∈ l,
            calculate_line_discount up d' = calculate_line_discount up b →
              b.id ≤ d'.id)) ∧
        (select_best_discount l up = none →
          ∀ d' ∈ l, calculate_line_discount up d' = 0)) := by
  intro up d l
  refine ⟨calculate_line_discount_percent up d,
    calculate_line_discount_fixed up d,
    calculate_line_discount_nonneg up d, ?_⟩
  intro hsorted
  have hspec := select_best_go_spec up l [] none 0 (by simpa using hsorted)
    ⟨rfl, by intro x hx; exact absurd hx (List.not_mem_nil x)⟩
  constructor
  · intro b hb
    rw [select_best_discount] at hb
    rw [hb] at hspec
    simpa using hspec
  · intro hnone d' hd'
    rw [select_best_discount] at hnone
    rw [hnone] at hspec
    exact le_antisymm (by simpa using hspec d' (by simpa using hd'))
      (calculate_line_discount_nonneg up d')

/-- Two concrete discounts: a fixed 5 (id 1) and a 10% one (id 2). -/
def C9_d1 : Discount :=
  { id := 1, dtype := "fixed", value := 5, scope := "all", scopeValue := none,
    isActive := true, startsAt := none, endsAt := none, productIds := [] }

/-- See `C9_d1`. -/
def C9_d2 : Discount :=
  { id := 2, dtype := "percent", value := 10, scope := "all", scopeValue := none,
    isActive := true, startsAt := none, endsAt := none, productIds := [] }

/-- Witness for C9 at unit price 100 over `[C9_d1, C9_d2]`. -/
theorem C9_line_discount_and_best_selection_witness :
    C9_d2 ∈ [C9_d1, C9_d2] ∧ 0 < calculate_line_discount 100 C9_d2 := by
  obtain ⟨-, -, -, h4⟩ :=
    C9_line_discount_and_best_selection 100 C9_d2 [C9_d1, C9_d2]
  have hs := h4 (by decide)
  have hb := hs.1 C9_d2 (by with_unfolding_all rfl)
  exact ⟨hb.1, hb.2.1⟩

/-! ## Reduction helpers for the `Except` monad -/

lemma ok_bind {α β : Type} (a : α) (f : α → Except String β) :
    (Except.ok a >>= f) = f a := rfl

lemma error_bind {α β : Type} (e : String) (f : α → Except String β) :
    ((Except.error e : Except String α) >>= f) = .error e := rfl

lemma pure_eq_ok {α : Type} (a : α) : (pure a : Except String α) = .ok a := rfl

/-! ## C8: the payment transition table is enforced and terminal statuses
are absorbing -/

/-- C8: the transition table of the webhook reconciler is exactly
`pending→{pending, paid, cancelled, expired}` with `paid`, `cancelled` and
`expired` absorbing; and `apply_mercadopago_normalized_state`, applied to a
payment whose earlier validations (reference, amount, currency) pass but
whose target internal status is outside the set allowed for the payment's
current status, fails with the invalid-transition error. -/
theorem C8_payment_transition_table_enforced :
    (allowed_payment_transitions "pending" =
        ["pending", "paid", "cancelled", "expired"] ∧
      allowed_payment_transitions "paid" = ["paid"] ∧
      allowed_payment_transitions "cancelled" = ["cancelled"] ∧
      allowed_payment_transitions "expired" = ["expired"]) ∧
    ∀ (db db' : DB) (n : ℕ) (st : NormalizedState) (pid : ℕ) (p : Payment)
      (o : Order) (ps ist er : String) (now : ℤ),
      expire_active_reservations now db = .ok (db', n) →
      normalize_optional_str (some st.providerStatus) = some ps →
      normalize_optional_str (some st.internalStatus) = some ist →
      normalize_optional_str (some st.externalReference) = some er →
      db'.payments.find? (fun q => q.id = pid ∧ q.method = "mercadopago") =
        some p →
      db'.orders.find? (fun q => q.id = p.orderId) = some o →
      normalize_optional_str p.externalRef = some er →
      (∀ a, st.amount = some a → |p.amount - a| ≤ 1/100) →
      (∀ c, normalize_optional_str st.currency = some c →
        p.currency.trim.toUpper = c.toUpper) →
      ist ∉ allowed_payment_transitions p.status →
      apply_mercadopago_normalized_state pid st now db =
        .error "invalid payment status transition" := by
  refine ⟨⟨rfl, rfl, rfl, rfl⟩, ?_⟩
  intro db db' n st pid p o ps ist er now hexp hps hist her hfindp hfindo
    href hamt hcur hnotmem
  have hassert : assert_valid_payment_transition p.status ist =
      .error "invalid payment status transition" := by
    rw [assert_valid_payment_transition, if_neg hnotmem]
  simp only [Bool.decide_and] at hfindp hfindo
  rcases hsa : st.amount with _ | a <;>
    rcases hsc : normalize_optional_str st.currency with _ | c
  · simp [apply_mercadopago_normalized_state, hexp, ok_bind, error_bind,
      hps, hist, her, hfindp, hfindo, href, hassert, hsa, hsc]
  · have h2 := hcur c hsc
    simp [apply_mercadopago_normalized_state, hexp, ok_bind, error_bind,
      hps, hist, her, hfindp, hfindo, href, hassert, hsa, hsc, h2]
  · have h1 : |p.amount - a| ≤ ((100 : ℚ))⁻¹ := by
      rw [← one_div]; exact hamt a hsa
    simp [apply_mercadopago_normalized_state, hexp, ok_bind, error_bind,
      hps, hist, her, hfindp, hfindo, href, hassert, hsa, hsc, h1]
  · have h1 : |p.amount - a| ≤ ((100 : ℚ))⁻¹ := by
      rw [← one_div]; exact hamt a hsa
    have h2 := hcur c hsc
    simp [apply_mercadopago_normalized_state, hexp, ok_bind, error_bind,
      hps, hist, her, hfindp, hfindo, href, hassert, hsa, hsc, h1, h2]

/-- A paid MercadoPago payment on order 30, used to witness C8. -/
def C8_p : Payment :=
  { id := 1, orderId := 30, method := "mercadopago", status := "paid",
    amount := 100, currency := "ARS", idempotencyKey := "k8",
    externalRef := some "x", providerStatus := some "approved",
    checkoutPreferenceId := none, expiresAt := none, paidAt := some 0,
    createdAt := 0, updatedAt := none }

/-- The order row behind `C8_p`. -/
def C8_o : Order :=
  { id := 30, userId := 1, status := "paid", currency := "ARS",
    subtotal := 100, discountTotal := 0, totalAmount := 100,
    pricingFrozen := true, pricingFrozenAt := some 0, submittedAt := some 0,
    paidAt := some 0, cancelledAt := none }

/-- State holding only `C8_p` and `C8_o`. -/
def C8_db : DB :=
  { variants := [], products := [], orders := [C8_o], items := [],
    reservations := [], payments := [C8_p], webhookEvents := [],
    discounts := [], nextReservationId := 100, nextPaymentId := 100,
    nextOrderId := 100, nextItemId := 100 }

/-- A normalized `cancelled` state targeting `C8_p`. -/
def C8_st : NormalizedState :=
  { providerPaymentId := "555", providerStatus := "cancelled",
    internalStatus := "cancelled", externalReference := "x",
    amount := none, currency := none }

/-- Witness for C8: a `paid→cancelled` request is rejected. -/
theorem C8_payment_transition_table_enforced_witness :
    apply_mercadopago_normalized_state 1 C8_st 0 C8_db =
      .error "invalid payment status transition" :=
  C8_payment_transition_table_enforced.2 C8_db C8_db 0 C8_st 1 C8_p C8_o
    "cancelled" "cancelled" "x" 0
    (by with_unfolding_all rfl) (by with_unfolding_all rfl)
    (by with_unfolding_all rfl) (by with_unfolding_all rfl)
    (by with_unfolding_all rfl) (by with_unfolding_all rfl)
    (by with_unfolding_all rfl) (fun a h => nomatch h) (fun c h => nomatch h)
    (by decide)

/-! ## C7: payment creation is idempotent on the idempotency key -/

/-- When every active reservation is still fresh, the expiry sweep is a
no-op. -/
lemma expire_active_reservations_noop (now : ℤ) (db : DB)
    (h : ∀ r ∈ db.reservations, r.status = "active" → now < r.expiresAt) :
    expire_active_reservations now db = .ok (db, 0) := by
  have hfilter : db.reservations.filter
      (fun r => decide (r.status = "active") && decide (r.expiresAt ≤ now)) = [] := by
    rw [List.filter_eq_nil_iff]
    intro r hr
    simp only [Bool.and_eq_true, decide_eq_true_eq, not_and]
    intro hact
    exact not_le.2 (h r hr hact)
  simp [expire_active_reservations, hfilter, List.insertionSort]

/-- C7: `create_payment_for_order` looked up by idempotency key. When a
payment with key `K` already exists for this order and the caller passes
the same order and (optionally) the owning user, repeating the call with
the same method returns that same payment row and leaves the state
unchanged, while repeating it with a different method fails with the
method-conflict error (and, the call failing, changes nothing). -/
theorem C7_create_payment_idempotency_key :
    ∀ (db : DB) (oid : ℕ) (method : String) (userId : Option ℕ) (K : String)
      (currency : Option String) (mins : ℤ) (prov : Except String String)
      (now : ℤ) (ep : Payment) (o : Order),
      (∀ r ∈ db.reservations, r.status = "active" → now < r.expiresAt) →
      method ∈ ALLOWED_PAYMENT_METHODS →
      0 < mins →
      K.trim = K → K ≠ "" →
      db.payments.find? (fun p => p.idempotencyKey = K) = some ep →
      ep.orderId = oid →
      db.orders.find? (fun q => q.id = oid) = some o →
      (userId = none ∨ userId = some o.userId) →
      (ep.method = method →
        create_payment_for_order oid method userId K currency mins prov now db =
          .ok (db, ep)) ∧
      (ep.method ≠ method →
        create_payment_for_order oid method userId K currency mins prov now db =
          .error "idempotency key already used for a different payment method") := by
  intro db oid method userId K currency mins prov now ep o hfresh hmeth hmins
    hKtrim hKne hfind horder hfindo huser
  have hexp := expire_active_reservations_noop now db hfresh
  have hnmem : ¬ method ∉ ALLOWED_PAYMENT_METHODS := not_not_intro hmeth
  have hminsle : ¬ mins ≤ 0 := not_le.2 hmins
  constructor
  · intro hsame
    rcases huser with hu | hu <;>
      simp [create_payment_for_order, hexp, ok_bind, hnmem, hminsle, hKtrim,
        hKne, hfind, horder, hsame, hfindo, hu]
  · intro hdiff
    simp [create_payment_for_order, hexp, ok_bind, hnmem, hminsle, hKtrim,
      hKne, hfind, horder, hdiff]

/-- The existing bank-transfer payment behind idempotency key `KEY`. -/
def C7_p : Payment :=
  { id := 4, orderId := 20, method := "bank_transfer", status := "pending",
    amount := 200, currency := "ARS", idempotencyKey := "KEY",
    externalRef := none, providerStatus := none,
    checkoutPreferenceId := none, expiresAt := some 60, paidAt := none,
    createdAt := 0, updatedAt := none }

/-- The submitted order 20 that `C7_p` pays, owned by user 1. -/
def C7_o : Order :=
  { id := 20, userId := 1, status := "submitted", currency := "ARS",
    subtotal := 200, discountTotal := 0, totalAmount := 200,
    pricingFrozen := true, pricingFrozenAt := some 0, submittedAt := some 0,
    paidAt := none, cancelledAt := none }

/-- State holding only `C7_p` and `C7_o`. -/
def C7_db : DB :=
  { variants := [], products := [], orders := [C7_o], items := [],
    reservations := [], payments := [C7_p], webhookEvents := [],
    discounts := [], nextReservationId := 100, nextPaymentId := 100,
    nextOrderId := 100, nextItemId := 100 }

/-- Witness for C7: with key `KEY` already used by `C7_p`, a repeat call
with the same method returns `C7_p` unchanged-state, and one with the
other method gets the conflict error. -/
theorem C7_create_payment_idempotency_key_witness :
    create_payment_for_order 20 "bank_transfer" (some 1) "KEY" none 60
        (.error "provider down") 0 C7_db = .ok (C7_db, C7_p) ∧
      create_payment_for_order 20 "mercadopago" (some 1) "KEY" none 60
        (.error "provider down") 0 C7_db =
        .error "idempotency key already used for a different payment method" := by
  constructor
  · exact (C7_create_payment_idempotency_key C7_db 20 "bank_transfer" (some 1)
      "KEY" none 60 (.error "provider down") 0 C7_p C7_o
      (fun r hr => absurd hr (List.not_mem_nil r)) (by decide) (by decide)
      (by with_unfolding_all rfl) (by decide) (by with_unfolding_all rfl) rfl
      (by with_unfolding_all rfl) (Or.inr rfl)).1 rfl
  · exact (C7_create_payment_idempotency_key C7_db 20 "mercadopago" (some 1)
      "KEY" none 60 (.error "provider down") 0 C7_p C7_o
      (fun r hr => absurd hr (List.not_mem_nil r)) (by decide) (by decide)
      (by with_unfolding_all rfl) (by decide) (by with_unfolding_all rfl) rfl
      (by with_unfolding_all rfl) (Or.inr rfl)).2 (by decide)

/-! ## C10: adding an existing variant only bumps the quantity and keeps
the snapshotted unit price -/

/-- Repricing a line keeps everything but the four discount fields. -/
lemma reprice_item_core (ds : List Discount) (ps : List Product) (now : ℤ)
    (i j : OrderItem) (h : reprice_item ds ps now i = .ok j) :
    j.id = i.id ∧ j.orderId = i.orderId ∧ j.productId = i.productId ∧
      j.variantId = i.variantId ∧ j.quantity = i.quantity ∧
      j.unitPrice = i.unitPrice := by
  rw [reprice_item] at h
  rcases hp : ps.find? (fun p => p.id = i.productId) with _ | product
  · rw [hp] at h
    cases h
    exact ⟨rfl, rfl, rfl, rfl, rfl, rfl⟩
  · rw [hp] at h
    dsimp only at h
    rcases hcp : calculate_line_pricing i.unitPrice i.quantity
        (select_best_discount
          (get_applicable_discounts_for_product product ds now) i.unitPrice)
      with e | pr
    · rw [hcp, error_bind] at h
      cases h
    · rw [hcp, ok_bind] at h
      cases h
      exact ⟨rfl, rfl, rfl, rfl, rfl, rfl⟩

/-- `mapM` over `reprice_item` succeeds pointwise. -/
lemma reprice_order_items_forall₂ (ds : List Discount) (ps : List Product)
    (now : ℤ) :
    ∀ (items rp : List OrderItem) (tot : OrderTotals),
      reprice_order_items items ds ps now = .ok (rp, tot) →
      List.Forall₂ (fun i j => reprice_item ds ps now i = .ok j) items rp := by
  intro items
  induction items with
  | nil =>
      intro rp tot h
      rw [reprice_order_items] at h
      cases h
      exact List.Forall₂.nil
  | cons i rest ih =>
      intro rp tot h
      rw [reprice_order_items, List.mapM_cons] at h
      rcases hi : reprice_item ds ps now i with e | j
      · rw [hi] at h
        cases h
      · rw [hi] at h
        rcases hrest : rest.mapM (reprice_item ds ps now) with e | jr
        · rw [hrest] at h
          cases h
        · rw [hrest] at h
          cases h
          refine List.Forall₂.cons hi
            (ih jr (recalculate_order_totals jr) ?_)
          rw [reprice_order_items, hrest, ok_bind]

/-- In an id-unique item list, the repriced row found for a member's id is
exactly the member's own repricing. -/
lemma reprice_find_of_mem (ds : List Discount) (ps : List Product) (now : ℤ) :
    ∀ (items rp : List OrderItem),
      List.Forall₂ (fun i j => reprice_item ds ps now i = .ok j) items rp →
      (items.map (fun i => i.id)).Nodup →
      ∀ it0 ∈ items, ∃ j,
        rp.find? (fun j => j.id = it0.id) = some j ∧
          reprice_item ds ps now it0 = .ok j := by
  intro items rp hfa
  induction hfa with
  | nil =>
      intro _ it0 hmem
      exact absurd hmem (List.not_mem_nil it0)
  | cons hij hrest ih =>
      rename_i i j restI restJ
      intro hnd it0 hmem
      rw [List.map_cons, List.nodup_cons] at hnd
      have hji := (reprice_item_core ds ps now i j hij).1
      rcases List.mem_cons.1 hmem with hit | hit
      · subst hit
        exact ⟨j, List.find?_cons_of_pos _ (by simp [hji]), hij⟩
      · have hne : i.id ≠ it0.id := by
          intro he
          exact hnd.1 (he ▸ List.mem_map_of_mem (fun x => x.id) hit)
        obtain ⟨j', hfind, hok⟩ := ih hnd.2 it0 hit
        refine ⟨j', ?_, hok⟩
        rw [List.find?_cons_of_neg _ (by simp only [decide_eq_true_eq, hji]; exact hne)]
        exact hfind

/-- What a successful `_recalculate_order_total` does to the state: the
whole order is repriced and only the four discount fields of its items are
written back. -/
lemma recalculate_order_total_spec (o : Order) (force : Bool) (now : ℤ)
    (db0 db' : DB) (o' : Order)
    (h : recalculate_order_total o force now db0 = .ok (db', o')) :
    ∃ rp tot,
      reprice_order_items (items_of db0 o.id) db0.discounts db0.products now =
        .ok (rp, tot) ∧
      db'.items = db0.items.map (fun i =>
        if i.orderId = o.id then
          match rp.find? (fun j => j.id = i.id) with
          | some j =>
              { i with
                  discountId := j.discountId
                  discountAmount := j.discountAmount
                  finalUnitPrice := j.finalUnitPrice
                  lineTotal := j.lineTotal }
          | none => i
        else i) ∧
      db'.discounts = db0.discounts ∧ db'.products = db0.products := by
  rw [recalculate_order_total] at h
  split at h
  · cases h
  · dsimp only at h
    rcases hrp : reprice_order_items (items_of db0 o.id) db0.discounts
        db0.products now with e | pr
    · rw [hrp, error_bind] at h
      cases h
    · rw [hrp, ok_bind] at h
      cases h
      refine ⟨pr.1, pr.2, ?_, rfl, rfl, rfl⟩
      rfl

/-- Field-wise extensionality for order items. -/
lemma orderItem_eq_of_fields (a b : OrderItem)
    (h1 : a.id = b.id) (h2 : a.orderId = b.orderId)
    (h3 : a.productId = b.productId) (h4 : a.variantId = b.variantId)
    (h5 : a.quantity = b.quantity) (h6 : a.unitPrice = b.unitPrice)
    (h7 : a.discountId = b.discountId) (h8 : a.discountAmount = b.discountAmount)
    (h9 : a.finalUnitPrice = b.finalUnitPrice) (h10 : a.lineTotal = b.lineTotal) :
    a = b := by
  cases a; cases b
  simp_all

/-- C10: when `add_item_to_draft_order` hits a variant that already has an
item in the user's draft, only that item's quantity is incremented: row
count, ids, order/variant links and every `unit_price` snapshot are
untouched (so the stored price survives even if the variant's price has
changed since), and the row written for that item is exactly the discount
engine's repricing of the old row — at its stored `unit_price` — with the
bumped quantity. -/
theorem C10_add_item_keeps_unit_price_snapshot :
    ∀ (db : DB) (u vid : ℕ) (q now : ℤ) (o : Order) (var : Variant)
      (it : OrderItem) (db' : DB) (o' : Order),
      0 < q →
      db.variants.find? (fun v => v.id = vid ∧ v.isActive) = some var →
      db.orders.find? (fun x => x.userId = u ∧ x.status = "draft") = some o →
      o.pricingFrozen = false →
      db.items.find? (fun i => i.orderId = o.id ∧ i.variantId = vid) = some it →
      (db.items.map (fun i => i.id)).Nodup →
      add_item_to_draft_order u vid q now db = .ok (db', o') →
      (db'.items.map (fun i =>
          (i.id, i.orderId, i.variantId, i.quantity, i.unitPrice)) =
        db.items.map (fun i => (i.id, i.orderId, i.variantId,
          (if i.id = it.id then i.quantity + q else i.quantity), i.unitPrice))) ∧
      ∀ j ∈ db'.items, j.id = it.id →
        j.unitPrice = it.unitPrice ∧ j.quantity = it.quantity + q ∧
        reprice_item db.discounts db.products now
          { it with quantity := it.quantity + q } = .ok j := by
  intro db u vid q now o var it db' o' hq hvar hdraft hfrozen hitem hnodup hres
  have hq' : ¬ q ≤ 0 := not_le.2 hq
  have hstatus : o.status = "draft" := by
    have hfd := List.find?_some hdraft
    simp only [decide_eq_true_eq] at hfd
    exact hfd.2
  have hito : it.orderId = o.id ∧ it.variantId = vid := by
    have hfd := List.find?_some hitem
    simpa using hfd
  have hitmem : it ∈ db.items := List.mem_of_find?_eq_some hitem
  have heq : add_item_to_draft_order u vid q now db =
      recalculate_order_total o false now
        { db with
            items := db.items.map fun i =>
              if i.id = it.id then { i with quantity := i.quantity + q }
              else i } := by
    simp only [add_item_to_draft_order, get_or_create_draft_order_model,
      hvar, hdraft, hitem, if_neg hq']
    rw [if_neg (show ¬ o.status ≠ "draft" from fun hne => hne hstatus)]
  rw [heq] at hres
  obtain ⟨rp, tot, hrp, hitems, hdisc, hprod⟩ :=
    recalculate_order_total_spec o false now _ db' o' hres
  have hLids : (db.items.map fun i =>
      if i.id = it.id then { i with quantity := i.quantity + q } else i).map
        (fun i => i.id) = db.items.map fun i => i.id := by
    rw [List.map_map]
    apply List.map_congr_left
    intro i _
    by_cases hid : i.id = it.id <;> simp [hid]
  have hbump_mem : ({ it with quantity := it.quantity + q } : OrderItem) ∈
      (db.items.map fun i =>
        if i.id = it.id then { i with quantity := i.quantity + q } else i) :=
    List.mem_map.2 ⟨it, hitmem, by simp⟩
  have hmemF : ({ it with quantity := it.quantity + q } : OrderItem) ∈
      items_of
        { db with
            items := db.items.map fun i =>
              if i.id = it.id then { i with quantity := i.quantity + q }
              else i } o.id := by
    refine List.mem_filter.2 ⟨hbump_mem, ?_⟩
    simp [hito.1]
  have hnodupF : ((items_of
      { db with
          items := db.items.map fun i =>
            if i.id = it.id then { i with quantity := i.quantity + q }
            else i } o.id).map (fun i => i.id)).Nodup := by
    have hsub : List.Sublist
        ((items_of
          { db with
              items := db.items.map fun i =>
                if i.id = it.id then { i with quantity := i.quantity + q }
                else i } o.id).map (fun i => i.id))
        ((db.items.map fun i =>
          if i.id = it.id then { i with quantity := i.quantity + q }
          else i).map (fun i => i.id)) :=
      List.Sublist.map _ (List.filter_sublist _)
    exact List.Nodup.sublist hsub (hLids ▸ hnodup)
  have hwb : ∀ (x : OrderItem),
      ((if x.orderId = o.id then
          match rp.find? (fun j => j.id = x.id) with
          | some j =>
              { x with
                  discountId := j.discountId
                  discountAmount := j.discountAmount
                  finalUnitPrice := j.finalUnitPrice
                  lineTotal := j.lineTotal }
          | none => x
        else x) : OrderItem).id = x.id ∧
      ((if x.orderId = o.id then
          match rp.find? (fun j => j.id = x.id) with
          | some j =>
              { x with
                  discountId := j.discountId
                  discountAmount := j.discountAmount
                  finalUnitPrice := j.finalUnitPrice
                  lineTotal := j.lineTotal }
          | none => x
        else x) : OrderItem).orderId = x.orderId ∧
      ((if x.orderId = o.id then
          match rp.find? (fun j => j.id = x.id) with
          | some j =>
              { x with
                  discountId := j.discountId
                  discountAmount := j.discountAmount
                  finalUnitPrice := j.finalUnitPrice
                  lineTotal := j.lineTotal }
          | none => x
        else x) : OrderItem).variantId = x.variantId ∧
      ((if x.orderId = o.id then
          match rp.find? (fun j => j.id = x.id) with
          | some j =>
              { x with
                  discountId := j.discountId
                  discountAmount := j.discountAmount
                  finalUnitPrice := j.finalUnitPrice
                  lineTotal := j.lineTotal }
          | none => x
        else x) : OrderItem).quantity = x.quantity ∧
      ((if x.orderId = o.id then
          match rp.find? (fun j => j.id = x.id) with
          | some j =>
              { x with
                  discountId := j.discountId
                  discountAmount := j.discountAmount
                  finalUnitPrice := j.finalUnitPrice
                  lineTotal := j.lineTotal }
          | none => x
        else x) : OrderItem).unitPrice = x.unitPrice := by
    intro x
    refine ⟨?_, ?_, ?_, ?_, ?_⟩ <;>
      · split
        · split <;> rfl
        · rfl
  have hfa := reprice_order_items_forall₂ db.discounts db.products now _ rp tot hrp
  obtain ⟨jr, hfindjr, hokjr⟩ :=
    reprice_find_of_mem db.discounts db.products now _ rp hfa hnodupF
      ({ it with quantity := it.quantity + q }) hmemF
  constructor
  · rw [hitems]
    show ((db.items.map (fun i =>
        if i.id = it.id then { i with quantity := i.quantity + q } else i)).map
          _).map _ = _
    rw [List.map_map, List.map_map]
    apply List.map_congr_left
    intro i _
    dsimp only [Function.comp]
    obtain ⟨h1, h2, h3, h4, h5⟩ :=
      hwb (if i.id = it.id then { i with quantity := i.quantity + q } else i)
    rw [h1, h2, h3, h4, h5]
    by_cases hid : i.id = it.id <;> simp [hid]
  · intro j hj hjid
    rw [hitems] at hj
    obtain ⟨x, hxmem, hxj⟩ := List.mem_map.1 hj
    obtain ⟨i0, hi0, hbeq⟩ := List.mem_map.1 hxmem
    have hxid : x.id = i0.id := by
      rw [← hbeq]
      by_cases hid : i0.id = it.id <;> simp [hid]
    have hjid0 : j.id = i0.id := by
      rw [← hxj, (hwb x).1, hxid]
    have hi0it : i0 = it := by
      apply List.inj_on_of_nodup_map hnodup hi0 hitmem
      rw [← hjid0, hjid]
    rw [hi0it] at hbeq
    have hxval : x = ({ it with quantity := it.quantity + q } : OrderItem) := by
      rw [← hbeq]
      simp
    subst hxval
    have hcore := reprice_item_core db.discounts db.products now _ jr hokjr
    have hjval : j = jr := by
      rw [← hxj]
      show (if ({ it with quantity := it.quantity + q } : OrderItem).orderId = o.id then _ else _) = jr
      rw [if_pos (show ({ it with quantity := it.quantity + q } : OrderItem).orderId = o.id from hito.1)]
      rw [show rp.find? (fun j =>
          j.id = ({ it with quantity := it.quantity + q } : OrderItem).id) = some jr from hfindjr]
      exact orderItem_eq_of_fields _ _ hcore.1.symm (by simpa using hcore.2.1.symm)
        (by simpa using hcore.2.2.1.symm) (by simpa using hcore.2.2.2.1.symm)
        (by simpa using hcore.2.2.2.2.1.symm) (by simpa using hcore.2.2.2.2.2.symm)
        rfl rfl rfl rfl
    refine ⟨?_, ?_, ?_⟩
    · rw [hjval]
      exact hcore.2.2.2.2.2.trans rfl
    · rw [hjval]
      exact hcore.2.2.2.2.1.trans rfl
    · rw [hjval]
      exact hokjr

/-- Variant 1, whose current price (150) differs from the price snapshotted
when the draft item was created (100). -/
def C10_var : Variant :=
  { id := 1, productId := 1, price := 150, stock := 10, isActive := true }

/-- The draft order of user 1. -/
def C10_o : Order :=
  { id := 10, userId := 1, status := "draft", currency := "ARS",
    subtotal := 200, discountTotal := 0, totalAmount := 200,
    pricingFrozen := false, pricingFrozenAt := none, submittedAt := none,
    paidAt := none, cancelledAt := none }

/-- The existing draft item for variant 1, snapshotted at unit price 100. -/
def C10_it : OrderItem :=
  { id := 5, orderId := 10, productId := 1, variantId := 1, quantity := 2,
    unitPrice := 100, discountId := none, discountAmount := 0,
    finalUnitPrice := 100, lineTotal := 200 }

/-- State for the C10 witness. -/
def C10_db : DB :=
  { variants := [C10_var], products := [{ id := 1, category := some "toys" }],
    orders := [C10_o], items := [C10_it], reservations := [], payments := [],
    webhookEvents := [], discounts := [], nextReservationId := 100,
    nextPaymentId := 100, nextOrderId := 100, nextItemId := 100 }

/-- The successful result of adding 3 more units of variant 1. -/
def C10_out : DB × Order :=
  match add_item_to_draft_order 1 1 3 0 C10_db with
  | .ok x => x
  | .error _ => (C10_db, C10_o)

/-- Witness for C10: after the add, the single item still carries unit
price 100 (not the variant's current 150) with quantity 2+3. -/
theorem C10_add_item_keeps_unit_price_snapshot_witness :
    C10_out.1.items.map (fun i =>
      (i.id, i.orderId, i.variantId, i.quantity, i.unitPrice)) =
      [(5, 10, 1, 5, (100 : ℚ))] := by
  have h := (C10_add_item_keeps_unit_price_snapshot C10_db 1 1 3 0 C10_o
    C10_var C10_it C10_out.1 C10_out.2 (by decide)
    (by with_unfolding_all rfl) (by with_unfolding_all rfl) rfl
    (by with_unfolding_all rfl) (by decide)
    (by with_unfolding_all rfl)).1
  rw [h]
  with_unfolding_all rfl

/-! ## Expiry sweep analysis: row transformers and list facts -/

/-- The per-row effect of the marking loop of `expire_active_reservations`. -/
def mark_row (now : ℤ) (r : StockReservation) : StockReservation :=
  { r with
      status := "expired"
      releasedAt := some now
      reason := some "reservation_expired" }

/-- The per-row effect of the reactivation loop of
`expire_active_reservations` (as composed after the marking loop). -/
def react_row (newExpiry : ℤ) (r : StockReservation) : StockReservation :=
  { r with
      status := "active"
      reactivationCount := r.reactivationCount + 1
      expiresAt := newExpiry
      releasedAt := none
      consumedAt := none
      reason := none }

lemma mark_reservations_expired_eq (ids : List ℕ) (now : ℤ)
    (rs : List StockReservation) :
    mark_reservations_expired ids now rs =
      rs.map fun r => if ids.contains r.id then mark_row now r else r := rfl

/-- Reactivating right after marking the same ids acts per row as
`react_row`. -/
lemma reactivate_mark (ids : List ℕ) (now e : ℤ)
    (rs : List StockReservation) :
    reactivate_reservations ids e (mark_reservations_expired ids now rs) =
      rs.map fun r => if ids.contains r.id then react_row e r else r := by
  unfold reactivate_reservations mark_reservations_expired
  rw [List.map_map]
  refine List.map_congr_left fun r _ => ?_
  by_cases h : r.id ∈ ids
  · simp [h, mark_row, react_row]
  · simp [h]

lemma first_occurrences_fuel_subset :
    ∀ (n : ℕ) (l : List ℕ), ∀ x ∈ first_occurrences_fuel n l, x ∈ l := by
  intro n
  induction n with
  | zero => intro l x hx; cases l <;> cases hx
  | succ n ih =>
      intro l x hx
      cases l with
      | nil => cases hx
      | cons a l =>
          rcases List.mem_cons.mp hx with h | h
          · exact h ▸ List.mem_cons_self a l
          · exact List.mem_cons_of_mem a
              (List.mem_of_mem_filter (ih (l.filter fun y => y ≠ a) x h))

lemma first_occurrences_fuel_nodup :
    ∀ (n : ℕ) (l : List ℕ), (first_occurrences_fuel n l).Nodup := by
  intro n
  induction n with
  | zero => intro l; cases l <;> exact List.nodup_nil
  | succ n ih =>
      intro l
      cases l with
      | nil => exact List.nodup_nil
      | cons a l =>
          refine List.nodup_cons.mpr ⟨fun hmem => ?_, ih _⟩
          have := first_occurrences_fuel_subset n _ a hmem
          have := List.of_mem_filter this
          simp at this

lemma first_occurrences_fuel_complete :
    ∀ (n : ℕ) (l : List ℕ), l.length ≤ n →
      ∀ x ∈ l, x ∈ first_occurrences_fuel n l := by
  intro n
  induction n with
  | zero =>
      intro l hl x hx
      rw [Nat.le_zero, List.length_eq_zero] at hl
      subst hl; cases hx
  | succ n ih =>
      intro l hl x hx
      cases l with
      | nil => cases hx
      | cons a l =>
          rcases List.mem_cons.mp hx with h | h
          · exact h ▸ List.mem_cons_self _ _
          · by_cases hxa : x = a
            · exact hxa ▸ List.mem_cons_self _ _
            · refine List.mem_cons_of_mem _ (ih _ ?_ x ?_)
              · exact le_trans (List.length_filter_le _ l)
                  (Nat.succ_le_succ_iff.mp hl)
              · exact List.mem_filter.mpr ⟨h, by simpa using hxa⟩

lemma first_occurrences_nodup (l : List ℕ) : (first_occurrences l).Nodup :=
  first_occurrences_fuel_nodup _ _

lemma first_occurrences_complete (l : List ℕ) :
    ∀ x ∈ l, x ∈ first_occurrences l :=
  first_occurrences_fuel_complete _ _ le_rfl

/-- Counting with a predicate that differs from another exactly on rows
flagged by a third one. -/
lemma countP_add_of {α : Type} (p q c : α → Bool) :
    ∀ l : List α,
      (∀ x ∈ l, (c x = true → p x = true ∧ q x = false) ∧
        (c x = false → p x = q x)) →
      l.countP p = l.countP q + l.countP c := by
  intro l
  induction l with
  | nil => intro _; rfl
  | cons a l ih =>
      intro h
      have ha := h a (List.mem_cons_self a l)
      have hl := ih fun x hx => h x (List.mem_cons_of_mem a hx)
      rcases hc : c a with _ | _
      · have hpq := ha.2 hc
        simp only [List.countP_cons, hc, hpq, hl]
        simp
        omega
      · rcases ha.1 hc with ⟨hp, hq⟩
        simp only [List.countP_cons, hc, hp, hq, hl]
        simp
        omega

/-- The contribution of one reservation row to `reserved_quantity`. -/
def res_contrib (vid : ℕ) (now : ℤ) (r : StockReservation) : ℤ :=
  if r.variantId = vid ∧ r.status = "active" ∧ now < r.expiresAt then
    r.quantity
  else 0

lemma reserved_quantity_eq (rs : List StockReservation) (vid : ℕ) (now : ℤ) :
    reserved_quantity rs vid now = (rs.map (res_contrib vid now)).sum := by
  induction rs with
  | nil => rfl
  | cons r rs ih =>
      simp only [reserved_quantity] at ih ⊢
      by_cases h : r.variantId = vid ∧ r.status = "active" ∧ now < r.expiresAt
      · rw [List.filter_cons, if_pos (by simpa using h)]
        simp only [List.map_cons, List.sum_cons, ih, res_contrib]
        rw [if_pos h]
      · rw [List.filter_cons, if_neg (by simpa using h)]
        simp only [ih, res_contrib, List.map_cons, List.sum_cons]
        rw [if_neg h, zero_add]

/-- `SUM(quantity)` of the consumed reservations of a variant. -/
def consumed_quantity (rs : List StockReservation) (vid : ℕ) : ℤ :=
  ((rs.filter fun r => r.variantId = vid ∧ r.status = "consumed").map
    fun r => r.quantity).sum

/-- The contribution of one reservation row to `consumed_quantity`. -/
def cons_contrib (vid : ℕ) (r : StockReservation) : ℤ :=
  if r.variantId = vid ∧ r.status = "consumed" then r.quantity else 0

lemma consumed_quantity_eq (rs : List StockReservation) (vid : ℕ) :
    consumed_quantity rs vid = (rs.map (cons_contrib vid)).sum := by
  induction rs with
  | nil => rfl
  | cons r rs ih =>
      simp only [consumed_quantity] at ih ⊢
      by_cases h : r.variantId = vid ∧ r.status = "consumed"
      · rw [List.filter_cons, if_pos (by simpa using h)]
        simp only [List.map_cons, List.sum_cons, ih, cons_contrib]
        rw [if_pos h]
      · rw [List.filter_cons, if_neg (by simpa using h)]
        simp only [ih, cons_contrib, List.map_cons, List.sum_cons]
        rw [if_neg h, zero_add]

lemma map_sum_le {α : Type} (f g : α → ℤ) :
    ∀ l : List α, (∀ x ∈ l, f x ≤ g x) → (l.map f).sum ≤ (l.map g).sum := by
  intro l
  induction l with
  | nil => intro _; exact le_refl 0
  | cons a l ih =>
      intro h
      simp only [List.map_cons, List.sum_cons]
      exact add_le_add (h a (List.mem_cons_self a l))
        (ih fun x hx => h x (List.mem_cons_of_mem a hx))

/-- Complete case analysis of one per-order step of the expiry sweep:
the group is first marked expired, then either stays so (non-submitted
order), or the order is cancelled with its pending payments (reactivation
policy exhausted), or everything is reactivated (items still fit), or the
order is cancelled (items no longer fit). -/
lemma process_order_group_cases (now : ℤ) (oid : ℕ) (g : List StockReservation)
    (snap db db1 : DB) (n : ℕ)
    (h : process_order_group now oid g snap db = .ok (db1, n)) :
    ∃ o, db.orders.find? (fun x => x.id = oid) = some o ∧
      ((items_of db oid).insertionSort item_order).isEmpty = false ∧
      ((o.status ≠ "submitted" ∧
          db1 = { db with reservations :=
            mark_reservations_expired (g.map fun r => r.id) now db.reservations } ∧
          n = g.length) ∨
       (o.status = "submitted" ∧
          ¬ (g.all fun r => r.reactivationCount < MAX_RESERVATION_REACTIVATIONS) = true ∧
          db1 = { db with
              reservations :=
                mark_reservations_expired (g.map fun r => r.id) now db.reservations
              orders := cancel_order_row oid now db.orders
              payments := cancel_pending_payments_for_order oid now db.payments } ∧
          n = g.length) ∨
       (o.status = "submitted" ∧
          (g.all fun r => r.reactivationCount < MAX_RESERVATION_REACTIVATIONS) = true ∧
          check_all_items_fit now snap
            ((items_of db oid).insertionSort item_order) = .ok true ∧
          db1 = { db with
              reservations :=
                reactivate_reservations (g.map fun r => r.id)
                  (now + RESERVATION_REACTIVATION_TTL_MINUTES)
                  (mark_reservations_expired (g.map fun r => r.id) now
                    db.reservations) } ∧
          n = 0) ∨
       (o.status = "submitted" ∧
          (g.all fun r => r.reactivationCount < MAX_RESERVATION_REACTIVATIONS) = true ∧
          check_all_items_fit now snap
            ((items_of db oid).insertionSort item_order) = .ok false ∧
          db1 = { db with
              reservations :=
                mark_reservations_expired (g.map fun r => r.id) now db.reservations
              orders := cancel_order_row oid now db.orders
              payments := cancel_pending_payments_for_order oid now db.payments } ∧
          n = g.length)) := by
  unfold process_order_group lock_order_items_for_order at h
  rcases hfind : db.orders.find? fun x => x.id = oid with _ | o
  · rw [hfind] at h
    dsimp only at h
    rw [error_bind] at h
    exact Except.noConfusion h
  · rw [hfind] at h
    dsimp only at h
    refine ⟨o, hfind, ?_⟩
    rcases hemp : ((items_of db oid).insertionSort item_order).isEmpty with _ | _
    · rw [hemp] at h
      rw [if_neg (by simp)] at h
      rw [ok_bind] at h
      dsimp only at h
      refine ⟨rfl, ?_⟩
      by_cases hs : o.status = "submitted"
      · rw [if_neg (not_not_intro hs)] at h
        by_cases hpol :
            (g.all fun r => r.reactivationCount < MAX_RESERVATION_REACTIVATIONS) = true
        · rw [if_neg (not_not_intro hpol)] at h
          rcases hfit : check_all_items_fit now snap
              ((items_of db oid).insertionSort item_order) with e | b
          · rw [hfit, error_bind] at h
            exact Except.noConfusion h
          · rw [hfit, ok_bind] at h
            rcases b with _ | _
            · rw [if_neg (by simp)] at h
              simp only [Except.ok.injEq, Prod.mk.injEq] at h
              exact Or.inr (Or.inr (Or.inr ⟨hs, hpol, rfl, h.1.symm, h.2.symm⟩))
            · rw [if_pos rfl] at h
              simp only [Except.ok.injEq, Prod.mk.injEq] at h
              exact Or.inr (Or.inr (Or.inl ⟨hs, hpol, rfl, h.1.symm, h.2.symm⟩))
        · rw [if_pos hpol] at h
          simp only [Except.ok.injEq, Prod.mk.injEq] at h
          exact Or.inr (Or.inl ⟨hs, hpol, h.1.symm, h.2.symm⟩)
      · rw [if_pos hs] at h
        simp only [Except.ok.injEq, Prod.mk.injEq] at h
        exact Or.inl ⟨hs, h.1.symm, h.2.symm⟩
    · rw [hemp] at h
      rw [if_pos rfl] at h
      rw [error_bind] at h
      exact Except.noConfusion h

/-- Generic induction along the per-order fold of the expiry sweep. -/
lemma expire_go_ind (now : ℤ) (snap : DB) (expiring : List StockReservation)
    (P : List ℕ → DB → ℕ → Prop)
    (hstep : ∀ oid rest dbk db1 acc added,
      P (oid :: rest) dbk acc →
      process_order_group now oid (expiring.filter fun r => r.orderId = oid)
        snap dbk = .ok (db1, added) →
      P rest db1 (acc + added)) :
    ∀ (oids : List ℕ) (db : DB) (acc : ℕ) (db' : DB) (n : ℕ),
      P oids db acc →
      expire_go now snap expiring oids db acc = .ok (db', n) →
      P [] db' n := by
  intro oids
  induction oids with
  | nil =>
      intro db acc db' n hP h
      unfold expire_go at h
      simp only [Except.ok.injEq, Prod.mk.injEq] at h
      exact h.1 ▸ h.2 ▸ hP
  | cons oid rest ih =>
      intro db acc db' n hP h
      unfold expire_go at h
      dsimp only at h
      rcases hproc : process_order_group now oid
          (expiring.filter fun r => r.orderId = oid) snap db
        with e | ⟨db1, added⟩
      · rw [hproc, error_bind] at h
        exact Except.noConfusion h
      · rw [hproc, ok_bind] at h
        exact ih db1 (acc + added)  db' n
          (hstep oid rest db db1 acc added hP hproc) h

/-- Run an invariant through `expire_active_reservations`: it needs a
step lemma, the initial state, and the trivial no-expiring case. -/
lemma expire_ind (now : ℤ) (db db' : DB) (n : ℕ)
    (h : expire_active_reservations now db = .ok (db', n))
    (P : List ℕ → DB → ℕ → Prop)
    (hstep : ∀ oid rest dbk db1 acc added,
      P (oid :: rest) dbk acc →
      process_order_group now oid
        (((db.reservations.filter fun r =>
            r.status = "active" ∧ r.expiresAt ≤ now).insertionSort
              res_order).filter fun r => r.orderId = oid) db dbk
        = .ok (db1, added) →
      P rest db1 (acc + added))
    (hinit : P (first_occurrences
        (((db.reservations.filter fun r =>
            r.status = "active" ∧ r.expiresAt ≤ now).insertionSort
              res_order).map fun r => r.orderId)) db 0)
    (hempty : ((db.reservations.filter fun r =>
        r.status = "active" ∧ r.expiresAt ≤ now).insertionSort
          res_order).isEmpty = true →
      P [] db 0) :
    P [] db' n := by
  unfold expire_active_reservations at h
  dsimp only at h
  rcases hemp : ((db.reservations.filter fun r =>
      r.status = "active" ∧ r.expiresAt ≤ now).insertionSort
        res_order).isEmpty with _ | _
  · rw [hemp] at h
    rw [if_neg (by simp)] at h
    exact expire_go_ind now db _ P hstep _ db 0 db' n hinit h
  · rw [hemp] at h
    rw [if_pos rfl] at h
    simp only [Except.ok.injEq, Prod.mk.injEq] at h
    exact h.1 ▸ h.2 ▸ hempty hemp

lemma bool_eq_of_iff {a b : Bool} (h : a = true ↔ b = true) : a = b := by
  rcases a <;> rcases b <;> simp_all

lemma countP_congr_mem {α : Type} (p q : α → Bool) :
    ∀ l : List α, (∀ x ∈ l, p x = q x) → l.countP p = l.countP q := by
  intro l
  induction l with
  | nil => intro _; rfl
  | cons a l ih =>
      intro h
      rw [List.countP_cons, List.countP_cons, h a (List.mem_cons_self a l),
        ih fun x hx => h x (List.mem_cons_of_mem a hx)]

/-- A reservation row that the sweep at time `now` picks up. -/
def expiring_row (now : ℤ) (r : StockReservation) : Prop :=
  r.status = "active" ∧ r.expiresAt ≤ now

lemma expiring_row_iff (now : ℤ) (r : StockReservation) :
    expiring_row now r ↔ (r.status = "active" ∧ r.expiresAt ≤ now) := Iff.rfl

/-- The invariant threaded through the expiry sweep: order groups still
to process are listed in `oids`; the variant and item tables are
untouched; the running count matches the newly expired rows; and every
reservation row is either untouched, or was an expiring row of an
already-processed group and is now marked expired or reactivated. -/
def expire_core_inv (db0 : DB) (now : ℤ) (oids : List ℕ) (db : DB)
    (acc : ℕ) : Prop :=
  oids.Nodup ∧
  db.variants = db0.variants ∧
  db.items = db0.items ∧
  (db.reservations.filter fun r => r.status = "expired").length
    = (db0.reservations.filter fun r => r.status = "expired").length + acc ∧
  ∃ f : StockReservation → StockReservation,
    db.reservations = db0.reservations.map f ∧
    ∀ x ∈ db0.reservations,
      (¬ expiring_row now x → f x = x) ∧
      (x.orderId ∈ oids → expiring_row now x → f x = x) ∧
      (x.orderId ∉ oids → expiring_row now x →
        f x = mark_row now x ∨
        f x = react_row (now + RESERVATION_REACTIVATION_TTL_MINUTES) x)

lemma expire_core_step (db0 : DB) (now : ℤ)
    (hnd : (db0.reservations.map fun r => r.id).Nodup) :
    ∀ (oid : ℕ) (rest : List ℕ) (dbk db1 : DB) (acc added : ℕ),
      expire_core_inv db0 now (oid :: rest) dbk acc →
      process_order_group now oid
        (((db0.reservations.filter fun r =>
            r.status = "active" ∧ r.expiresAt ≤ now).insertionSort
              res_order).filter fun r => r.orderId = oid) db0 dbk
        = .ok (db1, added) →
      expire_core_inv db0 now rest db1 (acc + added) := by
  intro oid rest dbk db1 acc added hinv hproc
  obtain ⟨hndo, hvar, hitems, hcount, f, hmap, hrows⟩ := hinv
  set g := ((db0.reservations.filter fun r =>
      r.status = "active" ∧ r.expiresAt ≤ now).insertionSort
        res_order).filter fun r => r.orderId = oid with hgdef
  set ids := g.map fun r => r.id with hids
  have hgmem : ∀ r : StockReservation,
      r ∈ g ↔ r ∈ db0.reservations ∧ expiring_row now r ∧ r.orderId = oid := by
    intro r
    rw [hgdef, List.mem_filter,
      (List.perm_insertionSort res_order _).mem_iff, List.mem_filter]
    simp [expiring_row, and_assoc]
  have hinj := List.inj_on_of_nodup_map hnd
  have hid : ∀ x ∈ db0.reservations,
      (ids.contains x.id = true ↔ x ∈ g) := by
    intro x hx
    constructor
    · intro hc
      have hmm : x.id ∈ g.map fun r => r.id := by
        rw [hids] at hc
        simpa using hc
      rcases List.mem_map.mp hmm with ⟨r, hrg, hrid⟩
      have hrmem := ((hgmem r).mp hrg).1
      have hrx := hinj hrmem hx hrid
      exact hrx ▸ hrg
    · intro hmemg
      have hmm : x.id ∈ g.map fun r => r.id := List.mem_map_of_mem _ hmemg
      rw [hids]
      simpa using hmm
  have hcore : ∀ x ∈ db0.reservations,
      f x = x ∨ f x = mark_row now x ∨
        f x = react_row (now + RESERVATION_REACTIVATION_TTL_MINUTES) x := by
    intro x hx
    by_cases he : expiring_row now x
    · by_cases ho : x.orderId ∈ oid :: rest
      · exact Or.inl ((hrows x hx).2.1 ho he)
      · exact Or.inr ((hrows x hx).2.2 ho he)
    · exact Or.inl ((hrows x hx).1 he)
  have hfid : ∀ x ∈ db0.reservations, (f x).id = x.id := by
    intro x hx
    rcases hcore x hx with h | h | h <;> rw [h] <;> rfl
  have hglen : List.countP (fun x => ids.contains x.id) db0.reservations
      = g.length := by
    have hpt : ∀ x ∈ db0.reservations,
        (fun x => ids.contains x.id) x =
          (fun a => decide (a.orderId = oid) &&
            decide (a.status = "active" ∧ a.expiresAt ≤ now)) x := by
      intro x hx
      apply bool_eq_of_iff
      simp only [Bool.and_eq_true, decide_eq_true_eq]
      constructor
      · intro hc
        rcases (hgmem x).mp ((hid x hx).mp hc) with ⟨_, he, ho⟩
        exact ⟨ho, (expiring_row_iff now x).mp he⟩
      · intro hb
        exact (hid x hx).mpr ((hgmem x).mpr ⟨hx, hb.2, hb.1⟩)
    rw [countP_congr_mem _ _ db0.reservations hpt, hgdef,
      ((List.perm_insertionSort res_order _).filter _).length_eq,
      List.filter_filter, ← List.countP_eq_length_filter]
  have hM : db1.reservations =
        mark_reservations_expired ids now dbk.reservations →
      db1.variants = dbk.variants → db1.items = dbk.items →
      added = g.length →
      expire_core_inv db0 now rest db1 (acc + added) := by
    intro hres hv hi hadd
    subst hadd
    have hagree : ∀ x ∈ db0.reservations, ids.contains x.id = true → f x = x ∧
        expiring_row now x ∧ x.orderId = oid := by
      intro x hx hc
      rcases (hgmem x).mp ((hid x hx).mp hc) with ⟨_, he, ho⟩
      exact ⟨(hrows x hx).2.1 (by rw [ho]; exact List.mem_cons_self _ _) he,
        he, ho⟩
    have hres2 : db1.reservations = db0.reservations.map
        fun x => if ids.contains x.id then mark_row now x else f x := by
      rw [hres, hmap, mark_reservations_expired_eq, List.map_map]
      refine List.map_congr_left fun x hx => ?_
      show (if ids.contains (f x).id then mark_row now (f x) else f x)
        = if ids.contains x.id then mark_row now x else f x
      rw [hfid x hx]
      by_cases hc : ids.contains x.id = true
      · rw [if_pos hc, if_pos hc, (hagree x hx hc).1]
      · rw [if_neg hc, if_neg hc]
    refine ⟨(List.nodup_cons.mp hndo).2, hv.trans hvar, hi.trans hitems,
      ?_, ?_⟩
    · rw [hres2, ← List.countP_eq_length_filter,
        ← List.countP_eq_length_filter, List.countP_map]
      rw [countP_add_of
        ((fun r => decide (r.status = "expired")) ∘
          fun x => if ids.contains x.id then mark_row now x else f x)
        ((fun r => decide (r.status = "expired")) ∘ f)
        (fun x => ids.contains x.id) db0.reservations ?_]
      · have hfpart : List.countP
            ((fun r => decide (r.status = "expired")) ∘ f) db0.reservations
            = List.countP (fun r => decide (r.status = "expired"))
                db0.reservations + acc := by
          rw [← List.countP_map, ← hmap, List.countP_eq_length_filter,
            List.countP_eq_length_filter]
          exact hcount
        rw [hfpart, hglen]
        omega
      · intro x hx
        constructor
        · intro hc
          have hcb : ids.contains x.id = true := hc
          rcases hagree x hx hcb with ⟨hfx, he, _⟩
          constructor
          · show decide ((if ids.contains x.id then mark_row now x
              else f x).status = "expired") = true
            rw [if_pos hcb]
            rfl
          · show decide ((f x).status = "expired") = false
            rw [hfx]
            rcases (expiring_row_iff now x).mp he with ⟨ha, _⟩
            simp [ha]
        · intro hc
          have hcb : ids.contains x.id = false := hc
          have hcn : ¬ ids.contains x.id = true := by
            rw [hcb]
            exact Bool.false_ne_true
          show decide ((if ids.contains x.id then mark_row now x
            else f x).status = "expired") = decide ((f x).status = "expired")
          rw [if_neg hcn]
    · refine ⟨fun x => if ids.contains x.id then mark_row now x else f x,
        hres2, fun x hx => ?_⟩
      dsimp only
      by_cases hc : ids.contains x.id = true
      · rcases hagree x hx hc with ⟨hfx, he, ho⟩
        refine ⟨fun hne => absurd he hne, fun hr _ => ?_, fun _ _ => ?_⟩
        · exact absurd (by rw [← ho]; exact hr : oid ∈ rest)
            (List.nodup_cons.mp hndo).1
        · rw [if_pos hc]
          exact Or.inl rfl
      · have hng : x ∉ g := fun hxg => hc ((hid x hx).mpr hxg)
        have hnc : (if ids.contains x.id then mark_row now x else f x)
            = f x := by rw [if_neg hc]
        refine ⟨fun hne => by rw [hnc]; exact (hrows x hx).1 hne,
          fun hr he => by
            rw [hnc]
            exact (hrows x hx).2.1 (List.mem_cons_of_mem _ hr) he,
          fun hnr he => ?_⟩
        have hnoid : x.orderId ≠ oid :=
          fun ho => hng ((hgmem x).mpr ⟨hx, he, ho⟩)
        have hnin : x.orderId ∉ oid :: rest := by
          intro hmem
          rcases List.mem_cons.mp hmem with h | h
          · exact hnoid h
          · exact hnr h
        rw [hnc]
        exact (hrows x hx).2.2 hnin he
  have hR : db1.reservations =
        reactivate_reservations ids
          (now + RESERVATION_REACTIVATION_TTL_MINUTES)
          (mark_reservations_expired ids now dbk.reservations) →
      db1.variants = dbk.variants → db1.items = dbk.items →
      added = 0 →
      expire_core_inv db0 now rest db1 (acc + added) := by
    intro hres hv hi hadd
    subst hadd
    have hagree : ∀ x ∈ db0.reservations, ids.contains x.id = true → f x = x ∧
        expiring_row now x ∧ x.orderId = oid := by
      intro x hx hc
      rcases (hgmem x).mp ((hid x hx).mp hc) with ⟨_, he, ho⟩
      exact ⟨(hrows x hx).2.1 (by rw [ho]; exact List.mem_cons_self _ _) he,
        he, ho⟩
    have hres2 : db1.reservations = db0.reservations.map
        fun x => if ids.contains x.id then
          react_row (now + RESERVATION_REACTIVATION_TTL_MINUTES) x
        else f x := by
      rw [hres, reactivate_mark, hmap, List.map_map]
      refine List.map_congr_left fun x hx => ?_
      show (if ids.contains (f x).id then
          react_row (now + RESERVATION_REACTIVATION_TTL_MINUTES) (f x)
        else f x) = _
      rw [hfid x hx]
      by_cases hc : ids.contains x.id = true
      · rw [if_pos hc, if_pos hc, (hagree x hx hc).1]
      · rw [if_neg hc, if_neg hc]
    refine ⟨(List.nodup_cons.mp hndo).2, hv.trans hvar, hi.trans hitems,
      ?_, ?_⟩
    · rw [hres2, ← List.countP_eq_length_filter,
        ← List.countP_eq_length_filter, List.countP_map]
      have hsame : List.countP
          ((fun r => decide (r.status = "expired")) ∘
            fun x => if ids.contains x.id then
              react_row (now + RESERVATION_REACTIVATION_TTL_MINUTES) x
            else f x) db0.reservations
          = List.countP
            ((fun r => decide (r.status = "expired")) ∘ f)
            db0.reservations := by
        refine countP_congr_mem _ _ db0.reservations fun x hx => ?_
        by_cases hc : ids.contains x.id = true
        · rcases hagree x hx hc with ⟨hfx, he, _⟩
          show decide ((if ids.contains x.id then
              react_row (now + RESERVATION_REACTIVATION_TTL_MINUTES) x
            else f x).status = "expired") = decide ((f x).status = "expired")
          rw [if_pos hc, hfx]
          rcases (expiring_row_iff now x).mp he with ⟨ha, _⟩
          have hxa : x.status = "active" := ha
          rw [hxa]
          rfl
        · show decide ((if ids.contains x.id then
              react_row (now + RESERVATION_REACTIVATION_TTL_MINUTES) x
            else f x).status = "expired") = decide ((f x).status = "expired")
          rw [if_neg hc]
      rw [hsame]
      have hfpart : List.countP
          ((fun r => decide (r.status = "expired")) ∘ f) db0.reservations
          = List.countP (fun r => decide (r.status = "expired"))
              db0.reservations + acc := by
        rw [← List.countP_map, ← hmap, List.countP_eq_length_filter,
          List.countP_eq_length_filter]
        exact hcount
      rw [hfpart]
      omega
    · refine ⟨fun x => if ids.contains x.id then
          react_row (now + RESERVATION_REACTIVATION_TTL_MINUTES) x
        else f x, hres2, fun x hx => ?_⟩
      dsimp only
      by_cases hc : ids.contains x.id = true
      · rcases hagree x hx hc with ⟨hfx, he, ho⟩
        refine ⟨fun hne => absurd he hne, fun hr _ => ?_, fun _ _ => ?_⟩
        · exact absurd (by rw [← ho]; exact hr : oid ∈ rest)
            (List.nodup_cons.mp hndo).1
        · rw [if_pos hc]
          exact Or.inr rfl
      · have hng : x ∉ g := fun hxg => hc ((hid x hx).mpr hxg)
        have hnc : (if ids.contains x.id then
            react_row (now + RESERVATION_REACTIVATION_TTL_MINUTES) x
          else f x) = f x := by rw [if_neg hc]
        refine ⟨fun hne => by rw [hnc]; exact (hrows x hx).1 hne,
          fun hr he => by
            rw [hnc]
            exact (hrows x hx).2.1 (List.mem_cons_of_mem _ hr) he,
          fun hnr he => ?_⟩
        have hnoid : x.orderId ≠ oid :=
          fun ho => hng ((hgmem x).mpr ⟨hx, he, ho⟩)
        have hnin : x.orderId ∉ oid :: rest := by
          intro hmem
          rcases List.mem_cons.mp hmem with h | h
          · exact hnoid h
          · exact hnr h
        rw [hnc]
        exact (hrows x hx).2.2 hnin he
  obtain ⟨o, hfind, hemp, hbr⟩ :=
    process_order_group_cases now oid g db0 dbk db1 added hproc
  rcases hbr with ⟨_, hdb, hn⟩ | ⟨_, _, hdb, hn⟩ |
    ⟨_, _, _, hdb, hn⟩ | ⟨_, _, _, hdb, hn⟩
  · exact hM (by rw [hdb]) (by rw [hdb]) (by rw [hdb]) hn
  · exact hM (by rw [hdb]) (by rw [hdb]) (by rw [hdb]) hn
  · exact hR (by rw [hdb]) (by rw [hdb]) (by rw [hdb]) hn
  · exact hM (by rw [hdb]) (by rw [hdb]) (by rw [hdb]) hn

lemma expire_core (now : ℤ) (db db' : DB) (n : ℕ)
    (hnd : (db.reservations.map fun r => r.id).Nodup)
    (h : expire_active_reservations now db = .ok (db', n)) :
    expire_core_inv db now [] db' n := by
  refine expire_ind now db db' n h (expire_core_inv db now)
    (expire_core_step db now hnd) ?_ ?_
  · refine ⟨first_occurrences_nodup _, rfl, rfl, by omega, id,
      (List.map_id _).symm, ?_⟩
    intro x hx
    refine ⟨fun _ => rfl, fun _ _ => rfl, fun hno he => ?_⟩
    exfalso
    apply hno
    refine first_occurrences_complete _ _ (List.mem_map_of_mem _ ?_)
    rw [(List.perm_insertionSort res_order _).mem_iff]
    refine List.mem_filter.mpr ⟨hx, ?_⟩
    simp only [decide_eq_true_eq]
    exact (expiring_row_iff now x).mp he
  · intro hemp
    refine ⟨List.nodup_nil, rfl, rfl, by omega, id,
      (List.map_id _).symm, ?_⟩
    intro x hx
    refine ⟨fun _ => rfl,
      fun hmem _ => absurd hmem (List.not_mem_nil _), fun _ he => ?_⟩
    exfalso
    have hx2 : x ∈ (db.reservations.filter fun r =>
        r.status = "active" ∧ r.expiresAt ≤ now).insertionSort res_order := by
      rw [(List.perm_insertionSort res_order _).mem_iff]
      refine List.mem_filter.mpr ⟨hx, ?_⟩
      simp only [decide_eq_true_eq]
      exact (expiring_row_iff now x).mp he
    rw [List.isEmpty_iff] at hemp
    rw [hemp] at hx2
    exact List.not_mem_nil x hx2

lemma expire_variants_eq (now : ℤ) (db db' : DB) (n : ℕ)
    (hnd : (db.reservations.map fun r => r.id).Nodup)
    (h : expire_active_reservations now db = .ok (db', n)) :
    db'.variants = db.variants :=
  (expire_core now db db' n hnd h).2.1

lemma expire_items_eq (now : ℤ) (db db' : DB) (n : ℕ)
    (hnd : (db.reservations.map fun r => r.id).Nodup)
    (h : expire_active_reservations now db = .ok (db', n)) :
    db'.items = db.items :=
  (expire_core now db db' n hnd h).2.2.1

lemma expire_count_eq (now : ℤ) (db db' : DB) (n : ℕ)
    (hnd : (db.reservations.map fun r => r.id).Nodup)
    (h : expire_active_reservations now db = .ok (db', n)) :
    (db'.reservations.filter fun r => r.status = "expired").length
      = (db.reservations.filter fun r => r.status = "expired").length + n :=
  (expire_core now db db' n hnd h).2.2.2.1

/-- After the sweep, every reservation row is untouched (and was not an
expiring row), or was expiring and is now marked expired or reactivated. -/
lemma expire_rows_rel (now : ℤ) (db db' : DB) (n : ℕ)
    (hnd : (db.reservations.map fun r => r.id).Nodup)
    (h : expire_active_reservations now db = .ok (db', n)) :
    ∃ f : StockReservation → StockReservation,
      db'.reservations = db.reservations.map f ∧
      ∀ x ∈ db.reservations,
        (¬ expiring_row now x → f x = x) ∧
        (expiring_row now x →
          f x = mark_row now x ∨
          f x = react_row (now + RESERVATION_REACTIVATION_TTL_MINUTES) x) := by
  obtain ⟨f, hmap, hrows⟩ := (expire_core now db db' n hnd h).2.2.2.2
  exact ⟨f, hmap, fun x hx => ⟨(hrows x hx).1,
    fun he => (hrows x hx).2.2 (List.not_mem_nil _) he⟩⟩

lemma expire_ids_eq (now : ℤ) (db db' : DB) (n : ℕ)
    (hnd : (db.reservations.map fun r => r.id).Nodup)
    (h : expire_active_reservations now db = .ok (db', n)) :
    db'.reservations.map (fun r => r.id)
      = db.reservations.map fun r => r.id := by
  obtain ⟨f, hmap, hrows⟩ := expire_rows_rel now db db' n hnd h
  rw [hmap, List.map_map]
  refine List.map_congr_left fun x hx => ?_
  by_cases he : expiring_row now x
  · rcases (hrows x hx).2 he with hf | hf <;> rw [Function.comp_apply, hf] <;>
      rfl
  · rw [Function.comp_apply, (hrows x hx).1 he]

/-- After the sweep, every remaining active reservation is fresh. -/
lemma expire_fresh (now : ℤ) (db db' : DB) (n : ℕ)
    (hnd : (db.reservations.map fun r => r.id).Nodup)
    (h : expire_active_reservations now db = .ok (db', n)) :
    ∀ r ∈ db'.reservations, r.status = "active" → now < r.expiresAt := by
  obtain ⟨f, hmap, hrows⟩ := expire_rows_rel now db db' n hnd h
  intro r hr hact
  rw [hmap] at hr
  rcases List.mem_map.mp hr with ⟨x, hx, hfx⟩
  have hpos : (0 : ℤ) < RESERVATION_REACTIVATION_TTL_MINUTES := by
    unfold RESERVATION_REACTIVATION_TTL_MINUTES
    norm_num
  by_cases he : expiring_row now x
  · rcases (hrows x hx).2 he with hf | hf
    · rw [hf] at hfx
      rw [← hfx] at hact
      exact absurd hact (by intro hc; simp [mark_row] at hc)
    · rw [hf] at hfx
      rw [← hfx]
      show now < now + RESERVATION_REACTIVATION_TTL_MINUTES
      linarith
  · rw [(hrows x hx).1 he] at hfx
    subst hfx
    rw [expiring_row_iff, not_and_or] at he
    rcases he with he | he
    · exact absurd hact he
    · exact lt_of_not_le he

/-- The sweep changes no consumed quantity. -/
lemma expire_consumed_eq (now : ℤ) (db db' : DB) (n : ℕ)
    (hnd : (db.reservations.map fun r => r.id).Nodup)
    (h : expire_active_reservations now db = .ok (db', n)) :
    ∀ vid : ℕ, consumed_quantity db'.reservations vid
      = consumed_quantity db.reservations vid := by
  obtain ⟨f, hmap, hrows⟩ := expire_rows_rel now db db' n hnd h
  intro vid
  rw [consumed_quantity_eq, consumed_quantity_eq, hmap, List.map_map]
  refine congrArg List.sum (List.map_congr_left fun x hx => ?_)
  rw [Function.comp_apply]
  by_cases he : expiring_row now x
  · have hact : x.status = "active" := ((expiring_row_iff now x).mp he).1
    rcases (hrows x hx).2 he with hf | hf <;> rw [hf] <;>
      simp [cons_contrib, mark_row, react_row, hact]
  · rw [(hrows x hx).1 he]

/-- **C4**: `expire_active_reservations` settles every expiring group by
this case analysis. After the group is marked expired (status expired,
released_at = now, reason reservation_expired), reservations of a
non-submitted order stay expired and are counted; for a submitted order
whose expiring reservations all have reactivation_count below the
maximum and whose items all still fit available stock, every group row
is reverted to active with reactivation_count incremented, expires_at =
now + 12 hours and released_at/consumed_at/reason cleared, excluded from
the count; otherwise the order is set to cancelled with cancelled_at
stamped and all its pending payments are set to cancelled with
provider_status order_cancelled_reservation_expired, the group counting
as expired. The sweep returns exactly the number of reservations that
ended up expired. -/
theorem C4_expire_reservations_case_analysis :
    (∀ (now : ℤ) (oid : ℕ) (g : List StockReservation) (snap db db1 : DB)
        (n : ℕ),
      process_order_group now oid g snap db = .ok (db1, n) →
      ∃ o, db.orders.find? (fun x => x.id = oid) = some o ∧
        ((o.status ≠ "submitted" ∧
            db1 = { db with
                reservations := db.reservations.map fun r =>
                  if (g.map fun x => x.id).contains r.id then mark_row now r
                  else r } ∧
            n = g.length) ∨
         (o.status = "submitted" ∧
            ¬ (g.all fun r =>
                r.reactivationCount < MAX_RESERVATION_REACTIVATIONS) = true ∧
            db1 = { db with
                reservations := db.reservations.map fun r =>
                  if (g.map fun x => x.id).contains r.id then mark_row now r
                  else r
                orders := cancel_order_row oid now db.orders
                payments :=
                  cancel_pending_payments_for_order oid now db.payments } ∧
            n = g.length) ∨
         (o.status = "submitted" ∧
            (g.all fun r =>
              r.reactivationCount < MAX_RESERVATION_REACTIVATIONS) = true ∧
            check_all_items_fit now snap
              ((items_of db oid).insertionSort item_order) = .ok true ∧
            db1 = { db with
                reservations := db.reservations.map fun r =>
                  if (g.map fun x => x.id).contains r.id then
                    react_row (now + RESERVATION_REACTIVATION_TTL_MINUTES) r
                  else r } ∧
            n = 0) ∨
         (o.status = "submitted" ∧
            (g.all fun r =>
              r.reactivationCount < MAX_RESERVATION_REACTIVATIONS) = true ∧
            check_all_items_fit now snap
              ((items_of db oid).insertionSort item_order) = .ok false ∧
            db1 = { db with
                reservations := db.reservations.map fun r =>
                  if (g.map fun x => x.id).contains r.id then mark_row now r
                  else r
                orders := cancel_order_row oid now db.orders
                payments :=
                  cancel_pending_payments_for_order oid now db.payments } ∧
            n = g.length))) ∧
    (∀ (now : ℤ) (db db' : DB) (n : ℕ),
      (db.reservations.map fun r => r.id).Nodup →
      expire_active_reservations now db = .ok (db', n) →
      (db'.reservations.filter fun r => r.status = "expired").length
        = (db.reservations.filter fun r => r.status = "expired").length
          + n) := by
  constructor
  · intro now oid g snap db db1 n h
    obtain ⟨o, hfind, _, hbr⟩ :=
      process_order_group_cases now oid g snap db db1 n h
    refine ⟨o, hfind, ?_⟩
    rcases hbr with ⟨hs, hdb, hn⟩ | ⟨hs, hpol, hdb, hn⟩ |
      ⟨hs, hpol, hfit, hdb, hn⟩ | ⟨hs, hpol, hfit, hdb, hn⟩
    · exact Or.inl ⟨hs, hdb, hn⟩
    · exact Or.inr (Or.inl ⟨hs, hpol, hdb, hn⟩)
    · rw [reactivate_mark] at hdb
      exact Or.inr (Or.inr (Or.inl ⟨hs, hpol, hfit, hdb, hn⟩))
    · exact Or.inr (Or.inr (Or.inr ⟨hs, hpol, hfit, hdb, hn⟩))
  · intro now db db' n hnd h
    exact expire_count_eq now db db' n hnd h

/-- One already-expired active reservation of draft order 10. -/
def C4_res : StockReservation :=
  { id := 1, orderId := 10, orderItemId := 5, variantId := 1, quantity := 2,
    status := "active", reactivationCount := 0, expiresAt := -1,
    consumedAt := none, releasedAt := none, reason := none }

/-- The draft order 10 owning `C4_res`. -/
def C4_o : Order :=
  { id := 10, userId := 1, status := "draft", currency := "ARS",
    subtotal := 200, discountTotal := 0, totalAmount := 200,
    pricingFrozen := false, pricingFrozenAt := none, submittedAt := none,
    paidAt := none, cancelledAt := none }

/-- The single item behind `C4_res`. -/
def C4_it : OrderItem :=
  { id := 5, orderId := 10, productId := 1, variantId := 1, quantity := 2,
    unitPrice := 100, discountId := none, discountAmount := 0,
    finalUnitPrice := 100, lineTotal := 200 }

/-- The stocked variant 1. -/
def C4_var : Variant :=
  { id := 1, productId := 1, price := 100, stock := 10, isActive := true }

/-- State with the expired reservation of the draft order. -/
def C4_db : DB :=
  { variants := [C4_var], products := [], orders := [C4_o], items := [C4_it],
    reservations := [C4_res], payments := [], webhookEvents := [],
    discounts := [], nextReservationId := 100, nextPaymentId := 100,
    nextOrderId := 100, nextItemId := 100 }

/-- The result of settling the group `[C4_res]` at time 0. -/
def C4_pout : DB × ℕ :=
  match process_order_group 0 10 [C4_res] C4_db C4_db with
  | .ok x => x
  | .error _ => (C4_db, 0)

/-- The result of the full sweep at time 0. -/
def C4_eout : DB × ℕ :=
  match expire_active_reservations 0 C4_db with
  | .ok x => x
  | .error _ => (C4_db, 0)

/-- Witness for C4: the draft order keeps its expired reservation (first
branch of the case analysis) and the sweep returns the number of rows
that ended up expired. -/
theorem C4_expire_reservations_case_analysis_witness :
    (
      ∃ o, C4_db.orders.find? (fun x => x.id = 10) = some o ∧
        ((o.status ≠ "submitted" ∧
            C4_pout.1 = { C4_db with
                reservations := C4_db.reservations.map fun r =>
                  if ([C4_res].map fun x => x.id).contains r.id then mark_row 0 r
                  else r } ∧
            C4_pout.2 = [C4_res].length) ∨
         (o.status = "submitted" ∧
            ¬ ([C4_res].all fun r =>
                r.reactivationCount < MAX_RESERVATION_REACTIVATIONS) = true ∧
            C4_pout.1 = { C4_db with
                reservations := C4_db.reservations.map fun r =>
                  if ([C4_res].map fun x => x.id).contains r.id then mark_row 0 r
                  else r
                orders := cancel_order_row 10 0 C4_db.orders
                payments :=
                  cancel_pending_payments_for_order 10 0 C4_db.payments } ∧
            C4_pout.2 = [C4_res].length) ∨
         (o.status = "submitted" ∧
            ([C4_res].all fun r =>
              r.reactivationCount < MAX_RESERVATION_REACTIVATIONS) = true ∧
            check_all_items_fit 0 C4_db
              ((items_of C4_db 10).insertionSort item_order) = .ok true ∧
            C4_pout.1 = { C4_db with
                reservations := C4_db.reservations.map fun r =>
                  if ([C4_res].map fun x => x.id).contains r.id then
                    react_row (0 + RESERVATION_REACTIVATION_TTL_MINUTES) r
                  else r } ∧
            C4_pout.2 = 0) ∨
         (o.status = "submitted" ∧
            ([C4_res].all fun r =>
              r.reactivationCount < MAX_RESERVATION_REACTIVATIONS) = true ∧
            check_all_items_fit 0 C4_db
              ((items_of C4_db 10).insertionSort item_order) = .ok false ∧
            C4_pout.1 = { C4_db with
                reservations := C4_db.reservations.map fun r =>
                  if ([C4_res].map fun x => x.id).contains r.id then mark_row 0 r
                  else r
                orders := cancel_order_row 10 0 C4_db.orders
                payments :=
                  cancel_pending_payments_for_order 10 0 C4_db.payments } ∧
            C4_pout.2 = [C4_res].length))) ∧
    ((C4_eout.1.reservations.filter fun r => r.status = "expired").length
      = (C4_db.reservations.filter fun r => r.status = "expired").length
        + C4_eout.2) := by
  constructor
  · exact C4_expire_reservations_case_analysis.1 0 10 [C4_res] C4_db C4_db
      C4_pout.1 C4_pout.2 (by with_unfolding_all rfl)
  · exact C4_expire_reservations_case_analysis.2 0 C4_db C4_eout.1 C4_eout.2
      (by decide) (by with_unfolding_all rfl)

/-! ## C6: consumption decrements stock only through the guarded update -/

/-- The per-row effect of marking one reservation consumed. -/
def consume_row (now : ℤ) (r : StockReservation) : StockReservation :=
  { r with
      status := "consumed"
      consumedAt := some now
      reason := some "order_paid" }

lemma forall₂_imp_mem {α β : Type} {R S : α → β → Prop} :
    ∀ {l₁ : List α} {l₂ : List β}, List.Forall₂ R l₁ l₂ →
      (∀ a ∈ l₁, ∀ b ∈ l₂, R a b → S a b) → List.Forall₂ S l₁ l₂ := by
  intro l₁ l₂ h
  induction h with
  | nil => intro _; exact List.Forall₂.nil
  | cons hab htail ih =>
      intro hmem
      refine List.Forall₂.cons
        (hmem _ (List.mem_cons_self _ _) _ (List.mem_cons_self _ _) hab)
        (ih fun a ha b hb hr =>
          hmem a (List.mem_cons_of_mem _ ha) b (List.mem_cons_of_mem _ hb) hr)

/-- Marking one active row consumed adds exactly its quantity to the
consumed total of its variant. -/
lemma consumed_quantity_flip (now : ℤ) (r : StockReservation) (vid : ℕ) :
    ∀ l : List StockReservation, l.Nodup → r ∈ l →
      (∀ x ∈ l, x.id = r.id → x = r) → r.status = "active" →
      consumed_quantity (l.map fun x =>
          if x.id = r.id then consume_row now x else x) vid
        = consumed_quantity l vid +
          (if r.variantId = vid then r.quantity else 0) := by
  intro l
  induction l with
  | nil => intro _ hr; cases hr
  | cons a l ih =>
      intro hnd hr hinj hact
      rw [consumed_quantity_eq, consumed_quantity_eq] at ih ⊢
      rw [List.map_cons, List.map_cons, List.map_cons, List.sum_cons,
        List.sum_cons]
      rcases List.mem_cons.mp hr with ha | hrl
      · subst ha
        rw [if_pos rfl]
        have htail : ∀ x ∈ l, x.id ≠ r.id := by
          intro x hx hxid
          have hxa := hinj x (List.mem_cons_of_mem _ hx) hxid
          subst hxa
          exact (List.nodup_cons.mp hnd).1 hx
        have hmapid : l.map (fun x => if x.id = r.id then consume_row now x
            else x) = l := by
          have h1 : l.map (fun x => if x.id = r.id then consume_row now x
              else x) = l.map id :=
            List.map_congr_left fun x hx => by rw [if_neg (htail x hx)]; rfl
          rw [h1, List.map_id]
        rw [hmapid]
        have hca : cons_contrib vid (consume_row now r)
            = if r.variantId = vid then r.quantity else 0 := by
          by_cases hv : r.variantId = vid
          · rw [if_pos hv]
            show (if (consume_row now r).variantId = vid ∧
              (consume_row now r).status = "consumed" then
                (consume_row now r).quantity else 0) = r.quantity
            rw [if_pos (show (consume_row now r).variantId = vid ∧
              (consume_row now r).status = "consumed" from ⟨hv, rfl⟩)]
            rfl
          · rw [if_neg hv]
            show (if (consume_row now r).variantId = vid ∧
              (consume_row now r).status = "consumed" then
                (consume_row now r).quantity else 0) = 0
            have hnc : ¬ ((consume_row now r).variantId = vid ∧
                (consume_row now r).status = "consumed") :=
              fun hc => hv hc.1
            rw [if_neg hnc]
        have hcaa : cons_contrib vid r = 0 := by
          show (if r.variantId = vid ∧ r.status = "consumed" then
            r.quantity else 0) = 0
          have hnc : ¬ (r.variantId = vid ∧ r.status = "consumed") := by
            intro hc
            rw [hact] at hc
            exact absurd hc.2 (by decide)
          rw [if_neg hnc]
        rw [hca, hcaa]
        ring
      · have hane : a ≠ r := by
          intro hae
          subst hae
          exact (List.nodup_cons.mp hnd).1 hrl
        have haid : a.id ≠ r.id := by
          intro haid
          exact hane (hinj a (List.mem_cons_self _ _) haid)
        rw [if_neg haid]
        rw [ih (List.nodup_cons.mp hnd).2 hrl
          (fun x hx hxid => hinj x (List.mem_cons_of_mem _ hx) hxid) hact]
        ring

/-- The guarded-update loop of consumption: each processed reservation
decrements its variant's stock by exactly the newly consumed quantity,
and a decremented stock stays non-negative because the guard required
quantity ≤ stock. -/
lemma consume_go_spec (now : ℤ) :
    ∀ (actives : List StockReservation) (db db' : DB),
      consume_reservations_go now actives db = .ok db' →
      (db.variants.map fun v => v.id).Nodup →
      (db.reservations.map fun r => r.id).Nodup →
      (actives.map fun r => r.id).Nodup →
      (∀ r ∈ actives, r ∈ db.reservations ∧ r.status = "active") →
      List.Forall₂ (fun v v' =>
        v'.id = v.id ∧ v'.productId = v.productId ∧ v'.price = v.price ∧
        v'.isActive = v.isActive ∧
        v'.stock = v.stock -
          (consumed_quantity db'.reservations v.id
            - consumed_quantity db.reservations v.id) ∧
        (v'.stock = v.stock ∨ 0 ≤ v'.stock)) db.variants db'.variants := by
  intro actives
  induction actives with
  | nil =>
      intro db db' h hndv hndr hnda hall
      unfold consume_reservations_go at h
      simp only [Except.ok.injEq] at h
      subst h
      exact List.forall₂_same.mpr fun v hv =>
        ⟨rfl, rfl, rfl, rfl, by ring, Or.inl rfl⟩
  | cons r rest ih =>
      intro db db' h hndv hndr hnda hall
      unfold consume_reservations_go at h
      dsimp only at h
      by_cases hlen : (db.variants.filter fun v =>
          v.id = r.variantId ∧ r.quantity ≤ v.stock).length ≠ 1
      · rw [if_pos hlen] at h
        exact Except.noConfusion h
      · rw [if_neg hlen] at h
        have hlen1 : (db.variants.filter fun v =>
            v.id = r.variantId ∧ r.quantity ≤ v.stock).length = 1 :=
          not_not.mp hlen
        have hmex : ∃ m, m ∈ db.variants.filter fun v =>
            v.id = r.variantId ∧ r.quantity ≤ v.stock := by
          rcases hfe : db.variants.filter fun v =>
              v.id = r.variantId ∧ r.quantity ≤ v.stock with _ | ⟨m, t⟩
          · rw [hfe] at hlen1
            exact absurd hlen1 (by simp)
          · exact ⟨m, by rw [hfe]; exact List.mem_cons_self _ _⟩
        obtain ⟨m, hm⟩ := hmex
        rw [List.mem_filter] at hm
        have hmprop : m.id = r.variantId ∧ r.quantity ≤ m.stock := by
          have h2 := hm.2
          simpa using h2
        have hvinj := List.inj_on_of_nodup_map hndv
        have hguard : ∀ v ∈ db.variants, v.id = r.variantId →
            r.quantity ≤ v.stock := by
          intro v hv hvid
          have hvm : v = m := hvinj hv hm.1 (by rw [hvid, hmprop.1])
          rw [hvm]
          exact hmprop.2
        have hrinj := List.inj_on_of_nodup_map hndr
        have hrdb := (hall r (List.mem_cons_self _ _)).1
        have hract := (hall r (List.mem_cons_self _ _)).2
        rw [List.map_cons, List.nodup_cons] at hnda
        have hndv2 : (((db.variants.map fun v =>
            if v.id = r.variantId ∧ r.quantity ≤ v.stock then
              { v with stock := v.stock - r.quantity }
            else v)).map fun v => v.id) = db.variants.map fun v => v.id := by
          rw [List.map_map]
          refine List.map_congr_left fun v hv => ?_
          rw [Function.comp_apply]
          by_cases hc : v.id = r.variantId ∧ r.quantity ≤ v.stock
          · rw [if_pos hc]
          · rw [if_neg hc]
        have hndr2 : ((db.reservations.map fun x =>
            if x.id = r.id then consume_row now x else x).map
              fun x => x.id) = db.reservations.map fun x => x.id := by
          rw [List.map_map]
          refine List.map_congr_left fun x hx => ?_
          rw [Function.comp_apply]
          by_cases hc : x.id = r.id
          · rw [if_pos hc]
            rfl
          · rw [if_neg hc]
        have hall2 : ∀ s ∈ rest,
            s ∈ db.reservations.map (fun x =>
              if x.id = r.id then consume_row now x else x) ∧
            s.status = "active" := by
          intro s hs
          have hsdb := (hall s (List.mem_cons_of_mem _ hs)).1
          have hsid : s.id ≠ r.id := by
            intro he
            exact hnda.1 (he ▸ List.mem_map_of_mem _ hs)
          exact ⟨List.mem_map.mpr ⟨s, hsdb, by rw [if_neg hsid]⟩,
            (hall s (List.mem_cons_of_mem _ hs)).2⟩
        have hforall := ih _ db' h
          (by
            show ((db.variants.map fun v =>
                if v.id = r.variantId ∧ r.quantity ≤ v.stock then
                  { v with stock := v.stock - r.quantity }
                else v).map fun v => v.id).Nodup
            rw [hndv2]
            exact hndv)
          (by
            show ((db.reservations.map fun x =>
                if x.id = r.id then consume_row now x else x).map
                  fun x => x.id).Nodup
            rw [hndr2]
            exact hndr)
          hnda.2 hall2
        have hforall2 : List.Forall₂ (fun v v' =>
            v'.id = v.id ∧ v'.productId = v.productId ∧ v'.price = v.price ∧
            v'.isActive = v.isActive ∧
            v'.stock = v.stock -
              (consumed_quantity db'.reservations v.id
                - consumed_quantity (db.reservations.map fun x =>
                    if x.id = r.id then consume_row now x else x) v.id) ∧
            (v'.stock = v.stock ∨ 0 ≤ v'.stock))
            (db.variants.map fun v =>
              if v.id = r.variantId ∧ r.quantity ≤ v.stock then
                { v with stock := v.stock - r.quantity }
              else v) db'.variants := hforall
        have hflip : consumed_quantity (db.reservations.map fun x =>
            if x.id = r.id then consume_row now x else x)
            = fun vid => consumed_quantity db.reservations vid +
              (if r.variantId = vid then r.quantity else 0) := by
          funext vid
          exact consumed_quantity_flip now r vid db.reservations
            (List.Nodup.of_map _ hndr) hrdb
            (fun x hx hxid => hrinj hx hrdb hxid) hract
        have hfl2 : ∀ vid : ℕ, consumed_quantity (db.reservations.map fun x =>
            if x.id = r.id then consume_row now x else x) vid
            = consumed_quantity db.reservations vid +
              (if r.variantId = vid then r.quantity else 0) := by
          intro vid
          rw [hflip]
        rw [List.forall₂_map_left_iff] at hforall2
        refine forall₂_imp_mem hforall2 ?_
        intro v hv v' hv' hR
        by_cases hvc : v.id = r.variantId ∧ r.quantity ≤ v.stock
        · rw [if_pos hvc] at hR
          obtain ⟨h1, h2, h3, h4, h5, h6⟩ := hR
          refine ⟨h1, h2, h3, h4, ?_, ?_⟩
          · have h5' : v'.stock = (v.stock - r.quantity) -
                (consumed_quantity db'.reservations v.id -
                  consumed_quantity (db.reservations.map fun x =>
                    if x.id = r.id then consume_row now x else x) v.id) := h5
            rw [hfl2 v.id, if_pos hvc.1.symm] at h5'
            rw [h5']
            ring
          · rcases h6 with h6 | h6
            · have h6' : v'.stock = v.stock - r.quantity := h6
              refine Or.inr ?_
              rw [h6']
              have := hvc.2
              omega
            · exact Or.inr h6
        · rw [if_neg hvc] at hR
          obtain ⟨h1, h2, h3, h4, h5, h6⟩ := hR
          have hne : v.id ≠ r.variantId := fun he => hvc ⟨he, hguard v hv he⟩
          refine ⟨h1, h2, h3, h4, ?_, h6⟩
          have h5' : v'.stock = v.stock -
              (consumed_quantity db'.reservations v.id -
                consumed_quantity (db.reservations.map fun x =>
                  if x.id = r.id then consume_row now x else x) v.id) := h5
          rw [hfl2 v.id, if_neg fun he => hne he.symm] at h5'
          rw [h5']
          ring

/-- **C6**: `consume_reservations_for_paid_order` changes variant stocks
only through the guarded decrement (`UPDATE … WHERE stock ≥ qty`, exactly
one row, else the insufficient-stock error aborts the whole call): on
success each variant's stock drops by exactly the quantity newly marked
consumed on it, every other variant field is untouched, and a variant
whose stock changed at all ends non-negative — consumption never drives
stock below zero. -/
theorem C6_consume_decrements_through_guard :
    ∀ (db db' : DB) (oid : ℕ) (now : ℤ) (res : List StockReservation),
      (db.variants.map fun v => v.id).Nodup →
      (db.reservations.map fun r => r.id).Nodup →
      consume_reservations_for_paid_order oid now db = .ok (db', res) →
      List.Forall₂ (fun v v' =>
        v'.id = v.id ∧ v'.productId = v.productId ∧ v'.price = v.price ∧
        v'.isActive = v.isActive ∧
        v'.stock = v.stock -
          (consumed_quantity db'.reservations v.id
            - consumed_quantity db.reservations v.id) ∧
        (v'.stock = v.stock ∨ 0 ≤ v'.stock)) db.variants db'.variants := by
  intro db db' oid now res hndv hndr h
  unfold consume_reservations_for_paid_order at h
  rcases hexp : expire_active_reservations now db with e | ⟨db1, n1⟩
  · rw [hexp, error_bind] at h
    exact Except.noConfusion h
  · rw [hexp, ok_bind] at h
    dsimp only at h
    have hv1 := expire_variants_eq now db db1 n1 hndr hexp
    have hids1 := expire_ids_eq now db db1 n1 hndr hexp
    have hcq1 := expire_consumed_eq now db db1 n1 hndr hexp
    have hndv1 : (db1.variants.map fun v => v.id).Nodup := by
      rw [hv1]; exact hndv
    have hndr1 : (db1.reservations.map fun r => r.id).Nodup := by
      rw [hids1]; exact hndr
    unfold lock_order_items_for_order at h
    rcases hord : db1.orders.find? fun q => q.id = oid with _ | o
    · rw [hord] at h
      dsimp only at h
      rw [error_bind] at h
      exact Except.noConfusion h
    · rw [hord] at h
      dsimp only at h
      rcases hemp : ((items_of db1 oid).insertionSort item_order).isEmpty
          with _ | _
      · rw [hemp] at h
        rw [if_neg (by simp)] at h
        rw [ok_bind] at h
        dsimp only at h
        by_cases hst : o.status ≠ "submitted" ∧ o.status ≠ "paid"
        · rw [if_pos hst] at h
          exact Except.noConfusion h
        · rw [if_neg hst] at h
          rcases hae : ((db1.reservations.filter fun r =>
              r.orderId = oid ∧ r.status = "active").insertionSort
                res_id_order).isEmpty with _ | _
          · rw [hae] at h
            rw [if_neg (by simp)] at h
            rcases hgo : consume_reservations_go now
                ((db1.reservations.filter fun r =>
                  r.orderId = oid ∧ r.status = "active").insertionSort
                    res_id_order) db1 with e | db2
            · rw [hgo, error_bind] at h
              exact Except.noConfusion h
            · rw [hgo, ok_bind] at h
              simp only [Except.ok.injEq, Prod.mk.injEq] at h
              obtain ⟨hdb, hres⟩ := h
              subst hdb
              have hperm := List.perm_insertionSort res_id_order
                (db1.reservations.filter fun r =>
                  r.orderId = oid ∧ r.status = "active")
              have hnda : (((db1.reservations.filter fun r =>
                  r.orderId = oid ∧ r.status = "active").insertionSort
                    res_id_order).map fun r => r.id).Nodup := by
                rw [(hperm.map fun r => r.id).nodup_iff]
                exact List.Nodup.sublist
                  ((List.filter_sublist db1.reservations).map fun r => r.id)
                  hndr1
              have hall : ∀ r ∈ (db1.reservations.filter fun r =>
                  r.orderId = oid ∧ r.status = "active").insertionSort
                    res_id_order,
                  r ∈ db1.reservations ∧ r.status = "active" := by
                intro r hr
                rw [hperm.mem_iff, List.mem_filter] at hr
                refine ⟨hr.1, ?_⟩
                have h2 := hr.2
                simp only [decide_eq_true_eq] at h2
                exact h2.2
              have hspec := consume_go_spec now _ db1 db2 hgo hndv1 hndr1
                hnda hall
              rw [← hv1]
              refine forall₂_imp_mem hspec ?_
              intro v hv v' hv' hR
              obtain ⟨h1, h2, h3, h4, h5, h6⟩ := hR
              refine ⟨h1, h2, h3, h4, ?_, h6⟩
              rw [← hcq1 v.id]
              exact h5
          · rw [hae] at h
            rw [if_pos rfl] at h
            by_cases hcons : ¬ ((db1.reservations.filter fun r =>
                r.orderId = oid ∧ r.status = "consumed").insertionSort
                  res_id_order).isEmpty ∧ o.status = "paid"
            · rw [if_pos hcons] at h
              simp only [Except.ok.injEq, Prod.mk.injEq] at h
              obtain ⟨hdb, hres⟩ := h
              subst hdb
              rw [← hv1]
              refine List.forall₂_same.mpr fun v hv =>
                ⟨rfl, rfl, rfl, rfl, ?_, Or.inl rfl⟩
              rw [hcq1 v.id]
              ring
            · rw [if_neg hcons] at h
              exact Except.noConfusion h
      · rw [hemp] at h
        rw [if_pos rfl] at h
        rw [error_bind] at h
        exact Except.noConfusion h

/-- The active fresh reservation of order 20 about to be consumed. -/
def C6_res : StockReservation :=
  { id := 1, orderId := 20, orderItemId := 5, variantId := 1, quantity := 2,
    status := "active", reactivationCount := 0, expiresAt := 100,
    consumedAt := none, releasedAt := none, reason := none }

/-- The submitted order 20. -/
def C6_o : Order :=
  { id := 20, userId := 1, status := "submitted", currency := "ARS",
    subtotal := 200, discountTotal := 0, totalAmount := 200,
    pricingFrozen := true, pricingFrozenAt := some 0, submittedAt := some 0,
    paidAt := none, cancelledAt := none }

/-- The single item behind `C6_res`. -/
def C6_it : OrderItem :=
  { id := 5, orderId := 20, productId := 1, variantId := 1, quantity := 2,
    unitPrice := 100, discountId := none, discountAmount := 0,
    finalUnitPrice := 100, lineTotal := 200 }

/-- Variant 1 with stock 10 before consumption. -/
def C6_var : Variant :=
  { id := 1, productId := 1, price := 100, stock := 10, isActive := true }

/-- State right before consuming order 20's reservation. -/
def C6_db : DB :=
  { variants := [C6_var], products := [], orders := [C6_o], items := [C6_it],
    reservations := [C6_res], payments := [], webhookEvents := [],
    discounts := [], nextReservationId := 100, nextPaymentId := 100,
    nextOrderId := 100, nextItemId := 100 }

/-- The successful consumption result. -/
def C6_out : DB × List StockReservation :=
  match consume_reservations_for_paid_order 20 0 C6_db with
  | .ok x => x
  | .error _ => (C6_db, [])

/-- Witness for C6: consuming order 20's reservation of quantity 2 on a
variant with stock 10 decrements the stock by the newly consumed
quantity and keeps it non-negative. -/
theorem C6_consume_decrements_through_guard_witness :
    List.Forall₂ (fun v v' =>
      v'.id = v.id ∧ v'.productId = v.productId ∧ v'.price = v.price ∧
      v'.isActive = v.isActive ∧
      v'.stock = v.stock -
        (consumed_quantity C6_out.1.reservations v.id
          - consumed_quantity C6_db.reservations v.id) ∧
      (v'.stock = v.stock ∨ 0 ≤ v'.stock)) C6_db.variants
      C6_out.1.variants :=
  C6_consume_decrements_through_guard C6_db C6_out.1 20 0 C6_out.2
    (by decide) (by decide) (by with_unfolding_all rfl)

/-! ## C5: active non-expired reservations never exceed stock -/

/-- The claimed invariant: per variant, the reserved quantity (active,
non-expired rows) never exceeds the stock. -/
def stock_invariant (db : DB) (now : ℤ) : Prop :=
  ∀ v ∈ db.variants, reserved_quantity db.reservations v.id now ≤ v.stock

/-- Structural well-formedness of the relational state, as the schema
and the draft-order builder guarantee it: one item per (order, variant);
every active reservation mirrors its order item; at most one active
reservation per item; primary keys unique; positive item quantities. -/
def db_wf (db : DB) : Prop :=
  (∀ i ∈ db.items, ∀ j ∈ db.items,
    i.orderId = j.orderId → i.variantId = j.variantId → i = j) ∧
  (∀ r ∈ db.reservations, r.status = "active" →
    ∃ i ∈ db.items, i.id = r.orderItemId ∧ i.orderId = r.orderId ∧
      i.variantId = r.variantId ∧ i.quantity = r.quantity) ∧
  (∀ r ∈ db.reservations, ∀ s ∈ db.reservations, r.status = "active" →
    s.status = "active" → r.orderItemId = s.orderItemId → r = s) ∧
  (db.variants.map fun v => v.id).Nodup ∧
  (db.reservations.map fun r => r.id).Nodup ∧
  (db.items.map fun i => i.id).Nodup ∧
  (∀ i ∈ db.items, 0 < i.quantity)

/-- Midway through the sweep every active row still has the (positive)
quantity of an order item. -/
lemma mid_active_quantity_pos (db0 : DB) (now : ℤ) (oids : List ℕ)
    (dbk : DB) (acc : ℕ) (hwf : db_wf db0)
    (hinv : expire_core_inv db0 now oids dbk acc) :
    ∀ y ∈ dbk.reservations, y.status = "active" → 0 < y.quantity := by
  obtain ⟨_, _, _, _, f, hmap, hrows⟩ := hinv
  intro y hy hact
  rw [hmap] at hy
  rcases List.mem_map.mp hy with ⟨x, hx, hfx⟩
  have hxq : 0 < x.quantity → 0 < y.quantity := by
    intro hq
    have hyq : y.quantity = x.quantity := by
      by_cases he : expiring_row now x
      · by_cases ho : x.orderId ∈ oids
        · rw [(hrows x hx).2.1 ho he] at hfx
          rw [← hfx]
        · rcases (hrows x hx).2.2 ho he with hf | hf <;>
            rw [hf] at hfx <;> rw [← hfx] <;> rfl
      · rw [(hrows x hx).1 he] at hfx
        rw [← hfx]
    rw [hyq]
    exact hq
  have hxact : x.status = "active" := by
    by_cases he : expiring_row now x
    · exact ((expiring_row_iff now x).mp he).1
    · by_cases ho : x.orderId ∈ oids
      · by_cases he2 : expiring_row now x
        · exact ((expiring_row_iff now x).mp he2).1
        · rw [(hrows x hx).1 he2] at hfx
          rw [← hfx] at hact
          exact hact
      · rw [(hrows x hx).1 he] at hfx
        rw [← hfx] at hact
        exact hact
  obtain ⟨i, hi, _, _, _, hqi⟩ := hwf.2.1 x hx hxact
  refine hxq ?_
  rw [← hqi]
  exact hwf.2.2.2.2.2.2 i hi

/-- Marking rows expired can only shrink the reserved quantity, as long
as active rows have non-negative quantities. -/
lemma reserved_marked_le (now : ℤ) (ids : List ℕ) (vid : ℕ)
    (rs : List StockReservation)
    (hq : ∀ y ∈ rs, y.status = "active" → 0 ≤ y.quantity) :
    reserved_quantity (mark_reservations_expired ids now rs) vid now
      ≤ reserved_quantity rs vid now := by
  rw [mark_reservations_expired_eq, reserved_quantity_eq,
    reserved_quantity_eq, List.map_map]
  refine map_sum_le _ _ rs fun y hy => ?_
  rw [Function.comp_apply]
  by_cases hc : ids.contains y.id
  · rw [if_pos hc]
    have h0 : res_contrib vid now (mark_row now y) = 0 := by
      unfold res_contrib
      rw [if_neg fun hcc => absurd hcc.2.1 (by simp [mark_row])]
    rw [h0]
    unfold res_contrib
    by_cases h2 : y.variantId = vid ∧ y.status = "active" ∧ now < y.expiresAt
    · rw [if_pos h2]
      exact hq y hy h2.2.1
    · rw [if_neg h2]
  · rw [if_neg hc]

/-- Sum of a mapped function that differs from another at one position
of a duplicate-free list. -/
lemma map_sum_update_one {α : Type} [DecidableEq α] (f g : α → ℤ) (r : α) :
    ∀ l : List α, l.Nodup → r ∈ l → (∀ x ∈ l, x ≠ r → f x = g x) →
      (l.map f).sum = (l.map g).sum + (f r - g r) := by
  intro l
  induction l with
  | nil => intro _ hr; cases hr
  | cons a l ih =>
      intro hnd hr hfg
      rw [List.map_cons, List.map_cons, List.sum_cons, List.sum_cons]
      rcases List.mem_cons.mp hr with ha | hrl
      · subst ha
        have htl : l.map f = l.map g := by
          refine List.map_congr_left fun x hx => hfg x
            (List.mem_cons_of_mem _ hx) fun hxr => ?_
          subst hxr
          exact (List.nodup_cons.mp hnd).1 hx
        rw [htl]
        ring
      · have hane : a ≠ r := by
          intro hae
          subst hae
          exact (List.nodup_cons.mp hnd).1 hrl
        rw [hfg a (List.mem_cons_self _ _) hane,
          ih (List.nodup_cons.mp hnd).2 hrl
            fun x hx hxr => hfg x (List.mem_cons_of_mem _ hx) hxr]
        ring

/-- Appending reservation rows adds their contributions. -/
lemma reserved_quantity_append (rs ts : List StockReservation) (vid : ℕ)
    (now : ℤ) :
    reserved_quantity (rs ++ ts) vid now
      = reserved_quantity rs vid now + reserved_quantity ts vid now := by
  rw [reserved_quantity_eq, reserved_quantity_eq, reserved_quantity_eq,
    List.map_append, List.sum_append]

/-- The reserved quantity only shrinks as time moves forward. -/
lemma reserved_quantity_time_mono (rs : List StockReservation) (vid : ℕ)
    (now t : ℤ) (hq : ∀ r ∈ rs, r.status = "active" → 0 ≤ r.quantity)
    (hnt : now ≤ t) :
    reserved_quantity rs vid t ≤ reserved_quantity rs vid now := by
  rw [reserved_quantity_eq, reserved_quantity_eq]
  refine map_sum_le _ _ rs fun r hr => ?_
  unfold res_contrib
  by_cases hc : r.variantId = vid ∧ r.status = "active" ∧ t < r.expiresAt
  · rw [if_pos hc, if_pos ⟨hc.1, hc.2.1, lt_of_le_of_lt hnt hc.2.2⟩]
  · rw [if_neg hc]
    by_cases hc2 : r.variantId = vid ∧ r.status = "active" ∧ now < r.expiresAt
    · rw [if_pos hc2]
      exact hq r hr hc2.2.1
    · rw [if_neg hc2]

/-- A passed availability check bounds every item against the state the
check ran on. -/
lemma check_all_items_fit_spec (now : ℤ) (db : DB) :
    ∀ items : List OrderItem, check_all_items_fit now db items = .ok true →
      ∀ i ∈ items, ∃ pr : Variant × ℤ,
        available_stock_for_variant i.variantId now db = .ok pr ∧
        ¬ (pr.2 < i.quantity) := by
  intro items
  induction items with
  | nil => intro _ i hi; cases hi
  | cons a l ih =>
      intro h i hi
      unfold check_all_items_fit at h
      rcases hav : available_stock_for_variant a.variantId now db
        with e | ⟨vv, av⟩
      · rw [hav, error_bind] at h
        exact Except.noConfusion h
      · rw [hav, ok_bind] at h
        dsimp only at h
        by_cases hlt : av < a.quantity
        · rw [if_pos hlt] at h
          exact absurd h (by simp)
        · rw [if_neg hlt] at h
          rcases List.mem_cons.mp hi with hia | hil
          · subst hia
            exact ⟨(vv, av), hav, hlt⟩
          · exact ih h i hil

lemma forall₂_mem_right {α β : Type} {R : α → β → Prop} :
    ∀ {l₁ : List α} {l₂ : List β}, List.Forall₂ R l₁ l₂ →
      ∀ b ∈ l₂, ∃ a ∈ l₁, R a b := by
  intro l₁ l₂ h
  induction h with
  | nil => intro b hb; cases hb
  | cons hab htail ih =>
      intro b hb
      rcases List.mem_cons.mp hb with hb1 | hb2
      · exact ⟨_, List.mem_cons_self _ _, hb1 ▸ hab⟩
      · obtain ⟨a, ha, har⟩ := ih b hb2
        exact ⟨a, List.mem_cons_of_mem _ ha, har⟩

lemma length_le_one_of_all_eq {α : Type} :
    ∀ l : List α, l.Nodup → (∀ x ∈ l, ∀ y ∈ l, x = y) → l.length ≤ 1 := by
  intro l hnd hall
  rcases l with _ | ⟨a, _ | ⟨b, t⟩⟩
  · exact Nat.zero_le 1
  · exact le_refl 1
  · exfalso
    have hab : a = b := hall a (List.mem_cons_self _ _)
      b (List.mem_cons_of_mem _ (List.mem_cons_self _ _))
    exact (List.nodup_cons.mp hnd).1
      (hab ▸ List.mem_cons_self b t)

lemma expire_core_inv_init (db : DB) (now : ℤ) :
    expire_core_inv db now (first_occurrences
      (((db.reservations.filter fun r =>
          r.status = "active" ∧ r.expiresAt ≤ now).insertionSort
            res_order).map fun r => r.orderId)) db 0 := by
  refine ⟨first_occurrences_nodup _, rfl, rfl, by omega, id,
    (List.map_id _).symm, ?_⟩
  intro x hx
  refine ⟨fun _ => rfl, fun _ _ => rfl, fun hno he => ?_⟩
  exfalso
  apply hno
  refine first_occurrences_complete _ _ (List.mem_map_of_mem _ ?_)
  rw [(List.perm_insertionSort res_order _).mem_iff]
  refine List.mem_filter.mpr ⟨hx, ?_⟩
  simp only [decide_eq_true_eq]
  exact (expiring_row_iff now x).mp he

lemma expire_core_inv_nilo (db : DB) (now : ℤ)
    (hemp : ((db.reservations.filter fun r =>
        r.status = "active" ∧ r.expiresAt ≤ now).insertionSort
          res_order).isEmpty = true) :
    expire_core_inv db now [] db 0 := by
  refine ⟨List.nodup_nil, rfl, rfl, by omega, id,
    (List.map_id _).symm, ?_⟩
  intro x hx
  refine ⟨fun _ => rfl,
    fun hmem _ => absurd hmem (List.not_mem_nil _), fun _ he => ?_⟩
  exfalso
  have hx2 : x ∈ (db.reservations.filter fun r =>
      r.status = "active" ∧ r.expiresAt ≤ now).insertionSort res_order := by
    rw [(List.perm_insertionSort res_order _).mem_iff]
    refine List.mem_filter.mpr ⟨hx, ?_⟩
    simp only [decide_eq_true_eq]
    exact (expiring_row_iff now x).mp he
  rw [List.isEmpty_iff] at hemp
  rw [hemp] at hx2
  exact List.not_mem_nil x hx2

/-- The `SUM(quantity)` of all active reservations of a variant, stale
rows included. -/
def active_quantity (rs : List StockReservation) (vid : ℕ) : ℤ :=
  ((rs.filter fun r => r.variantId = vid ∧ r.status = "active").map
    fun r => r.quantity).sum

/-- The contribution of one reservation row to `active_quantity`. -/
def act_contrib (vid : ℕ) (r : StockReservation) : ℤ :=
  if r.variantId = vid ∧ r.status = "active" then r.quantity else 0

lemma active_quantity_eq (rs : List StockReservation) (vid : ℕ) :
    active_quantity rs vid = (rs.map (act_contrib vid)).sum := by
  induction rs with
  | nil => rfl
  | cons r rs ih =>
      simp only [active_quantity] at ih ⊢
      by_cases h : r.variantId = vid ∧ r.status = "active"
      · rw [List.filter_cons, if_pos (by simpa using h)]
        simp only [List.map_cons, List.sum_cons, ih, act_contrib]
        rw [if_pos h]
      · rw [List.filter_cons, if_neg (by simpa using h)]
        simp only [ih, act_contrib, List.map_cons, List.sum_cons]
        rw [if_neg h, zero_add]

/-- The inductive invariant behind the stock bound: the total active
quantity of every variant — stale rows included — stays within stock.
This is the quantity the sweep actually controls: its availability
aggregate runs against the unflushed sweep-entry snapshot, and a
reactivated group keeps its rows active, leaving the total active
quantity unchanged. -/
def active_reserved_invariant (db : DB) : Prop :=
  ∀ v ∈ db.variants, active_quantity db.reservations v.id ≤ v.stock

/-- At any time the reserved (active non-expired) quantity is at most
the total active quantity, as long as active rows have non-negative
quantities. -/
lemma reserved_le_active (rs : List StockReservation) (vid : ℕ) (t : ℤ)
    (hq : ∀ r ∈ rs, r.status = "active" → 0 ≤ r.quantity) :
    reserved_quantity rs vid t ≤ active_quantity rs vid := by
  rw [reserved_quantity_eq, active_quantity_eq]
  refine map_sum_le _ _ rs fun r hr => ?_
  unfold res_contrib act_contrib
  by_cases hc : r.variantId = vid ∧ r.status = "active" ∧ t < r.expiresAt
  · rw [if_pos hc, if_pos ⟨hc.1, hc.2.1⟩]
  · rw [if_neg hc]
    by_cases hc2 : r.variantId = vid ∧ r.status = "active"
    · rw [if_pos hc2]
      exact hq r hr hc2.2
    · rw [if_neg hc2]

/-- When every active row is fresh, the reserved and the total active
quantities agree. -/
lemma reserved_eq_active_of_fresh (rs : List StockReservation) (vid : ℕ)
    (now : ℤ) (hfr : ∀ r ∈ rs, r.status = "active" → now < r.expiresAt) :
    reserved_quantity rs vid now = active_quantity rs vid := by
  rw [reserved_quantity_eq, active_quantity_eq]
  refine congrArg List.sum (List.map_congr_left fun r hr => ?_)
  unfold res_contrib act_contrib
  by_cases hc : r.variantId = vid ∧ r.status = "active"
  · rw [if_pos ⟨hc.1, hc.2, hfr r hr hc.2⟩, if_pos hc]
  · rw [if_neg fun hcc => hc ⟨hcc.1, hcc.2.1⟩, if_neg hc]

/-- The stock bound — at every time at once — follows from the
active-sum bound. -/
lemma stock_invariant_of_active (db : DB)
    (hact : active_reserved_invariant db)
    (hq : ∀ r ∈ db.reservations, r.status = "active" → 0 ≤ r.quantity) :
    ∀ t : ℤ, stock_invariant db t := fun t v hv =>
  le_trans (reserved_le_active db.reservations v.id t hq) (hact v hv)

/-- Marking rows expired can only shrink the active quantity, as long
as active rows have non-negative quantities. -/
lemma active_marked_le (now : ℤ) (ids : List ℕ) (vid : ℕ)
    (rs : List StockReservation)
    (hq : ∀ y ∈ rs, y.status = "active" → 0 ≤ y.quantity) :
    active_quantity (mark_reservations_expired ids now rs) vid
      ≤ active_quantity rs vid := by
  rw [mark_reservations_expired_eq, active_quantity_eq,
    active_quantity_eq, List.map_map]
  refine map_sum_le _ _ rs fun y hy => ?_
  rw [Function.comp_apply]
  by_cases hc : ids.contains y.id
  · rw [if_pos hc]
    have h0 : act_contrib vid (mark_row now y) = 0 := by
      unfold act_contrib
      rw [if_neg fun hcc => absurd hcc.2 (by simp [mark_row])]
    rw [h0]
    unfold act_contrib
    by_cases h2 : y.variantId = vid ∧ y.status = "active"
    · rw [if_pos h2]
      exact hq y hy h2.2
    · rw [if_neg h2]
  · rw [if_neg hc]

/-- Appending reservation rows adds their active contributions. -/
lemma active_quantity_append (rs ts : List StockReservation) (vid : ℕ) :
    active_quantity (rs ++ ts) vid
      = active_quantity rs vid + active_quantity ts vid := by
  rw [active_quantity_eq, active_quantity_eq, active_quantity_eq,
    List.map_append, List.sum_append]

/-- Releasing the active rows of an order can only shrink the active
quantity, as long as active rows have non-negative quantities. -/
lemma active_released_le (oid : ℕ) (reason : String) (now : ℤ)
    (rs : List StockReservation) (vid : ℕ)
    (hq : ∀ y ∈ rs, y.status = "active" → 0 ≤ y.quantity) :
    active_quantity (rs.map fun r =>
      if r.orderId = oid ∧ r.status = "active" then
        { r with
            status := "released"
            releasedAt := some now
            reason := some reason }
      else r) vid ≤ active_quantity rs vid := by
  rw [active_quantity_eq, active_quantity_eq, List.map_map]
  refine map_sum_le _ _ rs fun y hy => ?_
  rw [Function.comp_apply]
  by_cases hc : y.orderId = oid ∧ y.status = "active"
  · rw [if_pos hc]
    have h0 : act_contrib vid ({ y with
        status := "released"
        releasedAt := some now
        reason := some reason } : StockReservation) = 0 := by
      unfold act_contrib
      rw [if_neg fun hcc => absurd hcc.2 (by simp)]
    rw [h0]
    unfold act_contrib
    by_cases h2 : y.variantId = vid ∧ y.status = "active"
    · rw [if_pos h2]
      exact hq y hy h2.2
    · rw [if_neg h2]
  · rw [if_neg hc]

/-- One step of the sweep preserves the active-sum bound: marking a
group shrinks the active quantity, and reactivating it restores exactly
the rows that were active on entry, leaving the total unchanged — no
appeal to the availability check, whose aggregate reads the sweep-entry
snapshot, is needed. -/
lemma expire_active_step (db0 : DB) (now : ℤ) (hwf : db_wf db0) :
    ∀ (oid : ℕ) (rest : List ℕ) (dbk db1 : DB) (acc added : ℕ),
      (expire_core_inv db0 now (oid :: rest) dbk acc ∧
        active_reserved_invariant dbk) →
      process_order_group now oid
        (((db0.reservations.filter fun r =>
            r.status = "active" ∧ r.expiresAt ≤ now).insertionSort
              res_order).filter fun r => r.orderId = oid) db0 dbk
        = .ok (db1, added) →
      expire_core_inv db0 now rest db1 (acc + added) ∧
        active_reserved_invariant db1 := by
  intro oid rest dbk db1 acc added hinv hproc
  obtain ⟨hcore, hact⟩ := hinv
  have hnd : (db0.reservations.map fun r => r.id).Nodup := hwf.2.2.2.2.1
  refine ⟨expire_core_step db0 now hnd oid rest dbk db1 acc added
    hcore hproc, ?_⟩
  have hq := mid_active_quantity_pos db0 now (oid :: rest) dbk acc hwf hcore
  have hqle : ∀ y ∈ dbk.reservations, y.status = "active" →
      0 ≤ y.quantity := fun y hy ha => le_of_lt (hq y hy ha)
  obtain ⟨hndo, hvar, hitems, hcount, f, hmap, hrows⟩ := hcore
  set g := ((db0.reservations.filter fun r =>
      r.status = "active" ∧ r.expiresAt ≤ now).insertionSort
        res_order).filter fun r => r.orderId = oid with hgdef
  set ids := g.map fun r => r.id with hids
  have hgmem : ∀ r : StockReservation,
      r ∈ g ↔ r ∈ db0.reservations ∧ expiring_row now r ∧ r.orderId = oid := by
    intro r
    rw [hgdef, List.mem_filter,
      (List.perm_insertionSort res_order _).mem_iff, List.mem_filter]
    simp [expiring_row, and_assoc]
  have hinj := List.inj_on_of_nodup_map hnd
  have hid : ∀ x ∈ db0.reservations,
      (ids.contains x.id = true ↔ x ∈ g) := by
    intro x hx
    constructor
    · intro hc
      have hmm : x.id ∈ g.map fun r => r.id := by
        rw [hids] at hc
        simpa using hc
      rcases List.mem_map.mp hmm with ⟨r, hrg, hrid⟩
      have hrmem := ((hgmem r).mp hrg).1
      have hrx := hinj hrmem hx hrid
      exact hrx ▸ hrg
    · intro hmemg
      have hmm : x.id ∈ g.map fun r => r.id := List.mem_map_of_mem _ hmemg
      rw [hids]
      simpa using hmm
  have hagree : ∀ x ∈ db0.reservations, ids.contains x.id = true →
      f x = x ∧ expiring_row now x ∧ x.orderId = oid := by
    intro x hx hc
    rcases (hgmem x).mp ((hid x hx).mp hc) with ⟨_, he, ho⟩
    exact ⟨(hrows x hx).2.1 (by rw [ho]; exact List.mem_cons_self _ _) he,
      he, ho⟩
  have hfid : ∀ x ∈ db0.reservations, (f x).id = x.id := by
    intro x hx
    by_cases he : expiring_row now x
    · by_cases ho : x.orderId ∈ oid :: rest
      · rw [(hrows x hx).2.1 ho he]
      · rcases (hrows x hx).2.2 ho he with hf | hf <;> rw [hf] <;> rfl
    · rw [(hrows x hx).1 he]
  obtain ⟨o, hfind, hemp, hbr⟩ := process_order_group_cases now oid g db0 dbk
    db1 added hproc
  have hmark : ∀ v, v ∈ dbk.variants →
      active_quantity (mark_reservations_expired ids now dbk.reservations)
        v.id ≤ v.stock :=
    fun v hv => le_trans (active_marked_le now ids v.id dbk.reservations
      hqle) (hact v hv)
  rcases hbr with ⟨_, hdb, _⟩ | ⟨_, _, hdb, _⟩ |
    ⟨_, _, _, hdb, _⟩ | ⟨_, _, _, hdb, _⟩
  · subst hdb
    intro v hv
    exact hmark v hv
  · subst hdb
    intro v hv
    exact hmark v hv
  · subst hdb
    intro v hv
    show active_quantity (reactivate_reservations ids
      (now + RESERVATION_REACTIVATION_TTL_MINUTES)
      (mark_reservations_expired ids now dbk.reservations)) v.id ≤ v.stock
    rw [reactivate_mark]
    have heq : active_quantity (dbk.reservations.map fun r =>
        if ids.contains r.id then
          react_row (now + RESERVATION_REACTIVATION_TTL_MINUTES) r
        else r) v.id = active_quantity dbk.reservations v.id := by
      rw [hmap, List.map_map, active_quantity_eq, active_quantity_eq,
        List.map_map, List.map_map]
      refine congrArg List.sum (List.map_congr_left fun x hx => ?_)
      simp only [Function.comp_apply]
      rw [hfid x hx]
      by_cases hc : ids.contains x.id = true
      · rcases hagree x hx hc with ⟨hfx, he, _⟩
        rw [hfx, if_pos hc]
        have hxact : x.status = "active" :=
          ((expiring_row_iff now x).mp he).1
        unfold act_contrib
        by_cases hvv : x.variantId = v.id
        · rw [if_pos ⟨hvv, rfl⟩, if_pos ⟨hvv, hxact⟩]
          rfl
        · rw [if_neg fun hcc => hvv hcc.1, if_neg fun hcc => hvv hcc.1]
      · rw [if_neg hc]
    rw [heq]
    exact hact v hv
  · subst hdb
    intro v hv
    exact hmark v hv

/-- The sweep preserves the active-sum bound. -/
lemma expire_active (now : ℤ) (db db' : DB) (n : ℕ) (hwf : db_wf db)
    (hact : active_reserved_invariant db)
    (h : expire_active_reservations now db = .ok (db', n)) :
    active_reserved_invariant db' :=
  (expire_ind now db db' n h
    (fun oids dbk acc => expire_core_inv db now oids dbk acc ∧
      active_reserved_invariant dbk)
    (expire_active_step db now hwf)
    ⟨expire_core_inv_init db now, hact⟩
    (fun hemp => ⟨expire_core_inv_nilo db now hemp, hact⟩)).2

/-- The validation pass returns a sub-list of the items, each checked
against available stock. -/
lemma collect_missing_items_spec (now : ℤ) (db : DB) :
    ∀ (items missing : List OrderItem),
      collect_missing_items now db items = .ok missing →
      List.Sublist missing items ∧
      ∀ i ∈ missing, ∃ pr : Variant × ℤ,
        available_stock_for_variant i.variantId now db = .ok pr ∧
        ¬ (pr.2 < i.quantity) := by
  intro items
  induction items with
  | nil =>
      intro missing h
      unfold collect_missing_items at h
      simp only [Except.ok.injEq] at h
      subst h
      exact ⟨List.nil_sublist _, fun i hi => absurd hi (List.not_mem_nil i)⟩
  | cons i rest ih =>
      intro missing h
      unfold collect_missing_items at h
      rcases hga : get_active_reservation_by_item i.id db with _ | r
      · rw [hga] at h
        dsimp only at h
        rcases hav : available_stock_for_variant i.variantId now db
          with e | ⟨vv, av⟩
        · rw [hav, error_bind] at h
          exact Except.noConfusion h
        · rw [hav, ok_bind] at h
          dsimp only at h
          by_cases hlt : av < i.quantity
          · rw [if_pos hlt] at h
            exact Except.noConfusion h
          · rw [if_neg hlt] at h
            rcases hrec : collect_missing_items now db rest with e | more
            · rw [hrec, error_bind] at h
              exact Except.noConfusion h
            · rw [hrec, ok_bind] at h
              simp only [Except.ok.injEq] at h
              subst h
              obtain ⟨hsub, hprops⟩ := ih more hrec
              refine ⟨List.Sublist.cons₂ i hsub, fun j hj => ?_⟩
              rcases List.mem_cons.mp hj with hji | hjm
              · subst hji
                exact ⟨(vv, av), hav, hlt⟩
              · exact hprops j hjm
      · rw [hga] at h
        dsimp only at h
        obtain ⟨hsub, hprops⟩ := ih missing h
        exact ⟨List.Sublist.cons i hsub, hprops⟩

lemma insert_reservations_variants (oid : ℕ) (e : ℤ) :
    ∀ (missing : List OrderItem) (db : DB),
      (insert_reservations oid e missing db).variants = db.variants := by
  intro missing
  induction missing with
  | nil => intro db; rfl
  | cons i rest ih =>
      intro db
      have hstep : insert_reservations oid e (i :: rest) db
          = insert_reservations oid e rest
            { db with
                reservations := db.reservations ++
                  [{ id := db.nextReservationId
                     orderId := oid
                     orderItemId := i.id
                     variantId := i.variantId
                     quantity := i.quantity
                     status := "active"
                     reactivationCount := 0
                     expiresAt := e
                     consumedAt := none
                     releasedAt := none
                     reason := none }]
                nextReservationId := db.nextReservationId + 1 } := rfl
      rw [hstep, ih]

lemma insert_reservations_reserved (oid : ℕ) (e now : ℤ) (he : now < e) :
    ∀ (missing : List OrderItem) (db : DB) (vid : ℕ),
      reserved_quantity (insert_reservations oid e missing db).reservations
          vid now
        = reserved_quantity db.reservations vid now
          + ((missing.filter fun i => i.variantId = vid).map
              fun i => i.quantity).sum := by
  intro missing
  induction missing with
  | nil =>
      intro db vid
      show reserved_quantity db.reservations vid now = _
      simp
  | cons i rest ih =>
      intro db vid
      have hstep : insert_reservations oid e (i :: rest) db
          = insert_reservations oid e rest
            { db with
                reservations := db.reservations ++
                  [{ id := db.nextReservationId
                     orderId := oid
                     orderItemId := i.id
                     variantId := i.variantId
                     quantity := i.quantity
                     status := "active"
                     reactivationCount := 0
                     expiresAt := e
                     consumedAt := none
                     releasedAt := none
                     reason := none }]
                nextReservationId := db.nextReservationId + 1 } := rfl
      rw [hstep, ih _ vid]
      show reserved_quantity (db.reservations ++ [_]) vid now + _ = _
      rw [reserved_quantity_append]
      have hrow : reserved_quantity
          [({ id := db.nextReservationId, orderId := oid,
              orderItemId := i.id, variantId := i.variantId,
              quantity := i.quantity, status := "active",
              reactivationCount := 0, expiresAt := e, consumedAt := none,
              releasedAt := none, reason := none } : StockReservation)]
          vid now = if i.variantId = vid then i.quantity else 0 := by
        rw [reserved_quantity_eq]
        show res_contrib vid now _ + 0 = _
        rw [add_zero]
        unfold res_contrib
        by_cases hvv : i.variantId = vid
        · rw [if_pos ⟨hvv, rfl, he⟩, if_pos hvv]
        · rw [if_neg fun hcc => hvv hcc.1, if_neg hvv]
      rw [hrow, List.filter_cons]
      by_cases hvv : i.variantId = vid
      · rw [if_pos hvv, if_pos (show decide (i.variantId = vid) = true from
          by simp [hvv]), List.map_cons, List.sum_cons]
        ring
      · rw [if_neg hvv, if_neg (show ¬ decide (i.variantId = vid) = true from
          by simp [hvv])]
        ring

/-- Inserting fresh reservations adds their active contributions. -/
lemma insert_reservations_active (oid : ℕ) (e : ℤ) :
    ∀ (missing : List OrderItem) (db : DB) (vid : ℕ),
      active_quantity (insert_reservations oid e missing db).reservations vid
        = active_quantity db.reservations vid
          + ((missing.filter fun i => i.variantId = vid).map
              fun i => i.quantity).sum := by
  intro missing
  induction missing with
  | nil =>
      intro db vid
      show active_quantity db.reservations vid = _
      simp
  | cons i rest ih =>
      intro db vid
      have hstep : insert_reservations oid e (i :: rest) db
          = insert_reservations oid e rest
            { db with
                reservations := db.reservations ++
                  [{ id := db.nextReservationId
                     orderId := oid
                     orderItemId := i.id
                     variantId := i.variantId
                     quantity := i.quantity
                     status := "active"
                     reactivationCount := 0
                     expiresAt := e
                     consumedAt := none
                     releasedAt := none
                     reason := none }]
                nextReservationId := db.nextReservationId + 1 } := rfl
      rw [hstep, ih _ vid]
      show active_quantity (db.reservations ++ [_]) vid + _ = _
      rw [active_quantity_append]
      have hrow : active_quantity
          [({ id := db.nextReservationId, orderId := oid,
              orderItemId := i.id, variantId := i.variantId,
              quantity := i.quantity, status := "active",
              reactivationCount := 0, expiresAt := e, consumedAt := none,
              releasedAt := none, reason := none } : StockReservation)]
          vid = if i.variantId = vid then i.quantity else 0 := by
        rw [active_quantity_eq]
        show act_contrib vid _ + 0 = _
        rw [add_zero]
        unfold act_contrib
        by_cases hvv : i.variantId = vid
        · rw [if_pos ⟨hvv, rfl⟩, if_pos hvv]
        · rw [if_neg fun hcc => hvv hcc.1, if_neg hvv]
      rw [hrow, List.filter_cons]
      by_cases hvv : i.variantId = vid
      · rw [if_pos hvv, if_pos (show decide (i.variantId = vid) = true from
          by simp [hvv]), List.map_cons, List.sum_cons]
        ring
      · rw [if_neg hvv, if_neg (show ¬ decide (i.variantId = vid) = true from
          by simp [hvv])]
        ring

/-- Every reservation row after the insertion pass is an old row or a
fresh row carrying the quantity of a missing item. -/
lemma insert_reservations_rows (oid : ℕ) (e : ℤ) :
    ∀ (missing : List OrderItem) (db : DB),
      ∀ r ∈ (insert_reservations oid e missing db).reservations,
        r ∈ db.reservations ∨ ∃ i ∈ missing, r.quantity = i.quantity := by
  intro missing
  induction missing with
  | nil =>
      intro db r hr
      exact Or.inl hr
  | cons i rest ih =>
      intro db r hr
      have hstep : insert_reservations oid e (i :: rest) db
          = insert_reservations oid e rest
            { db with
                reservations := db.reservations ++
                  [{ id := db.nextReservationId
                     orderId := oid
                     orderItemId := i.id
                     variantId := i.variantId
                     quantity := i.quantity
                     status := "active"
                     reactivationCount := 0
                     expiresAt := e
                     consumedAt := none
                     releasedAt := none
                     reason := none }]
                nextReservationId := db.nextReservationId + 1 } := rfl
      rw [hstep] at hr
      rcases ih _ r hr with hold | ⟨j, hj, hq⟩
      · have hold2 : r ∈ db.reservations ++
            [({ id := db.nextReservationId, orderId := oid,
                orderItemId := i.id, variantId := i.variantId,
                quantity := i.quantity, status := "active",
                reactivationCount := 0, expiresAt := e, consumedAt := none,
                releasedAt := none, reason := none } : StockReservation)] :=
          hold
        rcases List.mem_append.mp hold2 with h1 | h2
        · exact Or.inl h1
        · refine Or.inr ⟨i, List.mem_cons_self _ _, ?_⟩
          have hre := List.mem_singleton.mp h2
          rw [hre]
      · exact Or.inr ⟨j, List.mem_cons_of_mem _ hj, hq⟩

/-- The guarded-update loop flips exactly the listed rows to consumed. -/
lemma consume_go_reservations (now : ℤ) :
    ∀ (actives : List StockReservation) (db db' : DB),
      consume_reservations_go now actives db = .ok db' →
      db'.reservations = db.reservations.map fun x =>
        if (actives.map fun r => r.id).contains x.id then consume_row now x
        else x := by
  intro actives
  induction actives with
  | nil =>
      intro db db' h
      unfold consume_reservations_go at h
      simp only [Except.ok.injEq] at h
      subst h
      simp
  | cons r rest ih =>
      intro db db' h
      unfold consume_reservations_go at h
      dsimp only at h
      by_cases hlen : (db.variants.filter fun v =>
          v.id = r.variantId ∧ r.quantity ≤ v.stock).length ≠ 1
      · rw [if_pos hlen] at h
        exact Except.noConfusion h
      · rw [if_neg hlen] at h
        have hres : db'.reservations = (db.reservations.map fun x =>
            if x.id = r.id then consume_row now x else x).map fun x =>
              if (rest.map fun q => q.id).contains x.id then
                consume_row now x
              else x := ih _ db' h
        rw [hres, List.map_map]
        refine List.map_congr_left fun x _ => ?_
        rw [Function.comp_apply]
        by_cases hc1 : x.id = r.id
        · have hcc : (((r :: rest).map fun q => q.id).contains x.id)
              = true := by
            rw [List.map_cons]
            simp [hc1]
          rw [if_pos hc1, if_pos hcc]
          by_cases hc2 : ((rest.map fun q => q.id).contains
              (consume_row now x).id) = true
          · rw [if_pos hc2]
            rfl
          · rw [if_neg hc2]
        · have hcc : (((r :: rest).map fun q => q.id).contains x.id)
              = ((rest.map fun q => q.id).contains x.id) := by
            rw [List.map_cons]
            simp [List.contains_cons, hc1]
          rw [if_neg hc1, hcc]

lemma map_sum_add_sub {α : Type} (f g h : α → ℤ) :
    ∀ l : List α, (l.map fun y => f y + (g y - h y)).sum
      = (l.map f).sum + ((l.map g).sum - (l.map h).sum) := by
  intro l
  induction l with
  | nil => simp
  | cons a l ih =>
      rw [List.map_cons, List.map_cons, List.map_cons, List.map_cons,
        List.sum_cons, List.sum_cons, List.sum_cons, List.sum_cons, ih]
      ring

/-- **C5**: for every variant, the quantity summed over active
non-expired reservations never exceeds the variant's stock in any state
reachable through the reservation engine. The bound is carried by the
inductive invariant `active_reserved_invariant` — the sum over all
active rows, stale ones included, stays within stock — which holds in
particular in any state without reservations, implies the claimed bound
at every time, and is preserved by each of the four public operations
(reserve on submission, the expiry sweep with its snapshot-checked
reactivations, consumption on payment, release on cancellation), each of
which also re-establishes the claimed bound at every time. -/
theorem C5_reserved_quantity_bounded_by_stock :
    ∀ (db : DB) (now : ℤ), db_wf db → active_reserved_invariant db →
      (∀ (oid : ℕ) (db' : DB) (res : List StockReservation),
        reserve_stock_for_submitted_order oid now db = .ok (db', res) →
        active_reserved_invariant db' ∧ ∀ t : ℤ, stock_invariant db' t) ∧
      (∀ (db' : DB) (n : ℕ),
        expire_active_reservations now db = .ok (db', n) →
        active_reserved_invariant db' ∧ ∀ t : ℤ, stock_invariant db' t) ∧
      (∀ (oid : ℕ) (db' : DB) (res : List StockReservation),
        consume_reservations_for_paid_order oid now db = .ok (db', res) →
        active_reserved_invariant db' ∧ ∀ t : ℤ, stock_invariant db' t) ∧
      (∀ (oid : ℕ) (reason : String) (db' : DB) (n : ℕ),
        release_reservations_for_cancelled_order oid reason now db
          = .ok (db', n) →
        active_reserved_invariant db' ∧ ∀ t : ℤ, stock_invariant db' t) ∧
      (∀ t : ℤ, stock_invariant db t) := by
  intro db now hwf hact
  have hndr : (db.reservations.map fun r => r.id).Nodup := hwf.2.2.2.2.1
  have hqwf : ∀ r ∈ db.reservations, r.status = "active" →
      0 ≤ r.quantity := by
    intro r hr ha
    obtain ⟨i, hi, _, _, _, hq⟩ := hwf.2.1 r hr ha
    rw [← hq]
    exact le_of_lt (hwf.2.2.2.2.2.2 i hi)
  refine ⟨?_, ?_, ?_, ?_, stock_invariant_of_active db hact hqwf⟩
  · -- reserve
    intro oid db' res h
    unfold reserve_stock_for_submitted_order at h
    rcases hexp : expire_active_reservations now db with e | ⟨db1, n1⟩
    · rw [hexp, error_bind] at h
      exact Except.noConfusion h
    rw [hexp, ok_bind] at h
    dsimp only at h
    have hact1 := expire_active now db db1 n1 hwf hact hexp
    have hv1 := expire_variants_eq now db db1 n1 hndr hexp
    have hit1 := expire_items_eq now db db1 n1 hndr hexp
    have hcore1 := expire_core now db db1 n1 hndr hexp
    have hq1 := mid_active_quantity_pos db now [] db1 n1 hwf hcore1
    have hqle1 : ∀ y ∈ db1.reservations, y.status = "active" →
        0 ≤ y.quantity := fun y hy ha => le_of_lt (hq1 y hy ha)
    unfold lock_order_items_for_order at h
    rcases hord : db1.orders.find? fun q => q.id = oid with _ | o
    · rw [hord] at h
      dsimp only at h
      rw [error_bind] at h
      exact Except.noConfusion h
    rw [hord] at h
    dsimp only at h
    rcases hemp : ((items_of db1 oid).insertionSort item_order).isEmpty
        with _ | _
    case true =>
      rw [hemp, if_pos rfl, error_bind] at h
      exact Except.noConfusion h
    rw [hemp, if_neg (by simp), ok_bind] at h
    dsimp only at h
    by_cases hg : o.status ≠ "draft" ∧ o.status ≠ "submitted"
    · rw [if_pos hg] at h
      exact Except.noConfusion h
    rw [if_neg hg] at h
    by_cases he2 : ¬ ((db1.reservations.filter fun r =>
        r.orderId = oid ∧ r.status = "active").insertionSort
          res_id_order).isEmpty = true ∧
        ((db1.reservations.filter fun r =>
          r.orderId = oid ∧ r.status = "active").insertionSort
            res_id_order).length
          = ((items_of db1 oid).insertionSort item_order).length
    · rw [if_pos he2] at h
      simp only [Except.ok.injEq, Prod.mk.injEq] at h
      rw [← h.1]
      exact ⟨hact1, stock_invariant_of_active db1 hact1 hqle1⟩
    rw [if_neg he2] at h
    rcases hcol : collect_missing_items now db1
        ((items_of db1 oid).insertionSort item_order) with e | missing
    · rw [hcol, error_bind] at h
      exact Except.noConfusion h
    rw [hcol, ok_bind] at h
    simp only [Except.ok.injEq, Prod.mk.injEq] at h
    rw [← h.1]
    obtain ⟨hsub, hprops⟩ := collect_missing_items_spec now db1 _ _ hcol
    have httl : (0 : ℤ) < RESERVATION_TTL_MINUTES := by
      unfold RESERVATION_TTL_MINUTES
      norm_num
    have hlt : now < now + RESERVATION_TTL_MINUTES := by linarith
    have hitem_mem : ∀ i ∈ missing, i ∈ db.items ∧ i.orderId = oid := by
      intro i hi
      have hmi : i ∈ (items_of db1 oid).insertionSort item_order :=
        hsub.mem hi
      rw [(List.perm_insertionSort item_order _).mem_iff] at hmi
      unfold items_of at hmi
      rw [hit1] at hmi
      rw [List.mem_filter] at hmi
      refine ⟨hmi.1, ?_⟩
      have h2 := hmi.2
      simpa using h2
    have hactins : active_reserved_invariant
        (insert_reservations oid (now + RESERVATION_TTL_MINUTES)
          missing db1) := by
      intro v hv
      rw [insert_reservations_variants] at hv
      show active_quantity (insert_reservations oid
        (now + RESERVATION_TTL_MINUTES) missing db1).reservations v.id
        ≤ v.stock
      rw [insert_reservations_active]
      have hvdb : v ∈ db.variants := by rw [← hv1]; exact hv
      rcases hfl : missing.filter fun i => i.variantId = v.id with _ | ⟨i0, t⟩
      · rw [hfl]
        simp only [List.map_nil, List.sum_nil, add_zero]
        exact hact1 v hv
      · have ht0 : t = [] := by
          have hnd : (missing.filter fun i => i.variantId = v.id).Nodup := by
            refine List.Nodup.filter _ (hsub.nodup ?_)
            refine ((List.perm_insertionSort item_order _).nodup_iff).mpr ?_
            unfold items_of
            rw [hit1]
            exact List.Nodup.filter _
              (List.Nodup.of_map _ hwf.2.2.2.2.2.1)
          have halleq : ∀ x ∈ missing.filter fun i => i.variantId = v.id,
              ∀ y ∈ missing.filter fun i => i.variantId = v.id, x = y := by
            intro x hx y hy
            rw [List.mem_filter] at hx hy
            have hxm := hitem_mem x (hx.1)
            have hym := hitem_mem y (hy.1)
            refine hwf.1 x hxm.1 y hym.1 (by rw [hxm.2, hym.2]) ?_
            have hx2 := hx.2
            have hy2 := hy.2
            simp only [decide_eq_true_eq] at hx2 hy2
            rw [hx2, hy2]
          have hle := length_le_one_of_all_eq _ hnd halleq
          rw [hfl] at hle
          simp only [List.length_cons] at hle
          rw [← List.length_eq_zero]
          omega
        subst ht0
        rw [hfl]
        simp only [List.map_cons, List.map_nil, List.sum_cons, List.sum_nil,
          add_zero]
        have hi0 : i0 ∈ missing ∧ i0.variantId = v.id := by
          have := List.mem_filter.mp (hfl ▸ List.mem_cons_self i0 [])
          refine ⟨this.1, ?_⟩
          have h2 := this.2
          simpa using h2
        obtain ⟨pr, hav, hnlt⟩ := hprops i0 hi0.1
        unfold available_stock_for_variant at hav
        rcases hfd : db1.variants.find?
            (fun w => w.id = i0.variantId ∧ w.isActive) with _ | vv
        · rw [hfd] at hav
          exact Except.noConfusion hav
        · rw [hfd] at hav
          simp only [Except.ok.injEq] at hav
          have hvmem : vv ∈ db1.variants := List.mem_of_find?_eq_some hfd
          have hvpred := List.find?_some hfd
          simp only [decide_eq_true_eq] at hvpred
          have hvveq : vv = v := by
            have hvinj := List.inj_on_of_nodup_map hwf.2.2.2.1
            have hva : vv ∈ db.variants := by rw [← hv1]; exact hvmem
            refine hvinj hva hvdb ?_
            rw [hvpred.1, hi0.2]
          rw [hvveq] at hav
          subst hav
          have hq0 : 0 < i0.quantity :=
            hwf.2.2.2.2.2.2 i0 (hitem_mem i0 hi0.1).1
          rw [hi0.2] at hnlt
          have hfr : reserved_quantity db1.reservations v.id now
              = active_quantity db1.reservations v.id :=
            reserved_eq_active_of_fresh db1.reservations v.id now
              (expire_fresh now db db1 n1 hndr hexp)
          have hnlt2 : ¬ (max 0 (v.stock - reserved_quantity
              db1.reservations v.id now) < i0.quantity) := hnlt
          rcases le_or_lt (v.stock - reserved_quantity
              db1.reservations v.id now) 0 with hz | hz
          · rw [max_eq_left hz] at hnlt2
            exact absurd hq0 hnlt2
          · rw [max_eq_right (le_of_lt hz)] at hnlt2
            omega
    have hqins : ∀ r ∈ (insert_reservations oid
        (now + RESERVATION_TTL_MINUTES) missing db1).reservations,
        r.status = "active" → 0 ≤ r.quantity := by
      intro r hr ha
      rcases insert_reservations_rows oid (now + RESERVATION_TTL_MINUTES)
        missing db1 r hr with hold | ⟨i, hi, hq2⟩
      · exact hqle1 r hold ha
      · rw [hq2]
        exact le_of_lt (hwf.2.2.2.2.2.2 i (hitem_mem i hi).1)
    exact ⟨hactins, stock_invariant_of_active _ hactins hqins⟩
  · -- expire
    intro db' n h
    have hact' := expire_active now db db' n hwf hact h
    have hcore' := expire_core now db db' n hndr h
    have hq' := mid_active_quantity_pos db now [] db' n hwf hcore'
    exact ⟨hact', stock_invariant_of_active db' hact'
      fun r hr ha => le_of_lt (hq' r hr ha)⟩
  · -- consume
    intro oid db' res h
    unfold consume_reservations_for_paid_order at h
    rcases hexp : expire_active_reservations now db with e | ⟨db1, n1⟩
    · rw [hexp, error_bind] at h
      exact Except.noConfusion h
    rw [hexp, ok_bind] at h
    dsimp only at h
    have hact1 := expire_active now db db1 n1 hwf hact hexp
    have hv1 := expire_variants_eq now db db1 n1 hndr hexp
    have hids1 := expire_ids_eq now db db1 n1 hndr hexp
    have hcore1 := expire_core now db db1 n1 hndr hexp
    have hq1 := mid_active_quantity_pos db now [] db1 n1 hwf hcore1
    have hqle1 : ∀ y ∈ db1.reservations, y.status = "active" →
        0 ≤ y.quantity := fun y hy ha => le_of_lt (hq1 y hy ha)
    have hndr1 : (db1.reservations.map fun r => r.id).Nodup := by
      rw [hids1]
      exact hndr
    unfold lock_order_items_for_order at h
    rcases hord : db1.orders.find? fun q => q.id = oid with _ | o
    · rw [hord] at h
      dsimp only at h
      rw [error_bind] at h
      exact Except.noConfusion h
    rw [hord] at h
    dsimp only at h
    rcases hemp : ((items_of db1 oid).insertionSort item_order).isEmpty
        with _ | _
    case true =>
      rw [hemp, if_pos rfl, error_bind] at h
      exact Except.noConfusion h
    rw [hemp, if_neg (by simp), ok_bind] at h
    dsimp only at h
    by_cases hst : o.status ≠ "submitted" ∧ o.status ≠ "paid"
    · rw [if_pos hst] at h
      exact Except.noConfusion h
    rw [if_neg hst] at h
    rcases hae : ((db1.reservations.filter fun r =>
        r.orderId = oid ∧ r.status = "active").insertionSort
          res_id_order).isEmpty with _ | _
    ·
      rw [hae, if_neg (by simp)] at h
      rcases hgo : consume_reservations_go now
          ((db1.reservations.filter fun r =>
            r.orderId = oid ∧ r.status = "active").insertionSort
              res_id_order) db1 with e | db2
      · rw [hgo, error_bind] at h
        exact Except.noConfusion h
      rw [hgo, ok_bind] at h
      simp only [Except.ok.injEq, Prod.mk.injEq] at h
      rw [← h.1]
      have hperm := List.perm_insertionSort res_id_order
        (db1.reservations.filter fun r =>
          r.orderId = oid ∧ r.status = "active")
      have hnda : (((db1.reservations.filter fun r =>
          r.orderId = oid ∧ r.status = "active").insertionSort
            res_id_order).map fun r => r.id).Nodup := by
        rw [(hperm.map fun r => r.id).nodup_iff]
        exact List.Nodup.sublist
          ((List.filter_sublist db1.reservations).map fun r => r.id) hndr1
      have hall : ∀ r ∈ (db1.reservations.filter fun r =>
          r.orderId = oid ∧ r.status = "active").insertionSort res_id_order,
          r ∈ db1.reservations ∧ r.status = "active" := by
        intro r hr
        rw [hperm.mem_iff, List.mem_filter] at hr
        refine ⟨hr.1, ?_⟩
        have h2 := hr.2
        simp only [decide_eq_true_eq] at h2
        exact h2.2
      have hndv1 : (db1.variants.map fun v => v.id).Nodup := by
        rw [hv1]
        exact hwf.2.2.2.1
      have hspec := consume_go_spec now _ db1 db2 hgo hndv1 hndr1 hnda hall
      have hres2 := consume_go_reservations now _ db1 db2 hgo
      have hrinj1 := List.inj_on_of_nodup_map hndr1
      set actIds := ((db1.reservations.filter fun r =>
          r.orderId = oid ∧ r.status = "active").insertionSort
            res_id_order).map fun r => r.id with hactIds
      have hact2 : active_reserved_invariant db2 := by
        intro vb hvb
        obtain ⟨v, hv, hR⟩ := forall₂_mem_right hspec vb hvb
        obtain ⟨h1, _, _, _, h5, _⟩ := hR
        rw [h1]
        have hpt : ∀ y ∈ db1.reservations,
            act_contrib v.id ((fun x => if actIds.contains x.id then
                consume_row now x else x) y)
              + (cons_contrib v.id ((fun x => if actIds.contains x.id then
                  consume_row now x else x) y) - cons_contrib v.id y)
              = act_contrib v.id y := by
          intro y hy
          dsimp only
          by_cases hcy : actIds.contains y.id = true
          · have hya : y ∈ (db1.reservations.filter fun r =>
                r.orderId = oid ∧ r.status = "active").insertionSort
                  res_id_order := by
              have hmm : y.id ∈ actIds := by simpa using hcy
              rw [hactIds] at hmm
              rcases List.mem_map.mp hmm with ⟨a, ha, haid⟩
              have haeq := hrinj1 (hall a ha).1 hy haid
              exact haeq ▸ ha
            have hyact : y.status = "active" := (hall y hya).2
            rw [if_pos hcy]
            have hrc0 : act_contrib v.id (consume_row now y) = 0 := by
              unfold act_contrib
              rw [if_neg fun hcc => absurd hcc.2 (by simp [consume_row])]
            have hcc0 : cons_contrib v.id y = 0 := by
              unfold cons_contrib
              have hnc : ¬ (y.variantId = v.id ∧ y.status = "consumed") := by
                intro hcc
                rw [hyact] at hcc
                exact absurd hcc.2 (by decide)
              rw [if_neg hnc]
            rw [hrc0, hcc0]
            unfold act_contrib cons_contrib
            by_cases hvv : y.variantId = v.id
            · rw [if_pos ⟨hvv, rfl⟩, if_pos ⟨hvv, hyact⟩]
              show 0 + ((consume_row now y).quantity - 0) = y.quantity
              show 0 + (y.quantity - 0) = y.quantity
              ring
            · rw [if_neg fun hcc => hvv hcc.1, if_neg fun hcc => hvv hcc.1]
              ring
          · rw [if_neg hcy]
            ring
        have hsum : active_quantity db2.reservations v.id
            + (consumed_quantity db2.reservations v.id
              - consumed_quantity db1.reservations v.id)
            = active_quantity db1.reservations v.id := by
          rw [hres2, active_quantity_eq, active_quantity_eq,
            consumed_quantity_eq, consumed_quantity_eq, List.map_map,
            List.map_map]
          rw [← map_sum_add_sub]
          refine congrArg List.sum (List.map_congr_left fun y hy => ?_)
          exact hpt y hy
        have hb1 : active_quantity db1.reservations v.id ≤ v.stock :=
          hact1 v hv
        rw [h5]
        omega
      have hq2 : ∀ r ∈ db2.reservations, r.status = "active" →
          0 ≤ r.quantity := by
        intro r hr ha
        rw [hres2] at hr
        rcases List.mem_map.mp hr with ⟨y, hy, hfy⟩
        by_cases hcy : actIds.contains y.id = true
        · rw [if_pos hcy] at hfy
          rw [← hfy] at ha
          exact absurd ha (by simp [consume_row])
        · rw [if_neg hcy] at hfy
          rw [← hfy] at ha ⊢
          exact hqle1 y hy ha
      exact ⟨hact2, stock_invariant_of_active db2 hact2 hq2⟩
    · rw [hae, if_pos rfl] at h
      by_cases hcons : ¬ ((db1.reservations.filter fun r =>
          r.orderId = oid ∧ r.status = "consumed").insertionSort
            res_id_order).isEmpty ∧ o.status = "paid"
      · rw [if_pos hcons] at h
        simp only [Except.ok.injEq, Prod.mk.injEq] at h
        rw [← h.1]
        exact ⟨hact1, stock_invariant_of_active db1 hact1 hqle1⟩
      · rw [if_neg hcons] at h
        exact Except.noConfusion h
  · -- release
    intro oid reason db' n h
    unfold release_reservations_for_cancelled_order at h
    rcases hexp : expire_active_reservations now db with e | ⟨db1, n1⟩
    · rw [hexp, error_bind] at h
      exact Except.noConfusion h
    rw [hexp, ok_bind] at h
    dsimp only at h
    have hact1 := expire_active now db db1 n1 hwf hact hexp
    have hcore1 := expire_core now db db1 n1 hndr hexp
    have hq1 := mid_active_quantity_pos db now [] db1 n1 hwf hcore1
    have hqle1 : ∀ y ∈ db1.reservations, y.status = "active" →
        0 ≤ y.quantity := fun y hy ha => le_of_lt (hq1 y hy ha)
    rcases hlock : lock_order_items_for_order oid db1 with e | pr
    · rw [hlock, error_bind] at h
      exact Except.noConfusion h
    rw [hlock, ok_bind] at h
    simp only [Except.ok.injEq, Prod.mk.injEq] at h
    rw [← h.1]
    have hactrel : active_reserved_invariant
        { db1 with
            reservations := db1.reservations.map fun r =>
              if r.orderId = oid ∧ r.status = "active" then
                { r with
                    status := "released"
                    releasedAt := some now
                    reason := some reason }
              else r } :=
      fun v hv => le_trans
        (active_released_le oid reason now db1.reservations v.id hqle1)
        (hact1 v hv)
    refine ⟨hactrel, stock_invariant_of_active _ hactrel ?_⟩
    intro r hr ha
    have hr2 : r ∈ db1.reservations.map fun x =>
        if x.orderId = oid ∧ x.status = "active" then
          { x with
              status := "released"
              releasedAt := some now
              reason := some reason }
        else x := hr
    rcases List.mem_map.mp hr2 with ⟨y, hy, hfy⟩
    by_cases hc : y.orderId = oid ∧ y.status = "active"
    · rw [if_pos hc] at hfy
      rw [← hfy] at ha
      exact absurd ha (by simp)
    · rw [if_neg hc] at hfy
      rw [← hfy] at ha ⊢
      exact hqle1 y hy ha

/-- Variant 1 with stock 10, nothing reserved yet. -/
def C5_var : Variant :=
  { id := 1, productId := 1, price := 100, stock := 10, isActive := true }

/-- The submitted order 30 waiting for its reservation. -/
def C5_o : Order :=
  { id := 30, userId := 1, status := "submitted", currency := "ARS",
    subtotal := 200, discountTotal := 0, totalAmount := 200,
    pricingFrozen := true, pricingFrozenAt := some 0, submittedAt := some 0,
    paidAt := none, cancelledAt := none }

/-- The order item of quantity 2 on variant 1. -/
def C5_it : OrderItem :=
  { id := 7, orderId := 30, productId := 1, variantId := 1, quantity := 2,
    unitPrice := 100, discountId := none, discountAmount := 0,
    finalUnitPrice := 100, lineTotal := 200 }

/-- Well-formed state with no reservations. -/
def C5_db : DB :=
  { variants := [C5_var], products := [], orders := [C5_o], items := [C5_it],
    reservations := [], payments := [], webhookEvents := [], discounts := [],
    nextReservationId := 100, nextPaymentId := 100, nextOrderId := 100,
    nextItemId := 100 }

/-- The state after reserving stock for order 30. -/
def C5_out : DB × List StockReservation :=
  match reserve_stock_for_submitted_order 30 0 C5_db with
  | .ok x => x
  | .error _ => (C5_db, [])

/-- Witness for C5: reserving quantity 2 against stock 10 keeps the
invariant, which also holds at a later time. -/
theorem C5_reserved_quantity_bounded_by_stock_witness :
    stock_invariant C5_out.1 0 ∧ stock_invariant C5_db 5 :=
  ⟨((C5_reserved_quantity_bounded_by_stock C5_db 0
      (by unfold db_wf; decide)
      (by unfold active_reserved_invariant; decide)).1 30 C5_out.1 C5_out.2
        (by with_unfolding_all rfl)).2 0,
    (C5_reserved_quantity_bounded_by_stock C5_db 0
      (by unfold db_wf; decide)
      (by unfold active_reserved_invariant; decide)).2.2.2.2 5⟩

end PatitasBigotes

